import Mathlib

/-!
# SC4 "Legalize Gambling" ordinance upgrade: record, lifecycle and wire format

A shallow embedding of `SC4BuiltInOrdinanceBase` (SC4BuiltInOrdinanceBase.cpp) and of
its specialisation `LegalizeGamblingOrdinanceUpgrade`
(LegalizeGamblingOrdinanceUpgrade.cpp).

Conventions of the embedding

* Machine integers are `Nat` / `Int`; the places where the C++ type wraps carry an
  explicit `% 2 ^ w`.
* A `float` member is carried as its 32-bit IEEE-754 pattern (a `Nat` below `2 ^ 32`);
  the serialisation code only moves such values, so bit patterns are what matters.
* A `cRZBaseString` is the list of its bytes.
* A C++ method that may assign members is a function returning the updated record
  next to its C++ return value.
* The streams `cIGZIStream` / `cIGZOStream` belong to the host framework.  The output
  stream is modelled as the log of the primitive writes it accepted together with an
  arbitrary acceptance function (a sink may refuse any write); the input stream is a
  sequence of bytes, decoded little-endian as on the x86 host.
* Calls on host objects (application, city, managers, windows) are recorded in a
  call log, so that "no collaborator is touched" is a statement about that log.
* The diagnostic `Logger` output is not part of the modelled state.
-/

namespace SC4

/-! ## Bytes and little-endian primitives -/

abbrev Byte := Fin 256

/-- The `w` low-order bytes of `n`, least significant first. -/
def leBytes : Nat → Nat → List Byte
  | 0, _ => []
  | w + 1, n => ⟨n % 256, Nat.mod_lt _ (by decide)⟩ :: leBytes w (n / 256)

/-- The number a little-endian byte sequence denotes. -/
def leValue : List Byte → Nat
  | [] => 0
  | b :: bs => b.val + 256 * leValue bs

/-- Two's-complement reading of a 64-bit pattern (`int64_t`). -/
def toSint64 (n : Nat) : Int :=
  if n < 2 ^ 63 then (n : Int) else (n : Int) - 2 ^ 64

/-- The 64-bit pattern of an `int64_t` value. -/
def ofSint64 (v : Int) : Nat :=
  (v % 2 ^ 64).toNat

/-- One primitive write on a `cIGZOStream`, named after the method that performs it. -/
inductive Prim where
  /-- The write `SetUint16(v)`: two bytes. -/
  | uint16 (v : Nat)
  /-- The write `SetUint32(v)`: four bytes. -/
  | uint32 (v : Nat)
  /-- The write `SetVoid(&b, 1)`: the single byte `b`. -/
  | void1 (b : Nat)
  /-- The write `SetFloat32(f)`: the four bytes of the pattern of `f`. -/
  | float32 (bits : Nat)
  /-- The write `SetSint64(v)`: eight bytes. -/
  | sint64 (v : Int)
  /-- The write `SetGZStr(s)`: a `uint32` length followed by the characters. -/
  | gzStr (s : List Byte)
deriving DecidableEq, Repr

/-- The bytes a primitive occupies on the wire. -/
def Prim.bytes : Prim → List Byte
  | .uint16 v => leBytes 2 v
  | .uint32 v => leBytes 4 v
  | .void1 b => leBytes 1 b
  | .float32 f => leBytes 4 f
  | .sint64 v => leBytes 8 (ofSint64 v)
  | .gzStr s => leBytes 4 s.length ++ s

/-- The bytes of a sequence of primitives, in order. -/
def wireBytes : List Prim → List Byte
  | [] => []
  | p :: ps => p.bytes ++ wireBytes ps

/-! ## Output stream (`cIGZOStream`) -/

/-- A `cIGZOStream`: `written` is what the sink accepted so far, `error` is what
`GetError()` reports, and `accepts written p` tells whether the sink takes the
primitive `p` after `written`. -/
structure OStream where
  written : List Prim
  error : Nat
  accepts : List Prim → Prim → Bool

/-- A primitive write: appended when the sink accepts it, otherwise nothing is emitted
and the call reports failure. -/
def OStream.put (s : OStream) (p : Prim) : Bool × OStream :=
  if s.accepts s.written p then (true, { s with written := s.written ++ [p] })
  else (false, s)

def OStream.GetError (s : OStream) : Nat := s.error

/-! The `Set...` methods: each is one primitive write.  `SetUint16` takes its argument
through the conversion to `uint16_t`; `SetVoid1` is `SetVoid(buf, 1)`. -/

def OStream.SetUint16 (s : OStream) (v : Nat) : Bool × OStream := s.put (.uint16 (v % 2 ^ 16))

def OStream.SetUint32 (s : OStream) (v : Nat) : Bool × OStream := s.put (.uint32 v)

def OStream.SetVoid1 (s : OStream) (b : Nat) : Bool × OStream := s.put (.void1 b)

def OStream.SetFloat32 (s : OStream) (f : Nat) : Bool × OStream := s.put (.float32 f)

def OStream.SetSint64 (s : OStream) (v : Int) : Bool × OStream := s.put (.sint64 v)

def OStream.SetGZStr (s : OStream) (str : List Byte) : Bool × OStream := s.put (.gzStr str)

/-- The C++ idiom `if (!step) return false; rest` (and `step && rest`) on a stream. -/
def orFail (step : OStream → Bool × OStream) (rest : OStream → Bool × OStream)
    (s : OStream) : Bool × OStream :=
  match step s with
  | (true, s1) => rest s1
  | (false, s1) => (false, s1)

/-! ## Input stream (`cIGZIStream`) -/

/-- A `cIGZIStream`: the bytes not yet consumed and the `GetError()` flag. -/
structure IStream where
  bytes : List Byte
  error : Nat
deriving DecidableEq, Repr

def IStream.GetError (s : IStream) : Nat := s.error

/-- The read `GetVoid(buf, n)`: the next `n` bytes, or failure when fewer remain.  A
failed read delivers nothing to its target. -/
def IStream.GetVoid (s : IStream) (n : Nat) : Option (List Byte × IStream) :=
  if n ≤ s.bytes.length then some (s.bytes.take n, { s with bytes := s.bytes.drop n })
  else none

def IStream.GetUint16 (s : IStream) : Option (Nat × IStream) :=
  (s.GetVoid 2).map fun (bs, s1) => (leValue bs, s1)

def IStream.GetUint32 (s : IStream) : Option (Nat × IStream) :=
  (s.GetVoid 4).map fun (bs, s1) => (leValue bs, s1)

def IStream.GetFloat32 (s : IStream) : Option (Nat × IStream) :=
  (s.GetVoid 4).map fun (bs, s1) => (leValue bs, s1)

def IStream.GetSint64 (s : IStream) : Option (Int × IStream) :=
  (s.GetVoid 8).map fun (bs, s1) => (toSint64 (leValue bs), s1)

/-- The read `GetGZStr(str)`: a `uint32` length, then that many characters. -/
def IStream.GetGZStr (s : IStream) : Option (List Byte × IStream) :=
  match s.GetUint32 with
  | none => none
  | some (n, s1) => s1.GetVoid n

/-! ## Host objects

The plugin reaches the game through framework objects.  Each is modelled by the
answers it gives; a null pointer is `none`. -/

/-- A `cIGZDate`, of which the code reads `Year()`. -/
structure Date where
  year : Nat
deriving DecidableEq, Repr

/-- A `cISC4Simulator`: `GetSimDate()` may be null. -/
structure Simulator where
  simDate : Option Date
deriving DecidableEq, Repr

/-- A `cISC4ResidentialSimulator`: `GetPopulation()` is an `int32_t`. -/
structure ResidentialSimulator where
  population : Int
deriving DecidableEq, Repr

/-- A `cISC4Demand`: `QuerySupplyValue()` is a `float`, kept as its bit pattern. -/
structure Demand where
  supplyValue : Nat
deriving DecidableEq, Repr

/-- A `cISC4DemandSimulator`: the demands it knows, keyed by (group id, census index). -/
structure DemandSimulator where
  demands : List ((Nat × Nat) × Demand)
deriving DecidableEq, Repr

def DemandSimulator.GetDemand (d : DemandSimulator) (groupID index : Nat) : Option Demand :=
  d.demands.lookup (groupID, index)

/-- A `cISC4Occupant`: `GetType()`, the groups `IsOccupantGroup` answers true for, and
`AsPropertyHolder()` (null, or the `uint32` properties `GetProperty` finds). -/
structure Occupant where
  id : Nat
  type : Nat
  groups : List Nat
  propertyHolder : Option (List (Nat × Nat))
deriving DecidableEq, Repr

def Occupant.GetType (o : Occupant) : Nat := o.type

def Occupant.IsOccupantGroup (o : Occupant) (g : Nat) : Bool := o.groups.contains g

/-- A `cISC4Lot`. -/
structure Lot where
  id : Nat
deriving DecidableEq, Repr

/-- A `cISC4OccupantManager`: the occupants in enumeration order. -/
structure OccupantManager where
  occupants : List Occupant
deriving DecidableEq, Repr

/-- A `cISC4LotManager`: `GetOccupantLot` by occupant. -/
structure LotManager where
  lots : List (Occupant × Lot)
deriving DecidableEq, Repr

def LotManager.GetOccupantLot (m : LotManager) (o : Occupant) : Option Lot :=
  m.lots.lookup o

/-- The record `cISC4CivicBuildingSimulator::ConditionalBuildingStatus`. -/
structure ConditionalBuildingStatus where
  status : Int
  buildingCount : Nat
  unknown1 : Nat
  unknown2 : Nat
  unknown3 : Nat
  unknown4 : Nat
  unknown5 : Nat
deriving DecidableEq, Repr

/-- A `cISC4CivicBuildingSimulator`: conditional-building status by building id. -/
structure CivicBuildingSimulator where
  statuses : List (Nat × ConditionalBuildingStatus)
deriving DecidableEq, Repr

def CivicBuildingSimulator.GetConditionalBuildingStatus (c : CivicBuildingSimulator)
    (buildingID : Nat) : Option ConditionalBuildingStatus :=
  c.statuses.lookup buildingID

/-- A `cISC4City`, with the services the plugin asks it for. -/
structure City where
  residentialSimulator : Option ResidentialSimulator
  simulator : Option Simulator
  demandSimulator : Option DemandSimulator
  occupantManager : Option OccupantManager
  lotManager : Option LotManager
  lotDeveloper : Option Unit
  civicBuildingSimulator : Option CivicBuildingSimulator
deriving DecidableEq, Repr

/-- A `cISC4View3DWin`: the id of the current view input control, if there is one. -/
structure View3DWin where
  currentViewInputControl : Option Nat
deriving DecidableEq, Repr

/-- The window `GetChildWindowFromID` returns: `GetChildAs` by (class id, interface id). -/
structure ParentWin where
  children : List ((Nat × Nat) × View3DWin)
deriving DecidableEq, Repr

/-- The main `cIGZWin`: child windows by id. -/
structure MainWin where
  childWindows : List (Nat × ParentWin)
deriving DecidableEq, Repr

/-- A `cISC4App`. -/
structure App where
  city : Option City
  mainWindow : Option MainWin
deriving DecidableEq, Repr

/-- A `StringResourceKey`. -/
structure StringResourceKey where
  groupID : Nat
  instanceID : Nat
deriving DecidableEq, Repr

/-- What the plugin finds around it: the application service a `cISC4AppPtr` resolves to
(null when the service is absent) and the strings
`StringResourceManager::GetLocalizedString` can deliver. -/
structure Host where
  app : Option App
  localizedStrings : List (StringResourceKey × List Byte)
deriving DecidableEq, Repr

/-- Modelled from the spec: `StringResourceManager::GetLocalizedString(key, &out)`, which
is declared but not defined in the sources, is the localized-string lookup of the
external interfaces: a key either has a text or the lookup fails.  The table is a
parameter of the host. -/
def Host.GetLocalizedString (h : Host) (key : StringResourceKey) : Option (List Byte) :=
  h.localizedStrings.lookup key

/-- A call made on a host service, manager or window.  Reading an attribute of an object
already in hand (an occupant's type, groups and properties, a control's id, a date's
year, a demand's supply value) is not logged.  `GetCityPopulation` is the record's own
population query, logged as the query it is for the income computation. -/
inductive Call where
  | GetApp
  | GetCity
  | GetResidentialSimulator
  | GetSimulator
  | GetDemandSimulator
  | GetLocalizedString (key : StringResourceKey)
  | GetOccupantManager
  | IterateOccupants (typeFilter : Nat)
  | GetLotManager
  | GetOccupantLot (o : Occupant)
  | GetLotDeveloper
  | StartDemolishLot (lot : Lot)
  | EndDemolishLot (lot : Lot)
  | GetCivicBuildingSimulator
  | GetConditionalBuildingStatus (buildingID : Nat)
  | UpdateConditionalBuildingStatus (buildingID : Nat) (status : ConditionalBuildingStatus)
  | GetMainWindow
  | GetChildWindowFromID (id : Nat)
  | GetChildAs (clsid iid : Nat)
  | GetCurrentViewInputControl
  | RemoveCurrentViewInputControl (arg : Bool)
  | GetSimDate
  | GetPopulation
  | GetCityPopulation (groupID : Nat)
  | GetDemand (groupID index : Nat)
deriving DecidableEq, Repr

/-! ## The ordinance record -/

/-- The value of `kExemplarTypeID`. -/
def kExemplarTypeID : Nat := 0x6534284a

/-- The struct `BuiltInOrdinanaceExemplarInfo`: exemplar group id and instance id (the
member `instance` of the source is `instanceID` here, `instance` being reserved). -/
structure BuiltInOrdinanaceExemplarInfo where
  group : Nat
  instanceID : Nat
deriving DecidableEq, Repr

/-- The data members of `SC4BuiltInOrdinanceBase`, as the constructor's initialiser list
and the stream calls of `Read` / `Write` give them.  The member `on` of the source is
`on_` here, `on` being reserved; `monthlyChance` is the `percentage` member of the
`SC4Percentage`; `miscProperties` is the `OrdinancePropertyHolder`, a list
of (property id, `float` pattern). -/
structure SC4BuiltInOrdinanceBase where
  clsid : Nat
  refCount : Nat
  name : List Byte
  nameKey : StringResourceKey
  description : List Byte
  descriptionKey : StringResourceKey
  yearFirstAvailable : Nat
  monthlyChance : Nat
  enactmentIncome : Int
  retracmentIncome : Int
  monthlyConstantIncome : Int
  monthlyIncomeFactor : Nat
  isIncomeOrdinance : Bool
  monthlyAdjustedIncome : Int
  advisorID : Nat
  initialized : Bool
  available : Bool
  on_ : Bool
  enabled : Bool
  haveDeserialized : Bool
  pResidentialSimulator : Option ResidentialSimulator
  pSimulator : Option Simulator
  miscProperties : List (Nat × Nat)
  exemplarInfo : BuiltInOrdinanaceExemplarInfo
deriving DecidableEq, Repr

/-- The data members of `LegalizeGamblingOrdinanceUpgrade`, on top of its base class.
`ignoreSetOnCallCount` is a `uint32_t`. -/
structure LegalizeGamblingOrdinanceUpgrade extends SC4BuiltInOrdinanceBase where
  pDemandSimulator : Option DemandSimulator
  baseMonthlyIncome : Int
  residentialLowWealthIncomeFactor : Nat
  residentialMedWealthIncomeFactor : Nat
  residentialHighWealthIncomeFactor : Nat
  ignoreSetOnCallCount : Nat
deriving DecidableEq, Repr

/-- The members hold values of their C++ types: `uint32_t`, `int64_t`, `float` patterns,
and strings whose length fits the `uint32` length field. -/
def SC4BuiltInOrdinanceBase.InRange (r : SC4BuiltInOrdinanceBase) : Prop :=
  r.clsid < 2 ^ 32 ∧ r.name.length < 2 ^ 32 ∧ r.description.length < 2 ^ 32 ∧
  r.yearFirstAvailable < 2 ^ 32 ∧ r.monthlyChance < 2 ^ 32 ∧
  (-(2 ^ 63) ≤ r.enactmentIncome ∧ r.enactmentIncome < 2 ^ 63) ∧
  (-(2 ^ 63) ≤ r.retracmentIncome ∧ r.retracmentIncome < 2 ^ 63) ∧
  (-(2 ^ 63) ≤ r.monthlyConstantIncome ∧ r.monthlyConstantIncome < 2 ^ 63) ∧
  r.monthlyIncomeFactor < 2 ^ 32 ∧ r.advisorID < 2 ^ 32 ∧
  (-(2 ^ 63) ≤ r.monthlyAdjustedIncome ∧ r.monthlyAdjustedIncome < 2 ^ 63) ∧
  r.exemplarInfo.group < 2 ^ 32 ∧ r.exemplarInfo.instanceID < 2 ^ 32

instance (r : SC4BuiltInOrdinanceBase) : Decidable r.InRange := by
  unfold SC4BuiltInOrdinanceBase.InRange; infer_instance

/-! ### Serialisation (SC4BuiltInOrdinanceBase.cpp) -/

/-- The function `WriteSC4BuiltInOrdinanceProperties`. -/
def WriteSC4BuiltInOrdinanceProperties (exemplarInfo : BuiltInOrdinanaceExemplarInfo) :
    OStream → Bool × OStream :=
  orFail (fun s => s.SetUint16 2) <|
  orFail (fun s => s.SetUint16 2) <|
  orFail (fun s => s.SetUint32 0) <|
  orFail (fun s => s.SetUint32 exemplarInfo.group) <|
  orFail (fun s => s.SetUint32 kExemplarTypeID) <|
  fun s => s.SetUint32 exemplarInfo.instanceID

/-- The method `SC4BuiltInOrdinanceBase::WriteBool`: `static_cast<uint8_t>(value)`,
written with `SetVoid(&uint8Value, 1)`. -/
def WriteBool (s : OStream) (value : Bool) : Bool × OStream :=
  let uint8Value : Nat := if value then 1 else 0
  s.SetVoid1 uint8Value

/-- The method `SC4BuiltInOrdinanceBase::ReadBool`: one byte through `GetVoid`, then
`value = temp != 0`. -/
def ReadBool (s : IStream) : Option (Bool × IStream) :=
  match s.GetVoid 1 with
  | none => none
  | some (temp, s1) => some (decide (leValue temp ≠ 0), s1)

/-- The method `SC4BuiltInOrdinanceBase::Write`.  No statement of it assigns a member, so
the record comes back as it went in. -/
def SC4BuiltInOrdinanceBase.Write (r : SC4BuiltInOrdinanceBase) (stream : OStream) :
    Bool × SC4BuiltInOrdinanceBase × OStream :=
  if stream.GetError ≠ 0 then (false, r, stream)
  else
    let version : Nat := 4
    let out :=
      (orFail (fun s => s.SetUint16 version) <|
       orFail (fun s => WriteBool s r.initialized) <|
       orFail (fun s => s.SetUint32 r.clsid) <|
       orFail (fun s => s.SetGZStr r.name) <|
       orFail (fun s => s.SetGZStr r.description) <|
       orFail (fun s => s.SetUint32 r.yearFirstAvailable) <|
       orFail (fun s => s.SetFloat32 r.monthlyChance) <|
       orFail (fun s => s.SetSint64 r.enactmentIncome) <|
       orFail (fun s => s.SetSint64 r.retracmentIncome) <|
       orFail (fun s => s.SetSint64 r.monthlyConstantIncome) <|
       orFail (fun s => s.SetFloat32 r.monthlyIncomeFactor) <|
       orFail (fun s => s.SetUint32 r.advisorID) <|
       orFail (fun s => WriteBool s r.available) <|
       orFail (fun s => WriteBool s r.on_) <|
       orFail (fun s => WriteBool s r.enabled) <|
       orFail (fun s => s.SetSint64 r.monthlyAdjustedIncome) <|
       orFail (fun s => WriteBool s r.isIncomeOrdinance) <|
       WriteSC4BuiltInOrdinanceProperties r.exemplarInfo) stream
    (out.1, r, out.2)

/-- The function `ReadSC4BuiltInOrdnanceProperties`: the result, the exemplar info as
far as it was assigned, and the stream. -/
def ReadSC4BuiltInOrdnanceProperties (stream : IStream)
    (exemplarInfo : BuiltInOrdinanaceExemplarInfo) :
    Bool × BuiltInOrdinanaceExemplarInfo × IStream :=
  match stream.GetUint16 with
  | none => (false, exemplarInfo, stream)
  | some (exemplarPropertyDataVersion, s1) =>
  if exemplarPropertyDataVersion ≠ 2 then (false, exemplarInfo, s1) else
  match s1.GetUint16 with
  | none => (false, exemplarInfo, s1)
  | some (genericPropertyDataVersion, s2) =>
  if genericPropertyDataVersion ≠ 2 then (false, exemplarInfo, s2) else
  match s2.GetUint32 with
  | none => (false, exemplarInfo, s2)
  | some (genericPropertyCount, s3) =>
  if genericPropertyCount ≠ 0 then (false, exemplarInfo, s3) else
  match s3.GetUint32 with
  | none => (false, exemplarInfo, s3)
  | some (group, s4) =>
  let exemplarInfo := { exemplarInfo with group := group }
  match s4.GetUint32 with
  | none => (false, exemplarInfo, s4)
  | some (exemplarType, s5) =>
  if exemplarType ≠ kExemplarTypeID then (false, exemplarInfo, s5) else
  match s5.GetUint32 with
  | none => (false, exemplarInfo, s5)
  | some (instanceID, s6) =>
  (true, { exemplarInfo with instanceID := instanceID }, s6)

/-- The method `SC4BuiltInOrdinanceBase::Read`: the result, the record with the members
assigned up to the point of return, and the stream. -/
def SC4BuiltInOrdinanceBase.Read (r : SC4BuiltInOrdinanceBase) (stream : IStream) :
    Bool × SC4BuiltInOrdinanceBase × IStream :=
  if stream.GetError ≠ 0 then (false, r, stream) else
  match stream.GetUint16 with
  | none => (false, r, stream)
  | some (version, s) =>
  if version ≠ 4 then (false, r, s) else
  match ReadBool s with
  | none => (false, r, s)
  | some (v, s) =>
  let r := { r with initialized := v }
  match s.GetUint32 with
  | none => (false, r, s)
  | some (v, s) =>
  let r := { r with clsid := v }
  match s.GetGZStr with
  | none => (false, r, s)
  | some (v, s) =>
  let r := { r with name := v }
  match s.GetGZStr with
  | none => (false, r, s)
  | some (v, s) =>
  let r := { r with description := v }
  match s.GetUint32 with
  | none => (false, r, s)
  | some (v, s) =>
  let r := { r with yearFirstAvailable := v }
  match s.GetFloat32 with
  | none => (false, r, s)
  | some (v, s) =>
  let r := { r with monthlyChance := v }
  match s.GetSint64 with
  | none => (false, r, s)
  | some (v, s) =>
  let r := { r with enactmentIncome := v }
  match s.GetSint64 with
  | none => (false, r, s)
  | some (v, s) =>
  let r := { r with retracmentIncome := v }
  match s.GetSint64 with
  | none => (false, r, s)
  | some (v, s) =>
  let r := { r with monthlyConstantIncome := v }
  match s.GetFloat32 with
  | none => (false, r, s)
  | some (v, s) =>
  let r := { r with monthlyIncomeFactor := v }
  match s.GetUint32 with
  | none => (false, r, s)
  | some (v, s) =>
  let r := { r with advisorID := v }
  match ReadBool s with
  | none => (false, r, s)
  | some (v, s) =>
  let r := { r with available := v }
  match ReadBool s with
  | none => (false, r, s)
  | some (v, s) =>
  let r := { r with on_ := v }
  match ReadBool s with
  | none => (false, r, s)
  | some (v, s) =>
  let r := { r with enabled := v }
  match s.GetSint64 with
  | none => (false, r, s)
  | some (v, s) =>
  let r := { r with monthlyAdjustedIncome := v }
  match ReadBool s with
  | none => (false, r, s)
  | some (v, s) =>
  let r := { r with isIncomeOrdinance := v }
  let block := ReadSC4BuiltInOrdnanceProperties s r.exemplarInfo
  (block.1, { r with exemplarInfo := block.2.1 }, block.2.2)

/-! ### Construction -/

/-- The characters of a C string literal. -/
def ofString (s : String) : List Byte :=
  s.toList.map fun c => Fin.ofNat c.toNat

/-- The constructor `SC4BuiltInOrdinanceBase::SC4BuiltInOrdinanceBase(info, name, ...)`.
Its initialiser list sets `advisorID(0)`, not the argument. -/
def SC4BuiltInOrdinanceBase.ctor (info : BuiltInOrdinanaceExemplarInfo) (name : List Byte)
    (nameKey : StringResourceKey) (description : List Byte)
    (descriptionKey : StringResourceKey) (yearFirstAvailable : Nat) (monthlyChance : Nat)
    (enactmentIncome retracmentIncome monthlyConstantIncome : Int)
    (monthlyIncomeFactor : Nat) (_advisorID : Nat) (isIncomeOrdinance : Bool)
    (properties : List (Nat × Nat)) : SC4BuiltInOrdinanceBase where
  clsid := info.instanceID
  refCount := 0
  name := name
  nameKey := nameKey
  description := description
  descriptionKey := descriptionKey
  yearFirstAvailable := yearFirstAvailable
  monthlyChance := monthlyChance
  enactmentIncome := enactmentIncome
  retracmentIncome := retracmentIncome
  monthlyConstantIncome := monthlyConstantIncome
  monthlyIncomeFactor := monthlyIncomeFactor
  isIncomeOrdinance := isIncomeOrdinance
  monthlyAdjustedIncome := 0
  advisorID := 0
  initialized := false
  available := false
  on_ := false
  enabled := false
  haveDeserialized := false
  pResidentialSimulator := none
  pSimulator := none
  miscProperties := properties
  exemplarInfo := info

/-- The function `CreateDefaultOrdinanceEffects`: crime effect `1.20f`. -/
def CreateDefaultOrdinanceEffects : List (Nat × Nat) := [(0x28ed0380, 0x3f99999a)]

/-- The constructor `LegalizeGamblingOrdinanceUpgrade::LegalizeGamblingOrdinanceUpgrade()`.
The `float` literals `0.005f`, `1.0f`, `0.05f`, `0.03f`, `0.01f` appear as their
patterns. -/
def LegalizeGamblingOrdinanceUpgrade.ctor : LegalizeGamblingOrdinanceUpgrade where
  toSC4BuiltInOrdinanceBase :=
    SC4BuiltInOrdinanceBase.ctor
      { group := 0xA9C2C209, instanceID := 0xA0D07129 }
      (ofString "Legalize Gambling")
      { groupID := 0x6A231EAA, instanceID := 0x2A5EA6BF }
      (ofString ("Opens the doors for casino operators to set up business.  Deals can be cut with casino operators"
        ++ " for income but these come at the cost of local Mayor Rating and potential crime elements."))
      { groupID := 0x6A231EAA, instanceID := 0x0A5EA6BF }
      0 0x3ba3d70a 0 (-20) 100 0x3f800000 0 true
      CreateDefaultOrdinanceEffects
  pDemandSimulator := none
  baseMonthlyIncome := 100
  residentialLowWealthIncomeFactor := 0x3d4ccccd
  residentialMedWealthIncomeFactor := 0x3cf5c28f
  residentialHighWealthIncomeFactor := 0x3c23d70a
  ignoreSetOnCallCount := 0

/-! ### Lifecycle (SC4BuiltInOrdinanceBase.cpp) -/

/-- ASCII lower-casing, for the case-insensitive `cIGZString::IsEqual`. -/
def asciiLower (b : Byte) : Byte :=
  if 65 ≤ b.val ∧ b.val ≤ 90 then b + 32 else b

/-- The comparison `cIGZString::IsEqual(other, caseSensitive)`. -/
def IsEqual (a b : List Byte) (caseSensitive : Bool) : Bool :=
  if caseSensitive then a == b else a.map asciiLower == b.map asciiLower

/-- The method `SC4BuiltInOrdinanceBase::LoadLocalizedStringResources`. -/
def SC4BuiltInOrdinanceBase.LoadLocalizedStringResources (r : SC4BuiltInOrdinanceBase)
    (h : Host) : SC4BuiltInOrdinanceBase × List Call :=
  match h.GetLocalizedString r.nameKey with
  | none => (r, [.GetLocalizedString r.nameKey])
  | some localizedName =>
    match h.GetLocalizedString r.descriptionKey with
    | none => (r, [.GetLocalizedString r.nameKey, .GetLocalizedString r.descriptionKey])
    | some localizedDescription =>
      let r1 :=
        if localizedName.length > 0 && !IsEqual localizedName r.name false then
          { r with name := localizedName }
        else r
      let r2 :=
        if localizedDescription.length > 0
            && !IsEqual localizedDescription r1.description false then
          { r1 with description := localizedDescription }
        else r1
      (r2, [.GetLocalizedString r.nameKey, .GetLocalizedString r.descriptionKey])

/-- The method `SC4BuiltInOrdinanceBase::InitializeOrdinanceComponents`. -/
def SC4BuiltInOrdinanceBase.InitializeOrdinanceComponents (r : SC4BuiltInOrdinanceBase)
    (h : Host) (pCity : Option City) : SC4BuiltInOrdinanceBase × List Call :=
  let bound : SC4BuiltInOrdinanceBase × List Call :=
    match pCity with
    | some city =>
      let a : SC4BuiltInOrdinanceBase × List Call :=
        if r.pResidentialSimulator.isNone then
          ({ r with pResidentialSimulator := city.residentialSimulator },
            [.GetResidentialSimulator])
        else (r, [])
      if a.1.pSimulator.isNone then
        ({ a.1 with pSimulator := city.simulator }, a.2 ++ [.GetSimulator])
      else a
    | none => (r, [])
  let loaded := bound.1.LoadLocalizedStringResources h
  (loaded.1, bound.2 ++ loaded.2)

/-- The method `SC4BuiltInOrdinanceBase::GetID`. -/
def SC4BuiltInOrdinanceBase.GetID (r : SC4BuiltInOrdinanceBase) : Nat := r.clsid

/-- The method `SC4BuiltInOrdinanceBase::IsOn`. -/
def SC4BuiltInOrdinanceBase.IsOn (r : SC4BuiltInOrdinanceBase) : Bool :=
  r.available && r.on_

/-- The method `SC4BuiltInOrdinanceBase::SetOn`. -/
def SC4BuiltInOrdinanceBase.SetOn (r : SC4BuiltInOrdinanceBase) (isOn : Bool) :
    Bool × SC4BuiltInOrdinanceBase :=
  (true, { r with on_ := isOn })

/-! ### The specialisation (LegalizeGamblingOrdinanceUpgrade.cpp) -/

def kGZWin_WinSC4App : Nat := 0x6104489A
def kSC4CLSID_cSC4View3DWin : Nat := 0x9A47B417
def kGZIID_cISC4View3DWin : Nat := 0xFA47B3F9
def kSCPROP_CityExclusionGroup : Nat := 0xEA2E078B
def kOccupantGroup_Reward : Nat := 0x150B
def kOccupantType_Building : Nat := 0x278128A0
def kCasinoCityExclusionGroup : Nat := 0xCA78B74B

/-- The struct `CasinoIteratorData`. -/
structure CasinoIteratorData where
  casinoOccupant : Option Occupant
deriving DecidableEq, Repr

/-- The callback `CasinoIterator`: `false` stops the enumeration. -/
def CasinoIterator (pOccupant : Occupant) (data : CasinoIteratorData) :
    Bool × CasinoIteratorData :=
  if pOccupant.GetType = kOccupantType_Building then
    if pOccupant.IsOccupantGroup kOccupantGroup_Reward then
      match pOccupant.propertyHolder with
      | some pPoperties =>
        match pPoperties.lookup kSCPROP_CityExclusionGroup with
        | some cityExclusionGroup =>
          if cityExclusionGroup = kCasinoCityExclusionGroup then
            (false, { data with casinoOccupant := some pOccupant })
          else (true, data)
        | none => (true, data)
      | none => (true, data)
    else (true, data)
  else (true, data)

/-- The enumeration loop of the occupant manager: the callback is run on each occupant
in turn until it answers `false`. -/
def enumerate {δ : Type} (callback : Occupant → δ → Bool × δ) : List Occupant → δ → δ
  | [], data => data
  | o :: os, data =>
    match callback o data with
    | (true, data1) => enumerate callback os data1
    | (false, data1) => data1

/-- The call `IterateOccupants(callback, data, nullptr, nullptr, typeFilter)`: the
occupants of the requested type are visited in the manager's order. -/
def OccupantManager.IterateOccupants {δ : Type} (m : OccupantManager)
    (callback : Occupant → δ → Bool × δ) (data : δ) (typeFilter : Nat) : δ :=
  enumerate callback (m.occupants.filter fun o => o.type = typeFilter) data

/-- The function `GetCasinoOccupant`. -/
def GetCasinoOccupant (pCity : City) : Option Occupant × List Call :=
  match pCity.occupantManager with
  | some pOccupantManager =>
    let iteratorData : CasinoIteratorData := { casinoOccupant := none }
    let iteratorData :=
      pOccupantManager.IterateOccupants CasinoIterator iteratorData kOccupantType_Building
    (iteratorData.casinoOccupant,
      [.GetOccupantManager, .IterateOccupants kOccupantType_Building])
  | none => (none, [.GetOccupantManager])

/-- The function `DemolishCasino`: the calls it makes on the city. -/
def DemolishCasino (pCity : City) : List Call :=
  let found := GetCasinoOccupant pCity
  match found.1 with
  | some pCasinoOccupant =>
    match pCity.lotManager with
    | some pLotManager =>
      match pLotManager.GetOccupantLot pCasinoOccupant with
      | some pCasinoLot =>
        match pCity.lotDeveloper with
        | some _ =>
          found.2 ++ [.GetLotManager, .GetOccupantLot pCasinoOccupant, .GetLotDeveloper,
            .StartDemolishLot pCasinoLot, .EndDemolishLot pCasinoLot]
        | none =>
          found.2 ++ [.GetLotManager, .GetOccupantLot pCasinoOccupant, .GetLotDeveloper]
      | none => found.2 ++ [.GetLotManager, .GetOccupantLot pCasinoOccupant]
    | none => found.2 ++ [.GetLotManager]
  | none => found.2

def MainWin.GetChildWindowFromID (w : MainWin) (id : Nat) : Option ParentWin :=
  w.childWindows.lookup id

def ParentWin.GetChildAs (w : ParentWin) (clsid iid : Nat) : Option View3DWin :=
  w.children.lookup (clsid, iid)

/-- The local constant `casinoBuildingID`. -/
def casinoBuildingID : Nat := 0x33a0000

/-- The local constant `Status_BuildingDisabled`. -/
def Status_BuildingDisabled : Int := 1

/-- The local constant `placeLotViewInputControl`. -/
def placeLotViewInputControl : Nat := 0x88F154FB

/-- The function `DisableCasinoMenuItem`: the calls it makes, first on the civic
building simulator, then on the windows. -/
def DisableCasinoMenuItem (pSC4App : App) (pCity : City) : List Call :=
  let menu : List Call :=
    match pCity.civicBuildingSimulator with
    | some pCivicBuildingSim =>
      match pCivicBuildingSim.GetConditionalBuildingStatus casinoBuildingID with
      | some status =>
        let newStatus := { status with status := Status_BuildingDisabled }
        [.GetCivicBuildingSimulator, .GetConditionalBuildingStatus casinoBuildingID,
          .UpdateConditionalBuildingStatus casinoBuildingID newStatus]
      | none => [.GetCivicBuildingSimulator, .GetConditionalBuildingStatus casinoBuildingID]
    | none => [.GetCivicBuildingSimulator]
  let tool : List Call :=
    match pSC4App.mainWindow with
    | some pMainWin =>
      match pMainWin.GetChildWindowFromID kGZWin_WinSC4App with
      | some pParentWin =>
        match pParentWin.GetChildAs kSC4CLSID_cSC4View3DWin kGZIID_cISC4View3DWin with
        | some pView3DWin =>
          match pView3DWin.currentViewInputControl with
          | some controlID =>
            if controlID = placeLotViewInputControl then
              [.GetMainWindow, .GetChildWindowFromID kGZWin_WinSC4App,
                .GetChildAs kSC4CLSID_cSC4View3DWin kGZIID_cISC4View3DWin,
                .GetCurrentViewInputControl, .RemoveCurrentViewInputControl false]
            else
              [.GetMainWindow, .GetChildWindowFromID kGZWin_WinSC4App,
                .GetChildAs kSC4CLSID_cSC4View3DWin kGZIID_cISC4View3DWin,
                .GetCurrentViewInputControl]
          | none =>
            [.GetMainWindow, .GetChildWindowFromID kGZWin_WinSC4App,
              .GetChildAs kSC4CLSID_cSC4View3DWin kGZIID_cISC4View3DWin,
              .GetCurrentViewInputControl]
        | none =>
          [.GetMainWindow, .GetChildWindowFromID kGZWin_WinSC4App,
            .GetChildAs kSC4CLSID_cSC4View3DWin kGZIID_cISC4View3DWin]
      | none => [.GetMainWindow, .GetChildWindowFromID kGZWin_WinSC4App]
    | none => [.GetMainWindow]
  menu ++ tool

/-- The override `LegalizeGamblingOrdinanceUpgrade::SetOn`: the result, the record and
the calls made on the host.  `cISC4AppPtr pSC4App` is the call `GetApp`. -/
def LegalizeGamblingOrdinanceUpgrade.SetOn (r : LegalizeGamblingOrdinanceUpgrade)
    (h : Host) (isOn : Bool) : Bool × LegalizeGamblingOrdinanceUpgrade × List Call :=
  if r.ignoreSetOnCallCount = 0 then
    let r1 := { r with toSC4BuiltInOrdinanceBase := (r.toSC4BuiltInOrdinanceBase.SetOn isOn).2 }
    if !isOn then
      match h.app with
      | some pSC4App =>
        match pSC4App.city with
        | some pCity =>
          (true, r1,
            [.GetApp, .GetCity] ++ DemolishCasino pCity ++ DisableCasinoMenuItem pSC4App pCity)
        | none => (true, r1, [.GetApp, .GetCity])
      | none => (true, r1, [.GetApp])
    else (true, r1, [])
  else (true, r, [])

/-- The override `LegalizeGamblingOrdinanceUpgrade::InitializeOrdinanceComponents`. -/
def LegalizeGamblingOrdinanceUpgrade.InitializeOrdinanceComponents
    (r : LegalizeGamblingOrdinanceUpgrade) (h : Host) (pCity : Option City) :
    LegalizeGamblingOrdinanceUpgrade × List Call :=
  let base := r.toSC4BuiltInOrdinanceBase.InitializeOrdinanceComponents h pCity
  let r1 := { r with toSC4BuiltInOrdinanceBase := base.1 }
  match pCity with
  | some city => ({ r1 with pDemandSimulator := city.demandSimulator },
      base.2 ++ [.GetDemandSimulator])
  | none => (r1, base.2)

/-- The method `SC4BuiltInOrdinanceBase::Init` as the upgrade inherits it: the virtual
call `InitializeOrdinanceComponents` reaches the override. -/
def LegalizeGamblingOrdinanceUpgrade.Init (r : LegalizeGamblingOrdinanceUpgrade) (h : Host) :
    Bool × LegalizeGamblingOrdinanceUpgrade × List Call :=
  let r1 : LegalizeGamblingOrdinanceUpgrade :=
    if !r.initialized then { r with enabled := true, initialized := true } else r
  match h.app with
  | some pSC4App =>
    let hooked := r1.InitializeOrdinanceComponents h pSC4App.city
    (true, hooked.1, [.GetApp, .GetCity] ++ hooked.2)
  | none => (true, r1, [.GetApp])

/-- The methods `Read`, `Write` and `IsOn` as the upgrade inherits them: they act on the
base-class members only. -/
def LegalizeGamblingOrdinanceUpgrade.Read (r : LegalizeGamblingOrdinanceUpgrade)
    (stream : IStream) : Bool × LegalizeGamblingOrdinanceUpgrade × IStream :=
  let out := r.toSC4BuiltInOrdinanceBase.Read stream
  (out.1, { r with toSC4BuiltInOrdinanceBase := out.2.1 }, out.2.2)

def LegalizeGamblingOrdinanceUpgrade.Write (r : LegalizeGamblingOrdinanceUpgrade)
    (stream : OStream) : Bool × LegalizeGamblingOrdinanceUpgrade × OStream :=
  let out := r.toSC4BuiltInOrdinanceBase.Write stream
  (out.1, { r with toSC4BuiltInOrdinanceBase := out.2.1 }, out.2.2)

def LegalizeGamblingOrdinanceUpgrade.IsOn (r : LegalizeGamblingOrdinanceUpgrade) : Bool :=
  r.toSC4BuiltInOrdinanceBase.IsOn

/-- The method `PushIgnoreSetOnCalls`: `++ignoreSetOnCallCount` on a `uint32_t`. -/
def LegalizeGamblingOrdinanceUpgrade.PushIgnoreSetOnCalls
    (r : LegalizeGamblingOrdinanceUpgrade) : LegalizeGamblingOrdinanceUpgrade :=
  { r with ignoreSetOnCallCount := (r.ignoreSetOnCallCount + 1) % 2 ^ 32 }

/-- The method `PopIgnoreSetOnCalls`. -/
def LegalizeGamblingOrdinanceUpgrade.PopIgnoreSetOnCalls
    (r : LegalizeGamblingOrdinanceUpgrade) : LegalizeGamblingOrdinanceUpgrade :=
  if r.ignoreSetOnCallCount > 0 then
    { r with ignoreSetOnCallCount := r.ignoreSetOnCallCount - 1 }
  else r

/-! ## Double-precision arithmetic

The income computation runs in `double`.  A `double` is modelled exactly: a finite value
is an integer mantissa times a power of two, and every operation rounds the exact result
to the nearest value with 53 significant bits and an exponent of at least -1074, ties to
even (IEEE-754 binary64 in its default rounding mode, which is what the SSE2 code of the
plugin computes).  The sign of a zero is not kept: nothing in the modelled code can
observe it. -/

/-- A `double`: the finite value `m * 2 ^ e`, an infinity, or a NaN.  The operations below
deliver finite values in one fixed form: zero is `fin 0 0`, and otherwise the mantissa has
53 bits, or fewer when the exponent is -1074. -/
inductive Dbl where
  | fin (m : Int) (e : Int)
  | pinf
  | ninf
  | nan
deriving DecidableEq, Repr

/-- The number of binary digits of `a`, computed with `fuel` steps. -/
def bitLengthAux : Nat → Nat → Nat
  | 0, _ => 0
  | fuel + 1, a => if a = 0 then 0 else bitLengthAux fuel (a / 2) + 1

/-- The number of binary digits of `a` (0 for 0). -/
def bitLength (a : Nat) : Nat := bitLengthAux a a

/-- The quotient `a / 2 ^ d` rounded to the nearest integer, ties to even. -/
def roundHalfEven (a d : Nat) : Nat :=
  let q := a / 2 ^ d
  let rem := a % 2 ^ d
  if 2 ^ d < 2 * rem ∨ (2 * rem = 2 ^ d ∧ q % 2 = 1) then q + 1 else q

/-- The `double` nearest to the exact value `a * 2 ^ e` (negated when `neg`): `t` is the
exponent of the last kept bit, `q` the rounded mantissa; a mantissa that rounds up to
`2 ^ 53` moves to the next exponent, and an exponent above 971 overflows to infinity. -/
def Dbl.round (neg : Bool) (a : Nat) (e : Int) : Dbl :=
  let b : Int := bitLength a
  let t : Int := max (-1074) (e + b - 53)
  let q : Nat := if t ≤ e then a * 2 ^ (e - t).toNat else roundHalfEven a (t - e).toNat
  let q1 : Nat := if q = 2 ^ 53 then 2 ^ 52 else q
  let t1 : Int := if q = 2 ^ 53 then t + 1 else t
  if q1 = 0 then .fin 0 0
  else if 971 < t1 then (if neg then .ninf else .pinf)
  else .fin (if neg then -(q1 : Int) else (q1 : Int)) t1

/-- The literal `0.0`. -/
def Dbl.zero : Dbl := .fin 0 0

/-- The conversion `static_cast<double>(n)` of an integer (`int32_t`, `int64_t`); an
integer of more than 53 bits is rounded. -/
def Dbl.ofInt (n : Int) : Dbl := Dbl.round (decide (n < 0)) n.natAbs 0

/-- The value of the `float` with the given pattern, as a `double` (the conversion is
exact): sign bit, eight exponent bits, 23 mantissa bits. -/
def Dbl.ofFloat32 (bits : Nat) : Dbl :=
  let neg : Bool := decide (bits / 2 ^ 31 % 2 = 1)
  let e : Nat := bits / 2 ^ 23 % 256
  let m : Nat := bits % 2 ^ 23
  if e = 255 then (if m = 0 then (if neg then .ninf else .pinf) else .nan)
  else if e = 0 then Dbl.round neg m (-149)
  else Dbl.round neg (2 ^ 23 + m) ((e : Int) - 150)

/-- The product `a * b` of two `double`s. -/
def Dbl.mul : Dbl → Dbl → Dbl
  | .fin m1 e1, .fin m2 e2 => Dbl.round (decide (m1 * m2 < 0)) (m1 * m2).natAbs (e1 + e2)
  | .fin m _, .pinf => if m = 0 then .nan else if m < 0 then .ninf else .pinf
  | .fin m _, .ninf => if m = 0 then .nan else if m < 0 then .pinf else .ninf
  | .pinf, .fin m _ => if m = 0 then .nan else if m < 0 then .ninf else .pinf
  | .ninf, .fin m _ => if m = 0 then .nan else if m < 0 then .pinf else .ninf
  | .pinf, .pinf => .pinf
  | .pinf, .ninf => .ninf
  | .ninf, .pinf => .ninf
  | .ninf, .ninf => .pinf
  | _, _ => .nan

/-- The sum `a + b` of two `double`s. -/
def Dbl.add : Dbl → Dbl → Dbl
  | .fin m1 e1, .fin m2 e2 =>
    let e := min e1 e2
    let s := m1 * 2 ^ (e1 - e).toNat + m2 * 2 ^ (e2 - e).toNat
    Dbl.round (decide (s < 0)) s.natAbs e
  | .fin _ _, .pinf => .pinf
  | .fin _ _, .ninf => .ninf
  | .pinf, .fin _ _ => .pinf
  | .ninf, .fin _ _ => .ninf
  | .pinf, .pinf => .pinf
  | .ninf, .ninf => .ninf
  | _, _ => .nan

/-- The comparison `a < b` of two `double`s (`a > b` is `b < a`); false when either is a
NaN. -/
def Dbl.lt : Dbl → Dbl → Bool
  | .fin m1 e1, .fin m2 e2 =>
    decide (m1 * 2 ^ (e1 - min e1 e2).toNat < m2 * 2 ^ (e2 - min e1 e2).toNat)
  | .fin _ _, .pinf => true
  | .ninf, .fin _ _ => true
  | .ninf, .pinf => true
  | _, _ => false

/-- The integer part of a finite `double`, rounded toward zero. -/
def Dbl.trunc : Dbl → Int
  | .fin m e =>
    if 0 ≤ e then m * 2 ^ e.toNat
    else if 0 ≤ m then ((m.natAbs / 2 ^ (-e).toNat : Nat) : Int)
    else -((m.natAbs / 2 ^ (-e).toNat : Nat) : Int)
  | _ => 0

/-- Whether `static_cast<int64_t>(d)` is defined: `d` is finite and its integer part is
an `int64_t`. -/
def Dbl.inInt64Range : Dbl → Bool
  | .fin m e => decide (-(2 ^ 63) ≤ (Dbl.fin m e).trunc ∧ (Dbl.fin m e).trunc < 2 ^ 63)
  | _ => false

/-- The conversion `static_cast<int64_t>(d)`: the integer part where that is an `int64_t`.
Elsewhere C++ leaves the conversion undefined; the x86 target then delivers the
"integer indefinite" value `-2 ^ 63`. -/
def Dbl.toInt64 (d : Dbl) : Int :=
  if d.inInt64Range then d.trunc else -(2 ^ 63)

/-! ### Income (SC4BuiltInOrdinanceBase.cpp, LegalizeGamblingOrdinanceUpgrade.cpp) -/

/-- The value `std::numeric_limits<int64_t>::min()`. -/
def int64Min : Int := -(2 ^ 63)

/-- The value `std::numeric_limits<int64_t>::max()`. -/
def int64Max : Int := 2 ^ 63 - 1

/-- The clamp that ends both `GetCurrentMonthlyIncome` methods (lines 380-393 of the base
class, 263-276 of the override): `monthlyIncome` is compared with the two `int64_t`
limits, which the comparison converts to `double`, and converted otherwise. -/
def monthlyIncomeInteger (monthlyIncome : Dbl) : Int :=
  if Dbl.lt monthlyIncome (Dbl.ofInt int64Min) then int64Min
  else if Dbl.lt (Dbl.ofInt int64Max) monthlyIncome then int64Max
  else monthlyIncome.toInt64

/-- The method `SC4BuiltInOrdinanceBase::GetCurrentMonthlyIncome`. -/
def SC4BuiltInOrdinanceBase.GetCurrentMonthlyIncome (r : SC4BuiltInOrdinanceBase) :
    Int × SC4BuiltInOrdinanceBase × List Call :=
  let monthlyConstantIncome : Int := r.monthlyConstantIncome
  let monthlyIncomeFactor : Dbl := Dbl.ofFloat32 r.monthlyIncomeFactor
  match r.pResidentialSimulator with
  | none => (monthlyConstantIncome, r, [])
  | some pResidentialSimulator =>
    let cityPopulation : Int := pResidentialSimulator.population
    let populationIncome : Dbl := Dbl.mul monthlyIncomeFactor (Dbl.ofInt cityPopulation)
    let monthlyIncome : Dbl := Dbl.add (Dbl.ofInt monthlyConstantIncome) populationIncome
    (monthlyIncomeInteger monthlyIncome, r, [.GetPopulation])

/-- The method `LegalizeGamblingOrdinanceUpgrade::GetCityPopulation`: the `float` it
returns, as a pattern (`0.0f` is 0), and the calls it makes. -/
def LegalizeGamblingOrdinanceUpgrade.GetCityPopulation (r : LegalizeGamblingOrdinanceUpgrade)
    (groupID : Nat) : Nat × List Call :=
  match r.pDemandSimulator with
  | some pDemandSimulator =>
    let cityCensusIndex : Nat := 0
    match pDemandSimulator.GetDemand groupID cityCensusIndex with
    | some demand =>
      (demand.supplyValue, [.GetCityPopulation groupID, .GetDemand groupID cityCensusIndex])
    | none => (0, [.GetCityPopulation groupID, .GetDemand groupID cityCensusIndex])
  | none => (0, [.GetCityPopulation groupID])

/-- Lines 224-261 of the override `GetCurrentMonthlyIncome`: the `double monthlyIncome`
after the three wealth groups, and the calls made. -/
def LegalizeGamblingOrdinanceUpgrade.monthlyIncome (r : LegalizeGamblingOrdinanceUpgrade) :
    Dbl × List Call :=
  let monthlyIncome : Dbl := Dbl.ofInt r.baseMonthlyIncome
  let low : Dbl × List Call :=
    if Dbl.lt Dbl.zero (Dbl.ofFloat32 r.residentialLowWealthIncomeFactor) then
      let query := r.GetCityPopulation 0x1011
      let lowWealthPopulation : Dbl := Dbl.ofFloat32 query.1
      if Dbl.lt Dbl.zero lowWealthPopulation then
        let gamblingPopulationIncome : Dbl :=
          Dbl.mul lowWealthPopulation (Dbl.ofFloat32 r.residentialLowWealthIncomeFactor)
        (Dbl.add monthlyIncome gamblingPopulationIncome, query.2)
      else (monthlyIncome, query.2)
    else (monthlyIncome, [])
  let med : Dbl × List Call :=
    if Dbl.lt Dbl.zero (Dbl.ofFloat32 r.residentialMedWealthIncomeFactor) then
      let query := r.GetCityPopulation 0x1021
      let medWealthPopulation : Dbl := Dbl.ofFloat32 query.1
      if Dbl.lt Dbl.zero medWealthPopulation then
        let gamblingPopulationIncome : Dbl :=
          Dbl.mul medWealthPopulation (Dbl.ofFloat32 r.residentialMedWealthIncomeFactor)
        (Dbl.add low.1 gamblingPopulationIncome, low.2 ++ query.2)
      else (low.1, low.2 ++ query.2)
    else low
  if Dbl.lt Dbl.zero (Dbl.ofFloat32 r.residentialHighWealthIncomeFactor) then
    let query := r.GetCityPopulation 0x1031
    let highWealthPopulation : Dbl := Dbl.ofFloat32 query.1
    if Dbl.lt Dbl.zero highWealthPopulation then
      let gamblingPopulationIncome : Dbl :=
        Dbl.mul highWealthPopulation (Dbl.ofFloat32 r.residentialHighWealthIncomeFactor)
      (Dbl.add med.1 gamblingPopulationIncome, med.2 ++ query.2)
    else (med.1, med.2 ++ query.2)
  else med

/-- The override `LegalizeGamblingOrdinanceUpgrade::GetCurrentMonthlyIncome`: the sum of
lines 224-261, then the clamp of lines 263-276.  No statement of it assigns a member. -/
def LegalizeGamblingOrdinanceUpgrade.GetCurrentMonthlyIncome
    (r : LegalizeGamblingOrdinanceUpgrade) :
    Int × LegalizeGamblingOrdinanceUpgrade × List Call :=
  let sum := r.monthlyIncome
  (monthlyIncomeInteger sum.1, r, sum.2)

/-! ### More of the lifecycle -/

/-- The method `SC4BuiltInOrdinanceBase::Simulate` as the upgrade inherits it: the
virtual call `GetCurrentMonthlyIncome` reaches the override. -/
def LegalizeGamblingOrdinanceUpgrade.Simulate (r : LegalizeGamblingOrdinanceUpgrade) :
    Bool × LegalizeGamblingOrdinanceUpgrade × List Call :=
  let income := r.GetCurrentMonthlyIncome
  (true, { income.2.1 with monthlyAdjustedIncome := income.1 }, income.2.2)

/-- The method `SC4BuiltInOrdinanceBase::SetAvailable`. -/
def SC4BuiltInOrdinanceBase.SetAvailable (r : SC4BuiltInOrdinanceBase) (isAvailable : Bool) :
    Bool × SC4BuiltInOrdinanceBase :=
  (true, { r with available := isAvailable, monthlyAdjustedIncome := 0 })

/-- The method `SetAvailable` as the upgrade inherits it. -/
def LegalizeGamblingOrdinanceUpgrade.SetAvailable (r : LegalizeGamblingOrdinanceUpgrade)
    (isAvailable : Bool) : Bool × LegalizeGamblingOrdinanceUpgrade :=
  let out := r.toSC4BuiltInOrdinanceBase.SetAvailable isAvailable
  (out.1, { r with toSC4BuiltInOrdinanceBase := out.2 })

/-- The method `SC4BuiltInOrdinanceBase::CheckConditions`: the result, the record (no
member is assigned) and the calls made. -/
def SC4BuiltInOrdinanceBase.CheckConditions (r : SC4BuiltInOrdinanceBase) :
    Bool × SC4BuiltInOrdinanceBase × List Call :=
  if r.enabled then
    match r.pSimulator with
    | some pSimulator =>
      match pSimulator.simDate with
      | some simDate => (decide (simDate.year ≥ r.yearFirstAvailable), r, [.GetSimDate])
      | none => (false, r, [.GetSimDate])
    | none => (false, r, [])
  else (false, r, [])

/-- The method `CheckConditions` as the upgrade inherits it. -/
def LegalizeGamblingOrdinanceUpgrade.CheckConditions (r : LegalizeGamblingOrdinanceUpgrade) :
    Bool × LegalizeGamblingOrdinanceUpgrade × List Call :=
  let out := r.toSC4BuiltInOrdinanceBase.CheckConditions
  (out.1, { r with toSC4BuiltInOrdinanceBase := out.2.1 }, out.2.2)

/-- The method `SC4BuiltInOrdinanceBase::ShutdownOrdinanceComponents`. -/
def SC4BuiltInOrdinanceBase.ShutdownOrdinanceComponents (r : SC4BuiltInOrdinanceBase)
    (_pCity : Option City) : SC4BuiltInOrdinanceBase :=
  { r with pResidentialSimulator := none, pSimulator := none }

/-- The override `LegalizeGamblingOrdinanceUpgrade::ShutdownOrdinanceComponents`. -/
def LegalizeGamblingOrdinanceUpgrade.ShutdownOrdinanceComponents
    (r : LegalizeGamblingOrdinanceUpgrade) (pCity : Option City) :
    LegalizeGamblingOrdinanceUpgrade :=
  { r with
    toSC4BuiltInOrdinanceBase := r.toSC4BuiltInOrdinanceBase.ShutdownOrdinanceComponents pCity
    pDemandSimulator := none }

/-- The method `SC4BuiltInOrdinanceBase::Shutdown` as the upgrade inherits it: the virtual
call `ShutdownOrdinanceComponents` reaches the override, and is made only when the
application pointer is not null. -/
def LegalizeGamblingOrdinanceUpgrade.Shutdown (r : LegalizeGamblingOrdinanceUpgrade)
    (h : Host) : Bool × LegalizeGamblingOrdinanceUpgrade × List Call :=
  let r1 : LegalizeGamblingOrdinanceUpgrade := { r with enabled := false, initialized := false }
  match h.app with
  | some pSC4App => (true, r1.ShutdownOrdinanceComponents pSC4App.city, [.GetApp, .GetCity])
  | none => (true, r1, [.GetApp])

/-- The method `SC4BuiltInOrdinanceBase::SetEnabled`. -/
def SC4BuiltInOrdinanceBase.SetEnabled (r : SC4BuiltInOrdinanceBase) (isEnabled : Bool) :
    Bool × SC4BuiltInOrdinanceBase :=
  (true, { r with enabled := isEnabled })

/-- The method `SetEnabled` as the upgrade inherits it. -/
def LegalizeGamblingOrdinanceUpgrade.SetEnabled (r : LegalizeGamblingOrdinanceUpgrade)
    (isEnabled : Bool) : Bool × LegalizeGamblingOrdinanceUpgrade :=
  let out := r.toSC4BuiltInOrdinanceBase.SetEnabled isEnabled
  (out.1, { r with toSC4BuiltInOrdinanceBase := out.2 })

/-! ### Settings (Settings.cpp) -/

/-- The comparison `a == b` of two `double`s (`a != b` is its negation); false when either
is a NaN. -/
def Dbl.eq : Dbl → Dbl → Bool
  | .fin m1 e1, .fin m2 e2 =>
    decide (m1 * 2 ^ (e1 - min e1 e2).toNat = m2 * 2 ^ (e2 - min e1 e2).toNat)
  | .pinf, .pinf => true
  | .ninf, .ninf => true
  | _, _ => false

/-- The comparison `a <= b` of two `double`s. -/
def Dbl.le (a b : Dbl) : Bool := Dbl.lt a b || Dbl.eq a b

/-- What the code throws: a `std::runtime_error` whose text is a literal or is formatted
by `snprintf("%s is less than %f.", name, min)`, or the exception of the property tree
library for a file it cannot parse or a key it cannot deliver. -/
inductive Thrown where
  | runtime_error (what : String)
  | isLessThan (name : String) (min : Nat)
  | ini_parser_error
  | ptree_bad (key : String)
deriving DecidableEq, Repr

/-- The function `CheckValueRange` on `float`s given as patterns: the value, or what is
thrown.  Both branches format the same text. -/
def CheckValueRange (value min max : Nat) (name : String) : Except Thrown Nat :=
  if Dbl.lt (Dbl.ofFloat32 value) (Dbl.ofFloat32 min) then
    .error (.isLessThan name min)
  else if Dbl.lt (Dbl.ofFloat32 max) (Dbl.ofFloat32 value) then
    .error (.isLessThan name min)
  else .ok value

/-- Modelled from the spec: `OrdinancePropertyHolder::RemoveAllProperties`, whose class is
declared but not defined in the sources, clears the bag to empty. -/
def RemoveAllProperties (_bag : List (Nat × Nat)) : List (Nat × Nat) := []

/-- Modelled from the spec: `OrdinancePropertyHolder::AddProperty(key, value)`, whose class
is declared but not defined in the sources, is an upsert: an existing entry for the key
is replaced in its position, otherwise the entry is appended. -/
def AddProperty : List (Nat × Nat) → Nat → Nat → List (Nat × Nat)
  | [], key, value => [(key, value)]
  | (k, v) :: rest, key, value =>
    if k = key then (key, value) :: rest else (k, v) :: AddProperty rest key value

/-- The data members of `Settings`; the factors are `float` patterns. -/
structure Settings where
  baseMonthlyIncome : Int
  residentialLowWealthFactor : Nat
  residentialMedWealthFactor : Nat
  residentialHighWealthFactor : Nat
  cityLotteryOrdinanceEffects : List (Nat × Nat)
deriving DecidableEq, Repr

/-- The constructor `Settings::Settings()`. -/
def Settings.ctor : Settings :=
  { baseMonthlyIncome := 100
    residentialLowWealthFactor := 0x3d4ccccd
    residentialMedWealthFactor := 0x3cf5c28f
    residentialHighWealthFactor := 0x3c23d70a
    cityLotteryOrdinanceEffects := [] }

/-- The section `GamblingOrdinance` of a parsed settings file, as `tree.get<T>(key)` sees
it: `none` where the key is missing or its text does not convert, so that `get` throws. -/
structure SettingsTree where
  BaseMonthlyIncome : Option Int
  lowIncomeFactor : Option Nat
  medIncomeFactor : Option Nat
  highIncomeFactor : Option Nat
  CrimeEffectMultiplier : Option Nat
deriving DecidableEq, Repr

/-- What `Settings::Load` finds at the path: a file that cannot be opened, a file that
`read_ini` rejects, or a parsed tree. -/
inductive ConfigFile where
  | unreadable
  | malformed
  | parsed (tree : SettingsTree)
deriving DecidableEq, Repr

/-- The method `Settings::Load`: the settings as far as they were assigned, and what was
thrown, if anything.  The literals `0.01f`, `2.0f`, `1.0f` appear as their patterns. -/
def Settings.Load (s : Settings) (path : ConfigFile) : Settings × Option Thrown :=
  match path with
  | .unreadable => (s, some (.runtime_error "Failed top open the settings file."))
  | .malformed => (s, some .ini_parser_error)
  | .parsed tree =>
  match tree.BaseMonthlyIncome with
  | none => (s, some (.ptree_bad "GamblingOrdinance.BaseMonthlyIncome"))
  | some v =>
  let s := { s with baseMonthlyIncome := v }
  match tree.lowIncomeFactor with
  | none => (s, some (.ptree_bad "GamblingOrdinance.R$IncomeFactor"))
  | some v =>
  let s := { s with residentialLowWealthFactor := v }
  match tree.medIncomeFactor with
  | none => (s, some (.ptree_bad "GamblingOrdinance.R$$IncomeFactor"))
  | some v =>
  let s := { s with residentialMedWealthFactor := v }
  match tree.highIncomeFactor with
  | none => (s, some (.ptree_bad "GamblingOrdinance.R$$$IncomeFactor"))
  | some v =>
  let s := { s with residentialHighWealthFactor := v }
  match tree.CrimeEffectMultiplier with
  | none => (s, some (.ptree_bad "GamblingOrdinance.CrimeEffectMultiplier"))
  | some v =>
  match CheckValueRange v 0x3c23d70a 0x40000000 "CrimeEffectMultiplier" with
  | .error thrown => (s, some thrown)
  | .ok crimeEffectMultiplier =>
  let s := { s with cityLotteryOrdinanceEffects := RemoveAllProperties s.cityLotteryOrdinanceEffects }
  if Dbl.eq (Dbl.ofFloat32 crimeEffectMultiplier) (Dbl.ofFloat32 0x3f800000) then (s, none)
  else
    ({ s with cityLotteryOrdinanceEffects :=
        AddProperty s.cityLotteryOrdinanceEffects 0x28ed0380 crimeEffectMultiplier }, none)

/-- The method `LegalizeGamblingOrdinanceUpgrade::UpdateOrdinanceData`; the accessors of
`ISettings` return the members of `Settings`. -/
def LegalizeGamblingOrdinanceUpgrade.UpdateOrdinanceData
    (r : LegalizeGamblingOrdinanceUpgrade) (settings : Settings) :
    LegalizeGamblingOrdinanceUpgrade :=
  { r with
    baseMonthlyIncome := settings.baseMonthlyIncome
    residentialLowWealthIncomeFactor := settings.residentialLowWealthFactor
    residentialMedWealthIncomeFactor := settings.residentialMedWealthFactor
    residentialHighWealthIncomeFactor := settings.residentialHighWealthFactor
    miscProperties := settings.cityLotteryOrdinanceEffects }

/-! ### Accessors, copying (SC4BuiltInOrdinanceBase.cpp) -/

/-- The method `SC4BuiltInOrdinanceBase::GetMonthlyAdjustedIncome`. -/
def SC4BuiltInOrdinanceBase.GetMonthlyAdjustedIncome (r : SC4BuiltInOrdinanceBase) : Int :=
  r.monthlyAdjustedIncome

/-- The method `SC4BuiltInOrdinanceBase::ForceMonthlyAdjustedIncome`.  Its parameter has
the name of the member, so the statement `monthlyAdjustedIncome = monthlyAdjustedIncome;`
assigns the parameter to itself; the parameter is a local copy that dies at the return,
and no member is assigned. -/
def SC4BuiltInOrdinanceBase.ForceMonthlyAdjustedIncome (r : SC4BuiltInOrdinanceBase)
    (monthlyAdjustedIncome : Int) : Bool × SC4BuiltInOrdinanceBase :=
  let monthlyAdjustedIncome : Int := monthlyAdjustedIncome
  let _unused := monthlyAdjustedIncome
  (true, r)

/-- The copy constructor `SC4BuiltInOrdinanceBase(const SC4BuiltInOrdinanceBase& other)`. -/
def SC4BuiltInOrdinanceBase.copyCtor (other : SC4BuiltInOrdinanceBase) :
    SC4BuiltInOrdinanceBase where
  clsid := other.clsid
  refCount := 0
  name := other.name
  nameKey := other.nameKey
  description := other.description
  descriptionKey := other.descriptionKey
  yearFirstAvailable := other.yearFirstAvailable
  monthlyChance := other.monthlyChance
  enactmentIncome := other.enactmentIncome
  retracmentIncome := other.retracmentIncome
  monthlyConstantIncome := other.monthlyConstantIncome
  monthlyIncomeFactor := other.monthlyIncomeFactor
  isIncomeOrdinance := other.isIncomeOrdinance
  monthlyAdjustedIncome := other.monthlyAdjustedIncome
  advisorID := other.advisorID
  initialized := other.initialized
  available := other.available
  on_ := other.on_
  enabled := other.enabled
  haveDeserialized := other.haveDeserialized
  pResidentialSimulator := other.pResidentialSimulator
  pSimulator := other.pSimulator
  miscProperties := other.miscProperties
  exemplarInfo := other.exemplarInfo

/-- The copy assignment `SC4BuiltInOrdinanceBase::operator=(const SC4BuiltInOrdinanceBase&)`
on the object `this`.  The argument is `none` when it is the object itself
(`this == &other`), and `some other` for another object.  The statement `name = name;`
assigns the member to itself. -/
def SC4BuiltInOrdinanceBase.assign (this : SC4BuiltInOrdinanceBase)
    (arg : Option SC4BuiltInOrdinanceBase) : SC4BuiltInOrdinanceBase :=
  match arg with
  | none => this
  | some other =>
    { clsid := other.clsid
      refCount := 0
      name := this.name
      nameKey := other.nameKey
      description := other.description
      descriptionKey := other.descriptionKey
      yearFirstAvailable := other.yearFirstAvailable
      monthlyChance := other.monthlyChance
      enactmentIncome := other.enactmentIncome
      retracmentIncome := other.retracmentIncome
      monthlyConstantIncome := other.monthlyConstantIncome
      monthlyIncomeFactor := other.monthlyIncomeFactor
      isIncomeOrdinance := other.isIncomeOrdinance
      monthlyAdjustedIncome := other.monthlyAdjustedIncome
      advisorID := other.advisorID
      initialized := other.initialized
      available := other.available
      on_ := other.on_
      enabled := other.enabled
      haveDeserialized := other.haveDeserialized
      exemplarInfo := other.exemplarInfo
      pResidentialSimulator := other.pResidentialSimulator
      pSimulator := other.pSimulator
      miscProperties := other.miscProperties }

/-! ## Specification-side definitions -/

/-- The record layout of the save format, as the format description lists it: version,
the seventeen members, then the six fields of the exemplar block. -/
def wireForm (r : SC4BuiltInOrdinanceBase) : List Prim :=
  [ .uint16 4,
    .void1 (if r.initialized then 1 else 0),
    .uint32 r.clsid,
    .gzStr r.name,
    .gzStr r.description,
    .uint32 r.yearFirstAvailable,
    .float32 r.monthlyChance,
    .sint64 r.enactmentIncome,
    .sint64 r.retracmentIncome,
    .sint64 r.monthlyConstantIncome,
    .float32 r.monthlyIncomeFactor,
    .uint32 r.advisorID,
    .void1 (if r.available then 1 else 0),
    .void1 (if r.on_ then 1 else 0),
    .void1 (if r.enabled then 1 else 0),
    .sint64 r.monthlyAdjustedIncome,
    .void1 (if r.isIncomeOrdinance then 1 else 0),
    .uint16 2,
    .uint16 2,
    .uint32 0,
    .uint32 r.exemplarInfo.group,
    .uint32 0x6534284a,
    .uint32 r.exemplarInfo.instanceID ]

/-- The members and the version that precede the exemplar block on the wire, with the
values of `q` and with arbitrary bytes `b0 .. b4` in the five boolean positions. -/
def headerForm (q : SC4BuiltInOrdinanceBase) (b0 b1 b2 b3 b4 : Byte) : List Prim :=
  [ .uint16 4,
    .void1 b0.val,
    .uint32 q.clsid,
    .gzStr q.name,
    .gzStr q.description,
    .uint32 q.yearFirstAvailable,
    .float32 q.monthlyChance,
    .sint64 q.enactmentIncome,
    .sint64 q.retracmentIncome,
    .sint64 q.monthlyConstantIncome,
    .float32 q.monthlyIncomeFactor,
    .uint32 q.advisorID,
    .void1 b1.val,
    .void1 b2.val,
    .void1 b3.val,
    .sint64 q.monthlyAdjustedIncome,
    .void1 b4.val ]

/-- The six fields of an exemplar block holding the given values. -/
def blockForm (a b c g t i : Nat) : List Prim :=
  [ .uint16 a, .uint16 b, .uint32 c, .uint32 g, .uint32 t, .uint32 i ]

/-- The record `r` after the members of a header were decoded into it. -/
def decodedHeader (r q : SC4BuiltInOrdinanceBase) (b0 b1 b2 b3 b4 : Byte) :
    SC4BuiltInOrdinanceBase :=
  { r with
    initialized := decide (b0.val ≠ 0)
    clsid := q.clsid
    name := q.name
    description := q.description
    yearFirstAvailable := q.yearFirstAvailable
    monthlyChance := q.monthlyChance
    enactmentIncome := q.enactmentIncome
    retracmentIncome := q.retracmentIncome
    monthlyConstantIncome := q.monthlyConstantIncome
    monthlyIncomeFactor := q.monthlyIncomeFactor
    advisorID := q.advisorID
    available := decide (b1.val ≠ 0)
    on_ := decide (b2.val ≠ 0)
    enabled := decide (b3.val ≠ 0)
    monthlyAdjustedIncome := q.monthlyAdjustedIncome
    isIncomeOrdinance := decide (b4.val ≠ 0) }

/-- The bytes a call appended to a sink that held `before` and now holds `after`. -/
def emitted (before after : OStream) : List Byte :=
  wireBytes (after.written.drop before.written.length)

/-- Write followed by Read: `r` is written to the sink `s`, and `f` reads from an input
stream that holds the bytes this `Write` emitted, followed by `rest`. -/
def readBack (r f : LegalizeGamblingOrdinanceUpgrade) (s : OStream) (rest : List Byte) :
    Bool × LegalizeGamblingOrdinanceUpgrade × IStream :=
  f.Read { bytes := emitted s (r.Write s).2.2 ++ rest, error := 0 }

/-- An input stream that is well formed up to the exemplar block and then holds a block
with the six given values, followed by `rest`. -/
def streamWithBlock (q : SC4BuiltInOrdinanceBase) (b0 b1 b2 b3 b4 : Byte)
    (a b c g t i : Nat) (rest : List Byte) : IStream :=
  { bytes := wireBytes (headerForm q b0 b1 b2 b3 b4) ++ (wireBytes (blockForm a b c g t i) ++ rest),
    error := 0 }

/-- A sink that accepts every write. -/
def openSink : OStream := { written := [], error := 0, accepts := fun _ _ => true }

/-- A sink that accepts `n` primitives and refuses the next ones. -/
def sinkOfRoom (n : Nat) : OStream :=
  { written := [], error := 0, accepts := fun written _ => decide (written.length < n) }

/-- Writing a sequence of primitives one after the other, stopping at the first one the
sink refuses. -/
def putAll : List Prim → OStream → Bool × OStream
  | [], s => (true, s)
  | p :: ps, s => orFail (fun s => s.put p) (putAll ps) s

/-- Whether a call log shows more than the lookup of the application and of the city:
a structure lookup, a demolition or a menu change. -/
def touchesCity (calls : List Call) : Prop :=
  ∃ c ∈ calls, c ≠ Call.GetApp ∧ c ≠ Call.GetCity

/-! ### A sample city -/

/-- A casino: a reward building in the casino exclusion group. -/
def sampleCasino : Occupant :=
  { id := 2, type := kOccupantType_Building, groups := [kOccupantGroup_Reward],
    propertyHolder := some [(kSCPROP_CityExclusionGroup, kCasinoCityExclusionGroup)] }

/-- A city with a house and a casino on lot 7, every manager present, and the casino
enabled in the rewards menu. -/
def sampleCity : City :=
  { residentialSimulator := some { population := 1000 }
    simulator := some { simDate := some { year := 2020 } }
    demandSimulator := some { demands := [] }
    occupantManager := some { occupants :=
      [{ id := 1, type := kOccupantType_Building, groups := [], propertyHolder := none },
       sampleCasino] }
    lotManager := some { lots := [(sampleCasino, { id := 7 })] }
    lotDeveloper := some ()
    civicBuildingSimulator := some { statuses :=
      [(casinoBuildingID,
        { status := 0, buildingCount := 1, unknown1 := 0, unknown2 := 0, unknown3 := 0,
          unknown4 := 0, unknown5 := 0 })] } }

/-- An application showing `sampleCity`, with the place-lot tool active. -/
def sampleApp : App :=
  { city := some sampleCity
    mainWindow := some { childWindows :=
      [(kGZWin_WinSC4App,
        { children :=
          [((kSC4CLSID_cSC4View3DWin, kGZIID_cISC4View3DWin),
            { currentViewInputControl := some placeLotViewInputControl })] })] } }

/-- A host running `sampleApp`, without localized strings. -/
def sampleHost : Host := { app := some sampleApp, localizedStrings := [] }

/-- A host whose application service is absent. -/
def hostWithoutApp : Host := { app := none, localizedStrings := [] }

/-! ### The income formula -/

/-- One wealth tier of the income formula: the product population times factor, in
`double`, is added when the factor and the population are both above zero; otherwise the
sum is left alone. -/
def addTier (sum : Dbl) (factor population : Nat) : Dbl :=
  if Dbl.lt Dbl.zero (Dbl.ofFloat32 factor) = true
      ∧ Dbl.lt Dbl.zero (Dbl.ofFloat32 population) = true then
    Dbl.add sum (Dbl.mul (Dbl.ofFloat32 population) (Dbl.ofFloat32 factor))
  else sum

/-- The income formula before the conversion: the base income as a `double`, then the
low, medium and high wealth tiers in this order. -/
def tierSum (base : Int) (fLow fMed fHigh pLow pMed pHigh : Nat) : Dbl :=
  addTier (addTier (addTier (Dbl.ofInt base) fLow pLow) fMed pMed) fHigh pHigh

/-- The saturating conversion to `int64_t` as the specification words it: a value below
the minimum gives the minimum, a value above the maximum gives the maximum, any other
value is rounded toward zero.  The comparisons are exact. -/
def saturatingInt64 (d : Dbl) : Int :=
  if Dbl.lt d (Dbl.fin int64Min 0) then int64Min
  else if Dbl.lt (Dbl.fin int64Max 0) d then int64Max
  else d.trunc

/-- The income as the claim words it: the saturating conversion of the base income plus,
for each tier, factor times population, where a tier contributes 0 exactly when its
factor is not above zero.  The arithmetic is that of `double`. -/
def claimedIncome (base : Int) (fLow fMed fHigh pLow pMed pHigh : Nat) : Int :=
  let tier (factor population : Nat) : Dbl :=
    if Dbl.lt Dbl.zero (Dbl.ofFloat32 factor) then
      Dbl.mul (Dbl.ofFloat32 factor) (Dbl.ofFloat32 population)
    else Dbl.zero
  saturatingInt64
    (Dbl.add (Dbl.add (Dbl.add (Dbl.ofInt base) (tier fLow pLow)) (tier fMed pMed))
      (tier fHigh pHigh))

/-- A demand simulator that reports the residential populations 1000, 500 and 200 (the
`float`s `1000.0f`, `500.0f`, `200.0f`) for the low, medium and high wealth groups. -/
def scenarioDemand : DemandSimulator :=
  { demands := [((0x1011, 0), { supplyValue := 0x447a0000 }),
                ((0x1021, 0), { supplyValue := 0x43fa0000 }),
                ((0x1031, 0), { supplyValue := 0x43480000 })] }

/-- A demand simulator that reports the low wealth population `-1000.0f` and knows no
other group. -/
def negativeDemand : DemandSimulator :=
  { demands := [((0x1011, 0), { supplyValue := 0xc47a0000 })] }

/-- The income formula before the conversion, for a record: its base income, its three
factors and the three populations its population query returns. -/
def LegalizeGamblingOrdinanceUpgrade.formulaSum (r : LegalizeGamblingOrdinanceUpgrade) : Dbl :=
  tierSum r.baseMonthlyIncome r.residentialLowWealthIncomeFactor
    r.residentialMedWealthIncomeFactor r.residentialHighWealthIncomeFactor
    (r.GetCityPopulation 0x1011).1 (r.GetCityPopulation 0x1021).1
    (r.GetCityPopulation 0x1031).1

/-- The income the claim's wording gives for a record. -/
def LegalizeGamblingOrdinanceUpgrade.claimedIncome (r : LegalizeGamblingOrdinanceUpgrade) :
    Int :=
  SC4.claimedIncome r.baseMonthlyIncome r.residentialLowWealthIncomeFactor
    r.residentialMedWealthIncomeFactor r.residentialHighWealthIncomeFactor
    (r.GetCityPopulation 0x1011).1 (r.GetCityPopulation 0x1021).1
    (r.GetCityPopulation 0x1031).1

/-- The constructed ordinance bound to a demand simulator. -/
def ordinanceWithDemand (d : DemandSimulator) : LegalizeGamblingOrdinanceUpgrade :=
  { LegalizeGamblingOrdinanceUpgrade.ctor with pDemandSimulator := some d }

/-- The constructed ordinance with another base income, as `UpdateOrdinanceData` sets it
from the settings. -/
def ordinanceWithBase (base : Int) : LegalizeGamblingOrdinanceUpgrade :=
  { LegalizeGamblingOrdinanceUpgrade.ctor with baseMonthlyIncome := base }

/-! ### Identity, persisted members, the casino search -/

/-- The identity of a record: the class id as `GetID` returns it, and the exemplar group
and instance. -/
def identity (r : LegalizeGamblingOrdinanceUpgrade) : Nat × Nat × Nat :=
  (r.GetID, r.exemplarInfo.group, r.exemplarInfo.instanceID)

/-- The persisted members of a record, in wire order. -/
def persisted (r : SC4BuiltInOrdinanceBase) :
    Bool × Nat × List Byte × List Byte × Nat × Nat × Int × Int × Int × Nat × Nat ×
      Bool × Bool × Bool × Int × Bool × Nat × Nat :=
  (r.initialized, r.clsid, r.name, r.description, r.yearFirstAvailable, r.monthlyChance,
   r.enactmentIncome, r.retracmentIncome, r.monthlyConstantIncome, r.monthlyIncomeFactor,
   r.advisorID, r.available, r.on_, r.enabled, r.monthlyAdjustedIncome, r.isIncomeOrdinance,
   r.exemplarInfo.group, r.exemplarInfo.instanceID)

/-- A record as another city saved it: class id 5, exemplar group 6, instance 7. -/
def foreignRecord : SC4BuiltInOrdinanceBase :=
  { LegalizeGamblingOrdinanceUpgrade.ctor.toSC4BuiltInOrdinanceBase with
    clsid := 5, exemplarInfo := { group := 6, instanceID := 7 } }

/-- The casino test of the search: a building, in the reward group, with a property
holder whose city exclusion group property is present and is the casino's. -/
def isCasino (o : Occupant) : Bool :=
  decide (o.type = 0x278128A0) && o.groups.contains 0x150B &&
    (match o.propertyHolder with
     | some properties => decide (properties.lookup 0xEA2E078B = some 0xCA78B74B)
     | none => false)

/-- The conditional-building status the civic building simulator holds for the casino,
if there is a simulator and it holds one. -/
def casinoStatus (pCity : City) : Option ConditionalBuildingStatus :=
  match pCity.civicBuildingSimulator with
  | some sim => sim.GetConditionalBuildingStatus 0x33a0000
  | none => none

/-- The id of the current view input control, if the main window, the application
window, the 3D view and a current control all exist. -/
def currentControl (pSC4App : App) : Option Nat :=
  match pSC4App.mainWindow with
  | some mainWin =>
    match mainWin.GetChildWindowFromID kGZWin_WinSC4App with
    | some parentWin =>
      match parentWin.GetChildAs kSC4CLSID_cSC4View3DWin kGZIID_cISC4View3DWin with
      | some view => view.currentViewInputControl
      | none => none
    | none => none
  | none => none

/-- Whether a call is one of the two demolition calls. -/
def isDemolition : Call → Bool
  | .StartDemolishLot _ => true
  | .EndDemolishLot _ => true
  | _ => false

/-! ### The base-class income -/

/-- The base-class income formula before the conversion: the constant income as a
`double` plus the income factor times the residential population, in `double`. -/
def SC4BuiltInOrdinanceBase.formulaSum (r : SC4BuiltInOrdinanceBase) (population : Int) :
    Dbl :=
  Dbl.add (Dbl.ofInt r.monthlyConstantIncome)
    (Dbl.mul (Dbl.ofFloat32 r.monthlyIncomeFactor) (Dbl.ofInt population))

/-- A base record whose constant income is the largest `int64_t`, bound to a residential
simulator that reports the population 0. -/
def baseAtInt64Max : SC4BuiltInOrdinanceBase :=
  { LegalizeGamblingOrdinanceUpgrade.ctor.toSC4BuiltInOrdinanceBase with
    monthlyConstantIncome := int64Max
    pResidentialSimulator := some { population := 0 } }

/-! ### A read that fails part of the way -/

/-- The 23 fields of the wire order for a well-formed record: the version and the
sixteen members with the values of `q` and the bytes `b0 .. b4` in the boolean positions,
then the exemplar block of `q`. -/
def fullForm (q : SC4BuiltInOrdinanceBase) (b0 b1 b2 b3 b4 : Byte) : List Prim :=
  headerForm q b0 b1 b2 b3 b4
    ++ blockForm 2 2 0 q.exemplarInfo.group kExemplarTypeID q.exemplarInfo.instanceID

/-- Whether the field at position `k` of the wire order (0 is the version, 1 to 16 the
members, 17 to 22 the exemplar block) fails on the stream `s`: its primitive read fails,
or, for a field that must equal a constant, the value read is another one. -/
def fieldFails (k : Nat) (s : IStream) : Bool :=
  match k with
  | 0 => decide (s.GetUint16.map Prod.fst ≠ some 4)
  | 1 | 12 | 13 | 14 | 16 => (ReadBool s).isNone
  | 2 | 5 | 11 | 20 | 22 => s.GetUint32.isNone
  | 3 | 4 => s.GetGZStr.isNone
  | 6 | 10 => s.GetFloat32.isNone
  | 7 | 8 | 9 | 15 => s.GetSint64.isNone
  | 17 | 18 => decide (s.GetUint16.map Prod.fst ≠ some 2)
  | 19 => decide (s.GetUint32.map Prod.fst ≠ some 0)
  | 21 => decide (s.GetUint32.map Prod.fst ≠ some kExemplarTypeID)
  | _ => false

/-- The record `r` after the fields before position `k` of the wire order were decoded
into it from `fullForm q b0 .. b4`: a member whose position is below `k` holds the decoded
value, every other member holds the value it has in `r`. -/
def decodedPrefix (r q : SC4BuiltInOrdinanceBase) (b0 b1 b2 b3 b4 : Byte) (k : Nat) :
    SC4BuiltInOrdinanceBase :=
  { r with
    initialized := if 1 < k then decide (b0.val ≠ 0) else r.initialized
    clsid := if 2 < k then q.clsid else r.clsid
    name := if 3 < k then q.name else r.name
    description := if 4 < k then q.description else r.description
    yearFirstAvailable := if 5 < k then q.yearFirstAvailable else r.yearFirstAvailable
    monthlyChance := if 6 < k then q.monthlyChance else r.monthlyChance
    enactmentIncome := if 7 < k then q.enactmentIncome else r.enactmentIncome
    retracmentIncome := if 8 < k then q.retracmentIncome else r.retracmentIncome
    monthlyConstantIncome :=
      if 9 < k then q.monthlyConstantIncome else r.monthlyConstantIncome
    monthlyIncomeFactor := if 10 < k then q.monthlyIncomeFactor else r.monthlyIncomeFactor
    advisorID := if 11 < k then q.advisorID else r.advisorID
    available := if 12 < k then decide (b1.val ≠ 0) else r.available
    on_ := if 13 < k then decide (b2.val ≠ 0) else r.on_
    enabled := if 14 < k then decide (b3.val ≠ 0) else r.enabled
    monthlyAdjustedIncome :=
      if 15 < k then q.monthlyAdjustedIncome else r.monthlyAdjustedIncome
    isIncomeOrdinance := if 16 < k then decide (b4.val ≠ 0) else r.isIncomeOrdinance
    exemplarInfo :=
      { group := if 20 < k then q.exemplarInfo.group else r.exemplarInfo.group
        instanceID := if 22 < k then q.exemplarInfo.instanceID
          else r.exemplarInfo.instanceID } }

/-- A record with other values in every persisted member than the constructed one. -/
def priorRecord : SC4BuiltInOrdinanceBase :=
  { foreignRecord with
    initialized := true, name := [65], description := [66], yearFirstAvailable := 1900
    monthlyChance := 1, enactmentIncome := 2, retracmentIncome := 3
    monthlyConstantIncome := 4, monthlyIncomeFactor := 5, advisorID := 6, available := true
    on_ := true, enabled := false, monthlyAdjustedIncome := 7, isIncomeOrdinance := false }

/-! ### The bracket, the literals, localized strings -/

/-- The constructed ordinance, switched on, whose suppress count is the largest
`uint32_t`. -/
def countAtMax : LegalizeGamblingOrdinanceUpgrade :=
  { LegalizeGamblingOrdinanceUpgrade.ctor with on_ := true, ignoreSetOnCallCount := 2 ^ 32 - 1 }

/-- Whether the `float` with the given pattern is a positive normal number below `2 ^ 24`
that lies within half a unit in the last place of the fraction `num / den`, so that it
is what the literal for that fraction denotes. -/
def float32Near (bits num den : Nat) : Bool :=
  let e : Nat := bits / 2 ^ 23 % 256
  let m : Nat := 2 ^ 23 + bits % 2 ^ 23
  decide (bits < 2 ^ 31 ∧ 0 < e ∧ e ≤ 150 ∧
    2 * ((m * den : Int) - (num * 2 ^ (150 - e) : Nat)).natAbs ≤ den)

/-- A host without an application whose string table holds the text "Hi" for the name
key of the constructed ordinance and the empty text for its description key. -/
def localizedHost : Host :=
  { app := none
    localizedStrings :=
      [({ groupID := 0x6A231EAA, instanceID := 0x2A5EA6BF }, [72, 105]),
       ({ groupID := 0x6A231EAA, instanceID := 0x0A5EA6BF }, [])] }

/-! ## Lemmas on the stream primitives -/

theorem orFail_done (step : OStream → Bool × OStream) :
    orFail step (fun s => (true, s)) = step := by
  funext s
  unfold orFail
  rcases h : step s with ⟨b, s1⟩
  cases b <;> rfl

theorem Write_eq_putAll (r : SC4BuiltInOrdinanceBase) (s : OStream) :
    r.Write s = if s.error ≠ 0 then (false, r, s)
      else ((putAll (wireForm r) s).1, r, (putAll (wireForm r) s).2) := by
  have h : putAll (wireForm r) =
      (orFail (fun s => s.SetUint16 4) <|
       orFail (fun s => WriteBool s r.initialized) <|
       orFail (fun s => s.SetUint32 r.clsid) <|
       orFail (fun s => s.SetGZStr r.name) <|
       orFail (fun s => s.SetGZStr r.description) <|
       orFail (fun s => s.SetUint32 r.yearFirstAvailable) <|
       orFail (fun s => s.SetFloat32 r.monthlyChance) <|
       orFail (fun s => s.SetSint64 r.enactmentIncome) <|
       orFail (fun s => s.SetSint64 r.retracmentIncome) <|
       orFail (fun s => s.SetSint64 r.monthlyConstantIncome) <|
       orFail (fun s => s.SetFloat32 r.monthlyIncomeFactor) <|
       orFail (fun s => s.SetUint32 r.advisorID) <|
       orFail (fun s => WriteBool s r.available) <|
       orFail (fun s => WriteBool s r.on_) <|
       orFail (fun s => WriteBool s r.enabled) <|
       orFail (fun s => s.SetSint64 r.monthlyAdjustedIncome) <|
       orFail (fun s => WriteBool s r.isIncomeOrdinance) <|
       WriteSC4BuiltInOrdinanceProperties r.exemplarInfo) := by
    funext t
    simp only [wireForm, putAll, orFail_done]
    rfl
  unfold SC4BuiltInOrdinanceBase.Write
  simp only [OStream.GetError, h]

theorem putAll_written (ps : List Prim) (s : OStream) :
    ∃ k, k ≤ ps.length ∧ (putAll ps s).2 = { s with written := s.written ++ ps.take k } ∧
      ((putAll ps s).1 = true → k = ps.length) := by
  induction ps generalizing s with
  | nil => exact ⟨0, le_refl _, by simp [putAll], fun _ => rfl⟩
  | cons p ps ih =>
    by_cases hp : s.accepts s.written p = true
    · obtain ⟨k, hk, h2, h3⟩ := ih { s with written := s.written ++ [p] }
      refine ⟨k + 1, by simpa using hk, ?_, ?_⟩
      · simp only [putAll, orFail, OStream.put, hp, if_true, h2]
        simp
      · simp only [putAll, orFail, OStream.put, hp, if_true]
        intro h; simpa using h3 h
    · refine ⟨0, Nat.zero_le _, ?_, ?_⟩
      · simp [putAll, orFail, OStream.put, hp]
      · simp [putAll, orFail, OStream.put, hp]

theorem putAll_true_iff (ps : List Prim) (s : OStream) :
    (putAll ps s).1 = true ↔
      ∀ k p, ps[k]? = some p → s.accepts (s.written ++ ps.take k) p = true := by
  induction ps generalizing s with
  | nil => simp [putAll]
  | cons q ps ih =>
    by_cases hq : s.accepts s.written q = true
    · simp only [putAll, orFail, OStream.put, hq, if_true]
      rw [ih]
      constructor
      · intro h k p hk
        cases k with
        | zero => simp at hk; subst hk; simpa using hq
        | succ k => simpa using h k p (by simpa using hk)
      · intro h k p hk
        simpa using h (k + 1) p (by simpa using hk)
    · constructor
      · intro h; simp [putAll, orFail, OStream.put, hq] at h
      · intro h; exact absurd (by simpa using h 0 q (by simp)) hq

theorem putAll_refused (ps : List Prim) (s : OStream) (k : Nat) (p : Prim)
    (hk : ps[k]? = some p)
    (hbefore : ∀ j q, j < k → ps[j]? = some q → s.accepts (s.written ++ ps.take j) q = true)
    (hrefuse : s.accepts (s.written ++ ps.take k) p = false) :
    putAll ps s = (false, { s with written := s.written ++ ps.take k }) := by
  induction ps generalizing s k with
  | nil => simp at hk
  | cons q ps ih =>
    cases k with
    | zero =>
      simp at hk; subst hk
      have hq : s.accepts s.written q = false := by simpa using hrefuse
      simp [putAll, orFail, OStream.put, hq]
    | succ k =>
      have hq : s.accepts s.written q = true := by
        simpa using hbefore 0 q (Nat.succ_pos _) (by simp)
      simp only [putAll, orFail, OStream.put, hq, if_true]
      rw [ih { s with written := s.written ++ [q] } k (by simpa using hk)
        (fun j q1 hj hq1 => by
          simpa using hbefore (j + 1) q1 (Nat.succ_lt_succ hj) (by simpa using hq1))
        (by simpa using hrefuse)]
      simp

/-! ## Lemmas on the byte codec -/

theorem leBytes_length (w n : Nat) : (leBytes w n).length = w := by
  induction w generalizing n with
  | zero => rfl
  | succ w ih => simp [leBytes, ih]

theorem leValue_leBytes (w n : Nat) : leValue (leBytes w n) = n % 256 ^ w := by
  induction w generalizing n with
  | zero => simp [leBytes, leValue, Nat.mod_one]
  | succ w ih =>
    simp only [leBytes, leValue, ih]
    rw [pow_succ, Nat.mul_comm (256 ^ w) 256, Nat.mod_mul]

theorem leValue_leBytes_of_lt (w n : Nat) (h : n < 256 ^ w) : leValue (leBytes w n) = n := by
  rw [leValue_leBytes, Nat.mod_eq_of_lt h]

theorem toSint64_ofSint64 (v : Int) (h1 : -(2 ^ 63) ≤ v) (h2 : v < 2 ^ 63) :
    toSint64 (ofSint64 v) = v := by
  unfold toSint64 ofSint64
  have hnn : (0 : Int) ≤ v % 2 ^ 64 := Int.emod_nonneg _ (by norm_num)
  by_cases hv : 0 ≤ v
  · have hm : v % 2 ^ 64 = v := Int.emod_eq_of_lt hv (by omega)
    have hlt : (v % 2 ^ 64).toNat < 2 ^ 63 := by omega
    rw [if_pos hlt]; omega
  · have hm : v % 2 ^ 64 = v + 2 ^ 64 := by
      have : (v + 2 ^ 64) % 2 ^ 64 = v + 2 ^ 64 := Int.emod_eq_of_lt (by omega) (by omega)
      rw [← this]; simp
    have hge : ¬ (v % 2 ^ 64).toNat < 2 ^ 63 := by omega
    rw [if_neg hge]; omega

theorem ofSint64_lt (v : Int) : ofSint64 v < 2 ^ 64 := by
  unfold ofSint64
  have h1 : (0 : Int) ≤ v % 2 ^ 64 := Int.emod_nonneg _ (by norm_num)
  have h2 : v % 2 ^ 64 < 2 ^ 64 := Int.emod_lt_of_pos _ (by norm_num)
  omega

theorem GetVoid_append (bs rest : List Byte) (e n : Nat) (h : bs.length = n) :
    IStream.GetVoid { bytes := bs ++ rest, error := e } n
      = some (bs, { bytes := rest, error := e }) := by
  subst h
  simp [IStream.GetVoid]

theorem GetUint16_wire (v : Nat) (rest : List Byte) (e : Nat) (h : v < 2 ^ 16) :
    IStream.GetUint16 { bytes := leBytes 2 v ++ rest, error := e }
      = some (v, { bytes := rest, error := e }) := by
  simp [IStream.GetUint16, GetVoid_append _ _ _ _ (leBytes_length 2 v),
    leValue_leBytes_of_lt 2 v (by simpa using h)]

theorem GetUint32_wire (v : Nat) (rest : List Byte) (e : Nat) (h : v < 2 ^ 32) :
    IStream.GetUint32 { bytes := leBytes 4 v ++ rest, error := e }
      = some (v, { bytes := rest, error := e }) := by
  simp [IStream.GetUint32, GetVoid_append _ _ _ _ (leBytes_length 4 v),
    leValue_leBytes_of_lt 4 v (by simpa using h)]

theorem GetFloat32_wire (v : Nat) (rest : List Byte) (e : Nat) (h : v < 2 ^ 32) :
    IStream.GetFloat32 { bytes := leBytes 4 v ++ rest, error := e }
      = some (v, { bytes := rest, error := e }) := by
  simp [IStream.GetFloat32, GetVoid_append _ _ _ _ (leBytes_length 4 v),
    leValue_leBytes_of_lt 4 v (by simpa using h)]

theorem GetSint64_wire (v : Int) (rest : List Byte) (e : Nat)
    (h1 : -(2 ^ 63) ≤ v) (h2 : v < 2 ^ 63) :
    IStream.GetSint64 { bytes := leBytes 8 (ofSint64 v) ++ rest, error := e }
      = some (v, { bytes := rest, error := e }) := by
  simp [IStream.GetSint64, GetVoid_append _ _ _ _ (leBytes_length 8 (ofSint64 v)),
    leValue_leBytes_of_lt 8 (ofSint64 v) (by simpa using ofSint64_lt v),
    toSint64_ofSint64 v h1 h2]

theorem GetGZStr_wire (str rest : List Byte) (e : Nat) (h : str.length < 2 ^ 32) :
    IStream.GetGZStr { bytes := leBytes 4 str.length ++ (str ++ rest), error := e }
      = some (str, { bytes := rest, error := e }) := by
  simp [IStream.GetGZStr, GetUint32_wire _ _ _ h, GetVoid_append]

theorem ReadBool_wire (b : Byte) (rest : List Byte) (e : Nat) :
    ReadBool { bytes := leBytes 1 b.val ++ rest, error := e }
      = some (decide (b.val ≠ 0), { bytes := rest, error := e }) := by
  simp [ReadBool, GetVoid_append _ _ _ _ (leBytes_length 1 b.val),
    leValue_leBytes_of_lt 1 b.val (by simp)]

/-! ## Lemmas on `Read` -/

theorem Read_header (r q : SC4BuiltInOrdinanceBase) (b0 b1 b2 b3 b4 : Byte)
    (tail : List Byte) (hq : q.InRange) :
    r.Read { bytes := wireBytes (headerForm q b0 b1 b2 b3 b4) ++ tail, error := 0 }
      = ((ReadSC4BuiltInOrdnanceProperties { bytes := tail, error := 0 } r.exemplarInfo).1,
         { decodedHeader r q b0 b1 b2 b3 b4 with
           exemplarInfo :=
             (ReadSC4BuiltInOrdnanceProperties { bytes := tail, error := 0 } r.exemplarInfo).2.1 },
         (ReadSC4BuiltInOrdnanceProperties { bytes := tail, error := 0 } r.exemplarInfo).2.2) := by
  obtain ⟨h1, h2, h3, h4, h5, ⟨h6, h6'⟩, ⟨h7, h7'⟩, ⟨h8, h8'⟩, h9, h10, ⟨h11, h11'⟩, _, _⟩ := hq
  have hv : (4 : Nat) < 2 ^ 16 := by norm_num
  simp only [headerForm, wireBytes, Prim.bytes, List.append_assoc, List.nil_append]
  unfold SC4BuiltInOrdinanceBase.Read
  simp only [IStream.GetError, ne_eq, not_true_eq_false, if_false,
    GetUint16_wire 4 _ _ hv, ReadBool_wire, GetUint32_wire _ _ _ h1, GetGZStr_wire _ _ _ h2,
    GetGZStr_wire _ _ _ h3, GetUint32_wire _ _ _ h4, GetFloat32_wire _ _ _ h5,
    GetSint64_wire _ _ _ h6 h6', GetSint64_wire _ _ _ h7 h7', GetSint64_wire _ _ _ h8 h8',
    GetFloat32_wire _ _ _ h9, GetUint32_wire _ _ _ h10, GetSint64_wire _ _ _ h11 h11']
  rfl

theorem block_read (info : BuiltInOrdinanaceExemplarInfo) (a b c g t i : Nat)
    (rest : List Byte) (e : Nat) (ha : a < 2 ^ 16) (hb : b < 2 ^ 16) (hc : c < 2 ^ 32)
    (hg : g < 2 ^ 32) (ht : t < 2 ^ 32) (hi : i < 2 ^ 32) :
    ((ReadSC4BuiltInOrdnanceProperties
        { bytes := wireBytes (blockForm a b c g t i) ++ rest, error := e } info).1
      = decide (a = 2 ∧ b = 2 ∧ c = 0 ∧ t = kExemplarTypeID)) ∧
    ((ReadSC4BuiltInOrdnanceProperties
        { bytes := wireBytes (blockForm a b c g t i) ++ rest, error := e } info).2.1
      = if a = 2 ∧ b = 2 ∧ c = 0 then
          (if t = kExemplarTypeID then { group := g, instanceID := i }
           else { group := g, instanceID := info.instanceID })
        else info) ∧
    (a = 2 → b = 2 → c = 0 → t = kExemplarTypeID →
      (ReadSC4BuiltInOrdnanceProperties
        { bytes := wireBytes (blockForm a b c g t i) ++ rest, error := e } info).2.2
      = { bytes := rest, error := e }) := by
  simp only [blockForm, wireBytes, Prim.bytes, List.append_assoc, List.nil_append]
  unfold ReadSC4BuiltInOrdnanceProperties
  simp only [GetUint16_wire _ _ _ ha]
  by_cases h1 : a = 2
  swap
  · simp [h1]
  simp only [GetUint16_wire _ _ _ hb, h1]
  by_cases h2 : b = 2
  swap
  · simp [h2]
  simp only [GetUint32_wire _ _ _ hc, h2]
  by_cases h3 : c = 0
  swap
  · simp [h3]
  simp only [GetUint32_wire _ _ _ hg, GetUint32_wire _ _ _ ht, h3]
  by_cases h4 : t = kExemplarTypeID
  swap
  · simp [h4]
  simp [GetUint32_wire _ _ _ hi, h4]

theorem wireBytes_append (xs ys : List Prim) :
    wireBytes (xs ++ ys) = wireBytes xs ++ wireBytes ys := by
  induction xs with
  | nil => rfl
  | cons x xs ih => simp [wireBytes, ih]

theorem wireForm_eq (r : SC4BuiltInOrdinanceBase) :
    wireForm r =
      headerForm r (if r.initialized then 1 else 0) (if r.available then 1 else 0)
        (if r.on_ then 1 else 0) (if r.enabled then 1 else 0)
        (if r.isIncomeOrdinance then 1 else 0)
      ++ blockForm 2 2 0 r.exemplarInfo.group kExemplarTypeID r.exemplarInfo.instanceID := by
  cases hi : r.initialized <;> cases ha : r.available <;> cases ho : r.on_ <;>
    cases he : r.enabled <;> cases hn : r.isIncomeOrdinance <;>
    simp [wireForm, headerForm, blockForm, kExemplarTypeID, hi, ha, ho, he, hn]

theorem Write_written (r : SC4BuiltInOrdinanceBase) (s : OStream)
    (hw : (r.Write s).1 = true) : (r.Write s).2.2.written = s.written ++ wireForm r := by
  rw [Write_eq_putAll] at hw ⊢
  by_cases he : s.error ≠ 0
  · simp [he] at hw
  · simp only [he, if_false] at hw ⊢
    obtain ⟨k, _, h2, h3⟩ := putAll_written (wireForm r) s
    rw [h2, h3 hw]
    simp

theorem bool_byte (v : Bool) :
    decide (((if v then 1 else 0 : Byte)).val ≠ 0) = v := by
  cases v <;> rfl

theorem Read_wireForm (f r : SC4BuiltInOrdinanceBase) (rest : List Byte) (hr : r.InRange) :
    f.Read { bytes := wireBytes (wireForm r) ++ rest, error := 0 }
      = (true,
         { f with
           initialized := r.initialized
           clsid := r.clsid
           name := r.name
           description := r.description
           yearFirstAvailable := r.yearFirstAvailable
           monthlyChance := r.monthlyChance
           enactmentIncome := r.enactmentIncome
           retracmentIncome := r.retracmentIncome
           monthlyConstantIncome := r.monthlyConstantIncome
           monthlyIncomeFactor := r.monthlyIncomeFactor
           advisorID := r.advisorID
           available := r.available
           on_ := r.on_
           enabled := r.enabled
           monthlyAdjustedIncome := r.monthlyAdjustedIncome
           isIncomeOrdinance := r.isIncomeOrdinance
           exemplarInfo := r.exemplarInfo },
         { bytes := rest, error := 0 }) := by
  have hg : r.exemplarInfo.group < 2 ^ 32 := hr.2.2.2.2.2.2.2.2.2.2.2.1
  have hi : r.exemplarInfo.instanceID < 2 ^ 32 := hr.2.2.2.2.2.2.2.2.2.2.2.2
  have hk : kExemplarTypeID < 2 ^ 32 := by decide
  obtain ⟨b1, b2, b3⟩ := block_read f.exemplarInfo 2 2 0 r.exemplarInfo.group kExemplarTypeID
    r.exemplarInfo.instanceID rest 0 (by norm_num) (by norm_num) (by norm_num) hg hk hi
  rw [wireForm_eq, wireBytes_append, List.append_assoc, Read_header _ _ _ _ _ _ _ _ hr,
    b1, b2, b3 rfl rfl rfl rfl]
  simp only [decodedHeader, bool_byte, and_self, decide_True, if_true]

/-! ## Serialisation: the claims -/

/-- C1 (round trip).  When `Write` of a record `r` (members within their C++ types)
succeeds, `Read` of any record `f` over the bytes written returns true, consumes exactly
those bytes, makes every persisted member of `f` equal to the one of `r`, and leaves
`baseMonthlyIncome`, the three tier factors and `ignoreSetOnCallCount` of `f` as they
were. -/
theorem write_read_roundtrip (r f : LegalizeGamblingOrdinanceUpgrade) (s : OStream)
    (rest : List Byte) (hr : r.toSC4BuiltInOrdinanceBase.InRange)
    (hw : (r.Write s).1 = true) :
    (readBack r f s rest).1 = true ∧
    (readBack r f s rest).2.2 = { bytes := rest, error := 0 } ∧
    (readBack r f s rest).2.1.initialized = r.initialized ∧
    (readBack r f s rest).2.1.clsid = r.clsid ∧
    (readBack r f s rest).2.1.name = r.name ∧
    (readBack r f s rest).2.1.description = r.description ∧
    (readBack r f s rest).2.1.yearFirstAvailable = r.yearFirstAvailable ∧
    (readBack r f s rest).2.1.monthlyChance = r.monthlyChance ∧
    (readBack r f s rest).2.1.enactmentIncome = r.enactmentIncome ∧
    (readBack r f s rest).2.1.retracmentIncome = r.retracmentIncome ∧
    (readBack r f s rest).2.1.monthlyConstantIncome = r.monthlyConstantIncome ∧
    (readBack r f s rest).2.1.monthlyIncomeFactor = r.monthlyIncomeFactor ∧
    (readBack r f s rest).2.1.advisorID = r.advisorID ∧
    (readBack r f s rest).2.1.available = r.available ∧
    (readBack r f s rest).2.1.on_ = r.on_ ∧
    (readBack r f s rest).2.1.enabled = r.enabled ∧
    (readBack r f s rest).2.1.monthlyAdjustedIncome = r.monthlyAdjustedIncome ∧
    (readBack r f s rest).2.1.isIncomeOrdinance = r.isIncomeOrdinance ∧
    (readBack r f s rest).2.1.exemplarInfo.group = r.exemplarInfo.group ∧
    (readBack r f s rest).2.1.exemplarInfo.instanceID = r.exemplarInfo.instanceID ∧
    (readBack r f s rest).2.1.baseMonthlyIncome = f.baseMonthlyIncome ∧
    (readBack r f s rest).2.1.residentialLowWealthIncomeFactor
      = f.residentialLowWealthIncomeFactor ∧
    (readBack r f s rest).2.1.residentialMedWealthIncomeFactor
      = f.residentialMedWealthIncomeFactor ∧
    (readBack r f s rest).2.1.residentialHighWealthIncomeFactor
      = f.residentialHighWealthIncomeFactor ∧
    (readBack r f s rest).2.1.ignoreSetOnCallCount = f.ignoreSetOnCallCount := by
  have hw1 : (r.toSC4BuiltInOrdinanceBase.Write s).1 = true := hw
  have hwr := Write_written r.toSC4BuiltInOrdinanceBase s hw1
  have hem : emitted s (r.Write s).2.2 = wireBytes (wireForm r.toSC4BuiltInOrdinanceBase) := by
    show wireBytes (List.drop s.written.length (r.toSC4BuiltInOrdinanceBase.Write s).2.2.written)
      = _
    rw [hwr, List.drop_left]
  simp only [readBack, hem, LegalizeGamblingOrdinanceUpgrade.Read,
    Read_wireForm _ _ _ hr]
  simp

set_option maxRecDepth 8000 in
theorem ctor_InRange : LegalizeGamblingOrdinanceUpgrade.ctor.toSC4BuiltInOrdinanceBase.InRange := by
  decide

/-- Witness for C1: the freshly constructed ordinance written to an open sink and read
back into a record with other income settings. -/
theorem write_read_roundtrip_witness :
    LegalizeGamblingOrdinanceUpgrade.ctor.toSC4BuiltInOrdinanceBase.InRange ∧
    (LegalizeGamblingOrdinanceUpgrade.ctor.Write openSink).1 = true ∧
    (readBack LegalizeGamblingOrdinanceUpgrade.ctor
      { LegalizeGamblingOrdinanceUpgrade.ctor with
        baseMonthlyIncome := 250, ignoreSetOnCallCount := 1 } openSink []).1 = true :=
  ⟨ctor_InRange, by decide,
    (write_read_roundtrip LegalizeGamblingOrdinanceUpgrade.ctor
      { LegalizeGamblingOrdinanceUpgrade.ctor with
        baseMonthlyIncome := 250, ignoreSetOnCallCount := 1 } openSink []
      ctor_InRange (by decide)).1⟩

/-- C2 (version check).  On a stream whose first `uint16` is not 4 (the read may also
fail outright), `Read` returns false and the record is exactly what it was. -/
theorem read_rejects_other_version (r : LegalizeGamblingOrdinanceUpgrade) (s : IStream)
    (h : ∀ s1, s.GetUint16 ≠ some (4, s1)) :
    (r.Read s).1 = false ∧ (r.Read s).2.1 = r := by
  unfold LegalizeGamblingOrdinanceUpgrade.Read SC4BuiltInOrdinanceBase.Read
  by_cases he : s.GetError ≠ 0
  · simp [he]
  · simp only [he, if_false]
    cases hv : s.GetUint16 with
    | none => simp
    | some vs =>
      obtain ⟨v, s1⟩ := vs
      have hne : v ≠ 4 := fun h4 => h s1 (by rw [hv, h4])
      simp [hne]

/-- Witness for C2: a stream that starts with the `uint16` 3. -/
theorem read_rejects_other_version_witness :
    (∀ s1, IStream.GetUint16 { bytes := [3, 0, 1, 9, 9, 9, 9], error := 0 } ≠ some (4, s1)) ∧
    (LegalizeGamblingOrdinanceUpgrade.ctor.Read
      { bytes := [3, 0, 1, 9, 9, 9, 9], error := 0 }).1 = false ∧
    (LegalizeGamblingOrdinanceUpgrade.ctor.Read
      { bytes := [3, 0, 1, 9, 9, 9, 9], error := 0 }).2.1
      = LegalizeGamblingOrdinanceUpgrade.ctor :=
  ⟨fun s1 h => by
     simp [IStream.GetUint16, IStream.GetVoid, leValue] at h
     exact absurd h.1 (by decide),
   read_rejects_other_version LegalizeGamblingOrdinanceUpgrade.ctor
     { bytes := [3, 0, 1, 9, 9, 9, 9], error := 0 }
     (fun s1 h => by
     simp [IStream.GetUint16, IStream.GetVoid, leValue] at h
     exact absurd h.1 (by decide))⟩

/-- C3 (exemplar block).  On a stream that is well formed up to the exemplar block and
holds a block with the values `a b c g t i`: `Read` returns false as soon as `a` is not
2, `b` is not 2, `c` is not 0 or the type `t` is not `kExemplarTypeID`; with the right
constants it returns true and the record's exemplar info is group `g`, instance `i`; and
a wrong type `t` leaves the record that the right type would have left, except that
the instance id is still the old one, so `t` itself is stored nowhere. -/
theorem read_checks_exemplar_block (r : LegalizeGamblingOrdinanceUpgrade)
    (q : SC4BuiltInOrdinanceBase) (b0 b1 b2 b3 b4 : Byte) (a b c g t i : Nat)
    (rest : List Byte) (hq : q.InRange) (ha : a < 2 ^ 16) (hb : b < 2 ^ 16)
    (hc : c < 2 ^ 32) (hg : g < 2 ^ 32) (ht : t < 2 ^ 32) (hi : i < 2 ^ 32) :
    ((a ≠ 2 ∨ b ≠ 2 ∨ c ≠ 0 ∨ t ≠ kExemplarTypeID) →
      (r.Read (streamWithBlock q b0 b1 b2 b3 b4 a b c g t i rest)).1 = false) ∧
    (a = 2 → b = 2 → c = 0 →
      (r.Read (streamWithBlock q b0 b1 b2 b3 b4 a b c g kExemplarTypeID i rest)).1 = true ∧
      (r.Read (streamWithBlock q b0 b1 b2 b3 b4 a b c g kExemplarTypeID i rest)).2.1.exemplarInfo
        = { group := g, instanceID := i }) ∧
    (a = 2 → b = 2 → c = 0 → t ≠ kExemplarTypeID →
      (r.Read (streamWithBlock q b0 b1 b2 b3 b4 a b c g t i rest)).2.1
        = { (r.Read (streamWithBlock q b0 b1 b2 b3 b4 a b c g kExemplarTypeID i rest)).2.1 with
            exemplarInfo := { group := g, instanceID := r.exemplarInfo.instanceID } }) := by
  have hk : kExemplarTypeID < 2 ^ 32 := by decide
  obtain ⟨t1, t2, _⟩ := block_read r.exemplarInfo a b c g t i rest 0 ha hb hc hg ht hi
  obtain ⟨k1, k2, _⟩ :=
    block_read r.exemplarInfo a b c g kExemplarTypeID i rest 0 ha hb hc hg hk hi
  simp only [LegalizeGamblingOrdinanceUpgrade.Read, streamWithBlock,
    Read_header _ _ _ _ _ _ _ _ hq, t1, t2, k1, k2]
  refine ⟨?_, ?_, ?_⟩
  · intro h
    simp only [decide_eq_false_iff_not, not_and]
    intro h1 h2 h3 h4
    rcases h with h | h | h | h
    · exact h h1
    · exact h h2
    · exact h h3
    · exact h h4
  · intro h1 h2 h3
    simp [h1, h2, h3]
  · intro h1 h2 h3 h4
    simp [h1, h2, h3, h4]

/-- Witness for C3: the header of the constructed ordinance followed by a block whose
type field is 7. -/
theorem read_checks_exemplar_block_witness :
    (LegalizeGamblingOrdinanceUpgrade.ctor.Read
      (streamWithBlock LegalizeGamblingOrdinanceUpgrade.ctor.toSC4BuiltInOrdinanceBase
        1 0 0 1 1 2 2 0 5 7 6 [])).1 = false :=
  (read_checks_exemplar_block LegalizeGamblingOrdinanceUpgrade.ctor
    LegalizeGamblingOrdinanceUpgrade.ctor.toSC4BuiltInOrdinanceBase 1 0 0 1 1 2 2 0 5 7 6 []
    ctor_InRange (by norm_num) (by norm_num) (by norm_num) (by norm_num) (by norm_num)
    (by norm_num)).1 (by decide)

theorem wireBytes_wireForm_length (r : SC4BuiltInOrdinanceBase) :
    (wireBytes (wireForm r)).length = 87 + r.name.length + r.description.length := by
  simp only [wireForm, wireBytes, Prim.bytes, List.length_append, leBytes_length,
    List.length_nil]
  omega

/-- C4 (wire layout).  A successful `Write` appends to the sink exactly the listed
primitives, in this order and of these kinds; the bytes they occupy number 87 plus the
lengths of the two strings (2+1+4+(4+n)+(4+d)+4+4+8+8+8+4+4+1+1+1+8+1 and 2+2+4+4+4+4), and
every boolean byte is 0 or 1. -/
theorem write_emits_wire_form (r : LegalizeGamblingOrdinanceUpgrade) (s : OStream)
    (hw : (r.Write s).1 = true) :
    (r.Write s).2.2.written = s.written ++
      [ Prim.uint16 4,
        Prim.void1 (if r.initialized then 1 else 0),
        Prim.uint32 r.clsid,
        Prim.gzStr r.name,
        Prim.gzStr r.description,
        Prim.uint32 r.yearFirstAvailable,
        Prim.float32 r.monthlyChance,
        Prim.sint64 r.enactmentIncome,
        Prim.sint64 r.retracmentIncome,
        Prim.sint64 r.monthlyConstantIncome,
        Prim.float32 r.monthlyIncomeFactor,
        Prim.uint32 r.advisorID,
        Prim.void1 (if r.available then 1 else 0),
        Prim.void1 (if r.on_ then 1 else 0),
        Prim.void1 (if r.enabled then 1 else 0),
        Prim.sint64 r.monthlyAdjustedIncome,
        Prim.void1 (if r.isIncomeOrdinance then 1 else 0),
        Prim.uint16 2,
        Prim.uint16 2,
        Prim.uint32 0,
        Prim.uint32 r.exemplarInfo.group,
        Prim.uint32 0x6534284a,
        Prim.uint32 r.exemplarInfo.instanceID ] ∧
    (emitted s (r.Write s).2.2).length = 87 + r.name.length + r.description.length ∧
    (∀ b, Prim.void1 b ∈ (r.Write s).2.2.written.drop s.written.length → b = 0 ∨ b = 1) := by
  have hwr := Write_written r.toSC4BuiltInOrdinanceBase s hw
  have hwr2 : (r.Write s).2.2.written = s.written ++ wireForm r.toSC4BuiltInOrdinanceBase := hwr
  refine ⟨hwr, ?_, ?_⟩
  · unfold emitted
    rw [hwr2, List.drop_left, wireBytes_wireForm_length]
  · intro b hb
    rw [hwr2, List.drop_left] at hb
    simp only [wireForm, List.mem_cons, Prim.void1.injEq, List.mem_singleton, reduceCtorEq,
      false_or, or_false, List.mem_nil_iff] at hb
    rcases hb with h | h | h | h | h <;> (subst h; split <;> simp)

/-- Witness for C4: the constructed ordinance written to an open sink. -/
theorem write_emits_wire_form_witness :
    (LegalizeGamblingOrdinanceUpgrade.ctor.Write openSink).1 = true ∧
    (emitted openSink (LegalizeGamblingOrdinanceUpgrade.ctor.Write openSink).2.2).length
      = 87 + LegalizeGamblingOrdinanceUpgrade.ctor.name.length
          + LegalizeGamblingOrdinanceUpgrade.ctor.description.length :=
  ⟨by decide,
    (write_emits_wire_form LegalizeGamblingOrdinanceUpgrade.ctor openSink (by decide)).2.1⟩

/-- C5 (write failure).  With a non-zero error flag `Write` returns false and leaves the
sink as it was.  With a clear flag, when the sink refuses the primitive at position `k`
of the wire form after accepting those before it, `Write` returns false and the sink
holds exactly the `k` primitives before it: nothing after the refused one is emitted.
`Write` returns true exactly when the flag is clear and every primitive of the wire form
is accepted.  In every case the record is unchanged. -/
theorem write_failure (r : LegalizeGamblingOrdinanceUpgrade) (s : OStream) :
    (s.error ≠ 0 → r.Write s = (false, r, s)) ∧
    (∀ k p, s.error = 0 → (wireForm r.toSC4BuiltInOrdinanceBase)[k]? = some p →
      (∀ j q, j < k → (wireForm r.toSC4BuiltInOrdinanceBase)[j]? = some q →
        s.accepts (s.written ++ (wireForm r.toSC4BuiltInOrdinanceBase).take j) q = true) →
      s.accepts (s.written ++ (wireForm r.toSC4BuiltInOrdinanceBase).take k) p = false →
      r.Write s = (false, r,
        { s with written := s.written ++ (wireForm r.toSC4BuiltInOrdinanceBase).take k })) ∧
    ((r.Write s).1 = true ↔
      s.error = 0 ∧ ∀ k p, (wireForm r.toSC4BuiltInOrdinanceBase)[k]? = some p →
        s.accepts (s.written ++ (wireForm r.toSC4BuiltInOrdinanceBase).take k) p = true) ∧
    (r.Write s).2.1 = r := by
  unfold LegalizeGamblingOrdinanceUpgrade.Write
  rw [Write_eq_putAll]
  refine ⟨?_, ?_, ?_, ?_⟩
  · intro he
    simp [he]
  · intro k p he hk hbefore hrefuse
    simp only [he, ne_eq, not_true_eq_false, if_false,
      putAll_refused _ s k p hk hbefore hrefuse]
  · by_cases he : s.error = 0
    · simp only [he, ne_eq, not_true_eq_false, if_false, true_and]
      exact putAll_true_iff _ s
    · simp [he]
  · by_cases he : s.error = 0 <;> simp [he]

/-- An instance of C5: a sink with room for two primitives refuses the third (the class
id), and `Write` of the constructed ordinance returns false having emitted the version
and the `initialized` byte only. -/
theorem write_failure_witness :
    LegalizeGamblingOrdinanceUpgrade.ctor.Write (sinkOfRoom 2)
      = (false, LegalizeGamblingOrdinanceUpgrade.ctor,
         { sinkOfRoom 2 with written := [Prim.uint16 4, Prim.void1 0] }) :=
  (write_failure LegalizeGamblingOrdinanceUpgrade.ctor (sinkOfRoom 2)).2.1 2
    (Prim.uint32 0xA0D07129) rfl rfl
    (fun j q hj hq => by
      have hj2 : j = 0 ∨ j = 1 := by omega
      rcases hj2 with h | h <;> subst h <;> rfl)
    rfl

/-! ## Activation and lifecycle: the claims -/

theorem DemolishCasino_head (pCity : City) :
    ∃ t, DemolishCasino pCity = Call.GetOccupantManager :: t := by
  unfold DemolishCasino GetCasinoOccupant
  cases pCity.occupantManager with
  | none => exact ⟨_, rfl⟩
  | some m =>
    simp only
    split
    · split
      · split
        · split <;> exact ⟨_, rfl⟩
        · exact ⟨_, rfl⟩
      · exact ⟨_, rfl⟩
    · exact ⟨_, rfl⟩

/-- C6 (suppressed toggle).  With `ignoreSetOnCallCount > 0`, `SetOn(v)` returns true,
leaves the whole record as it was (so `on`, `available`, `enabled`, `initialized`,
`monthlyAdjustedIncome` and the count are unchanged) and makes no call on the host. -/
theorem setOn_suppressed (r : LegalizeGamblingOrdinanceUpgrade) (h : Host) (v : Bool)
    (hs : r.ignoreSetOnCallCount > 0) :
    (r.SetOn h v).1 = true ∧ (r.SetOn h v).2.1 = r ∧ (r.SetOn h v).2.2 = [] := by
  have hne : ¬ r.ignoreSetOnCallCount = 0 := Nat.pos_iff_ne_zero.mp hs
  simp [LegalizeGamblingOrdinanceUpgrade.SetOn, hne]

/-- Witness for C6: switching off, with the count at 1, in a city that has a casino. -/
theorem setOn_suppressed_witness :
    ({ LegalizeGamblingOrdinanceUpgrade.ctor with
        ignoreSetOnCallCount := 1 } : LegalizeGamblingOrdinanceUpgrade).ignoreSetOnCallCount > 0 ∧
    (LegalizeGamblingOrdinanceUpgrade.SetOn
      { LegalizeGamblingOrdinanceUpgrade.ctor with ignoreSetOnCallCount := 1 }
      sampleHost false).2.2 = [] :=
  ⟨by decide,
    (setOn_suppressed { LegalizeGamblingOrdinanceUpgrade.ctor with ignoreSetOnCallCount := 1 }
      sampleHost false (by decide)).2.2⟩

/-- C7 (unsuppressed toggle).  With `ignoreSetOnCallCount = 0`, `SetOn(v)` returns true
and the record is the old one with `on = v` (so `available`, `enabled`, `initialized`
and the count are unchanged).  The host is touched beyond the application and city
lookup exactly when `v` is false and application and city are both present, and then
the calls are those of `DemolishCasino` followed by those of `DisableCasinoMenuItem`;
`SetOn(true)` makes no call at all. -/
theorem setOn_unsuppressed (r : LegalizeGamblingOrdinanceUpgrade) (h : Host) (v : Bool)
    (hs : r.ignoreSetOnCallCount = 0) :
    (r.SetOn h v).1 = true ∧
    (r.SetOn h v).2.1 = { r with on_ := v } ∧
    (touchesCity (r.SetOn h v).2.2 ↔
      (v = false ∧ ∃ app city, h.app = some app ∧ app.city = some city)) ∧
    (∀ app city, v = false → h.app = some app → app.city = some city →
      (r.SetOn h v).2.2
        = [Call.GetApp, Call.GetCity] ++ DemolishCasino city ++ DisableCasinoMenuItem app city) ∧
    (v = true → (r.SetOn h v).2.2 = []) := by
  unfold LegalizeGamblingOrdinanceUpgrade.SetOn touchesCity
  simp only [hs, if_true, SC4BuiltInOrdinanceBase.SetOn]
  cases v with
  | true => simp
  | false =>
    cases happ : h.app with
    | none => simp
    | some app =>
      cases hcity : app.city with
      | none =>
        simp [hcity]
        intro app1 city1 h1 h2
        subst h1
        rw [hcity] at h2
        cases h2
      | some city =>
        obtain ⟨t, ht⟩ := DemolishCasino_head city
        simp [ht, hcity]
        intro app1 city1 h1 h2
        subst h1
        rw [hcity] at h2
        cases h2
        simp [ht]

/-- Witness for C7: switching off in the sample city demolishes lot 7, disables the
menu entry and cancels the placement tool. -/
theorem setOn_unsuppressed_witness :
    LegalizeGamblingOrdinanceUpgrade.ctor.ignoreSetOnCallCount = 0 ∧
    (LegalizeGamblingOrdinanceUpgrade.ctor.SetOn sampleHost false).2.2
      = [Call.GetApp, Call.GetCity] ++ DemolishCasino sampleCity
          ++ DisableCasinoMenuItem sampleApp sampleCity ∧
    Call.StartDemolishLot { id := 7 }
      ∈ (LegalizeGamblingOrdinanceUpgrade.ctor.SetOn sampleHost false).2.2 :=
  ⟨rfl,
    (setOn_unsuppressed LegalizeGamblingOrdinanceUpgrade.ctor sampleHost false rfl).2.2.2.1
      sampleApp sampleCity rfl rfl rfl,
    by decide⟩

/-- Counterexample to C8 as stated: at the largest `uint32_t` value the increment of
`PushIgnoreSetOnCalls` wraps to 0 instead of adding one. -/
theorem push_wraps_at_max :
    (LegalizeGamblingOrdinanceUpgrade.PushIgnoreSetOnCalls
      { LegalizeGamblingOrdinanceUpgrade.ctor with
        ignoreSetOnCallCount := 4294967295 }).ignoreSetOnCallCount = 0 ∧
    ¬ ((LegalizeGamblingOrdinanceUpgrade.PushIgnoreSetOnCalls
      { LegalizeGamblingOrdinanceUpgrade.ctor with
        ignoreSetOnCallCount := 4294967295 }).ignoreSetOnCallCount = 4294967295 + 1) := by
  constructor <;> decide

/-- C8, amended.  Below the largest `uint32_t` value `PushIgnoreSetOnCalls` adds exactly
one to `ignoreSetOnCallCount`, and at the largest value it wraps the count to 0.  For
every count, the largest included, `PopIgnoreSetOnCalls` takes exactly one off a positive
count and leaves a zero count at zero.  Neither changes any other member, whatever the
count: the record after the call and the record before it agree once their counts are
set to the same value. -/
theorem push_pop_count (r : LegalizeGamblingOrdinanceUpgrade) :
    (r.ignoreSetOnCallCount < 2 ^ 32 - 1 →
      r.PushIgnoreSetOnCalls
        = { r with ignoreSetOnCallCount := r.ignoreSetOnCallCount + 1 }) ∧
    (r.ignoreSetOnCallCount = 2 ^ 32 - 1 →
      r.PushIgnoreSetOnCalls = { r with ignoreSetOnCallCount := 0 }) ∧
    (r.ignoreSetOnCallCount > 0 →
      r.PopIgnoreSetOnCalls = { r with ignoreSetOnCallCount := r.ignoreSetOnCallCount - 1 }) ∧
    (r.ignoreSetOnCallCount = 0 → r.PopIgnoreSetOnCalls = r) ∧
    (∀ c, { r.PushIgnoreSetOnCalls with ignoreSetOnCallCount := c }
      = { r with ignoreSetOnCallCount := c }) ∧
    (∀ c, { r.PopIgnoreSetOnCalls with ignoreSetOnCallCount := c }
      = { r with ignoreSetOnCallCount := c }) := by
  refine ⟨?_, ?_, ?_, ?_, ?_, ?_⟩
  · intro hmax
    have hm : (r.ignoreSetOnCallCount + 1) % 2 ^ 32 = r.ignoreSetOnCallCount + 1 :=
      Nat.mod_eq_of_lt (by omega)
    simp only [LegalizeGamblingOrdinanceUpgrade.PushIgnoreSetOnCalls, hm]
  · intro hmax
    have hm : (r.ignoreSetOnCallCount + 1) % 2 ^ 32 = 0 := by
      rw [hmax]
      decide
    simp only [LegalizeGamblingOrdinanceUpgrade.PushIgnoreSetOnCalls, hm]
  · intro hpos
    simp [LegalizeGamblingOrdinanceUpgrade.PopIgnoreSetOnCalls, hpos]
  · intro hz
    simp [LegalizeGamblingOrdinanceUpgrade.PopIgnoreSetOnCalls, hz]
  · intro c
    rfl
  · intro c
    unfold LegalizeGamblingOrdinanceUpgrade.PopIgnoreSetOnCalls
    split_ifs <;> rfl

/-- Witness for the amended C8: a push on the constructed ordinance, whose count is 0, and
a pop on a record whose count is the largest `uint32_t`. -/
theorem push_pop_count_witness :
    LegalizeGamblingOrdinanceUpgrade.ctor.PushIgnoreSetOnCalls
      = { LegalizeGamblingOrdinanceUpgrade.ctor with ignoreSetOnCallCount := 0 + 1 } ∧
    countAtMax.PopIgnoreSetOnCalls
      = { countAtMax with ignoreSetOnCallCount := 2 ^ 32 - 1 - 1 } :=
  ⟨(push_pop_count LegalizeGamblingOrdinanceUpgrade.ctor).1 (by decide),
   (push_pop_count countAtMax).2.2.1 (by decide)⟩

/-- C9 (`IsOn`).  `IsOn()` is true exactly when `available` and `on` are both true; so
after `SetOn(true)` on a record that is not available, `IsOn()` is false. -/
theorem isOn_iff (r : LegalizeGamblingOrdinanceUpgrade) (h : Host) :
    (r.IsOn = true ↔ (r.available = true ∧ r.on_ = true)) ∧
    (r.available = false → (r.SetOn h true).2.1.IsOn = false) := by
  refine ⟨?_, ?_⟩
  · simp [LegalizeGamblingOrdinanceUpgrade.IsOn, SC4BuiltInOrdinanceBase.IsOn]
  · intro ha
    unfold LegalizeGamblingOrdinanceUpgrade.SetOn LegalizeGamblingOrdinanceUpgrade.IsOn
      SC4BuiltInOrdinanceBase.IsOn
    split <;> simp [SC4BuiltInOrdinanceBase.SetOn, ha]

/-- An instance of C9: the constructed ordinance is not available, and stays off to
`IsOn()` after `SetOn(true)` although its `on` member is then true. -/
theorem isOn_iff_witness :
    (LegalizeGamblingOrdinanceUpgrade.ctor.SetOn sampleHost true).2.1.on_ = true ∧
    (LegalizeGamblingOrdinanceUpgrade.ctor.SetOn sampleHost true).2.1.IsOn = false :=
  ⟨by decide, (isOn_iff LegalizeGamblingOrdinanceUpgrade.ctor sampleHost).2 rfl⟩

theorem LoadLocalizedStringResources_flags (r : SC4BuiltInOrdinanceBase) (h : Host) :
    (r.LoadLocalizedStringResources h).1.initialized = r.initialized ∧
    (r.LoadLocalizedStringResources h).1.available = r.available ∧
    (r.LoadLocalizedStringResources h).1.on_ = r.on_ ∧
    (r.LoadLocalizedStringResources h).1.enabled = r.enabled ∧
    (r.LoadLocalizedStringResources h).1.monthlyAdjustedIncome = r.monthlyAdjustedIncome := by
  unfold SC4BuiltInOrdinanceBase.LoadLocalizedStringResources
  split
  · simp
  · split
    · simp
    · simp only
      split_ifs <;> simp

theorem InitializeOrdinanceComponents_flags (r : LegalizeGamblingOrdinanceUpgrade) (h : Host)
    (pCity : Option City) :
    (r.InitializeOrdinanceComponents h pCity).1.initialized = r.initialized ∧
    (r.InitializeOrdinanceComponents h pCity).1.available = r.available ∧
    (r.InitializeOrdinanceComponents h pCity).1.on_ = r.on_ ∧
    (r.InitializeOrdinanceComponents h pCity).1.enabled = r.enabled ∧
    (r.InitializeOrdinanceComponents h pCity).1.monthlyAdjustedIncome
      = r.monthlyAdjustedIncome := by
  have k1 := fun x => (LoadLocalizedStringResources_flags x h).1
  have k2 := fun x => (LoadLocalizedStringResources_flags x h).2.1
  have k3 := fun x => (LoadLocalizedStringResources_flags x h).2.2.1
  have k4 := fun x => (LoadLocalizedStringResources_flags x h).2.2.2.1
  have k5 := fun x => (LoadLocalizedStringResources_flags x h).2.2.2.2
  unfold LegalizeGamblingOrdinanceUpgrade.InitializeOrdinanceComponents
    SC4BuiltInOrdinanceBase.InitializeOrdinanceComponents
  cases pCity with
  | none => simp only [k1, k2, k3, k4, k5, and_self]
  | some city =>
    simp only [k1, k2, k3, k4, k5]
    split_ifs <;> simp

/-- C10 (`Init`).  `Init()` returns true and leaves `initialized` true.  A record that was
not initialized also gets `enabled = true`; on a record that was initialized the four
flags `initialized`, `available`, `on`, `enabled` are unchanged.  `available`, `on` and
`monthlyAdjustedIncome` are never changed. -/
theorem init_effect (r : LegalizeGamblingOrdinanceUpgrade) (h : Host) :
    (r.Init h).1 = true ∧
    (r.Init h).2.1.initialized = true ∧
    (r.initialized = false → (r.Init h).2.1.enabled = true) ∧
    (r.initialized = true →
      (r.Init h).2.1.initialized = r.initialized ∧ (r.Init h).2.1.available = r.available ∧
      (r.Init h).2.1.on_ = r.on_ ∧ (r.Init h).2.1.enabled = r.enabled) ∧
    (r.Init h).2.1.available = r.available ∧
    (r.Init h).2.1.on_ = r.on_ ∧
    (r.Init h).2.1.monthlyAdjustedIncome = r.monthlyAdjustedIncome := by
  unfold LegalizeGamblingOrdinanceUpgrade.Init
  cases happ : h.app with
  | none =>
    cases hi : r.initialized <;> simp [hi]
  | some app =>
    simp only
    have k := fun x => InitializeOrdinanceComponents_flags x h app.city
    simp only [(k _).1, (k _).2.1, (k _).2.2.1, (k _).2.2.2.1, (k _).2.2.2.2]
    cases hi : r.initialized <;> simp [hi]

/-- An instance of C10: `Init` on the constructed ordinance in the sample city sets
`initialized` and `enabled` and binds the simulation clock. -/
theorem init_effect_witness :
    (LegalizeGamblingOrdinanceUpgrade.ctor.Init sampleHost).2.1.initialized = true ∧
    (LegalizeGamblingOrdinanceUpgrade.ctor.Init sampleHost).2.1.enabled = true ∧
    (LegalizeGamblingOrdinanceUpgrade.ctor.Init sampleHost).2.1.pSimulator
      = some { simDate := some { year := 2020 } } :=
  ⟨(init_effect LegalizeGamblingOrdinanceUpgrade.ctor sampleHost).2.1,
   (init_effect LegalizeGamblingOrdinanceUpgrade.ctor sampleHost).2.2.1 rfl,
   by decide⟩

/-! ## Shutdown, conditions, availability, simulation: the claims -/

/-- Counterexample to C11 as stated: the constructed ordinance is initialised in the
sample city, which binds the three services; `Shutdown` with the application service
absent then leaves all three bound. -/
theorem shutdown_without_app_keeps_services :
    ((LegalizeGamblingOrdinanceUpgrade.ctor.Init sampleHost).2.1.Shutdown
        hostWithoutApp).2.1.pResidentialSimulator = some { population := 1000 } ∧
    ((LegalizeGamblingOrdinanceUpgrade.ctor.Init sampleHost).2.1.Shutdown
        hostWithoutApp).2.1.pSimulator = some { simDate := some { year := 2020 } } ∧
    ((LegalizeGamblingOrdinanceUpgrade.ctor.Init sampleHost).2.1.Shutdown
        hostWithoutApp).2.1.pDemandSimulator = some { demands := [] } := by
  decide

/-- C11, amended.  `Shutdown()` returns true and leaves `enabled` and `initialized`
false; when the application service is present the residential simulator, the simulator
and the demand simulator references are all null afterwards, and when it is absent they
are left as they were. -/
theorem shutdown_effect (r : LegalizeGamblingOrdinanceUpgrade) (h : Host) :
    (r.Shutdown h).1 = true ∧
    (r.Shutdown h).2.1.enabled = false ∧
    (r.Shutdown h).2.1.initialized = false ∧
    (h.app ≠ none →
      (r.Shutdown h).2.1.pResidentialSimulator = none ∧
      (r.Shutdown h).2.1.pSimulator = none ∧
      (r.Shutdown h).2.1.pDemandSimulator = none) ∧
    (h.app = none →
      (r.Shutdown h).2.1.pResidentialSimulator = r.pResidentialSimulator ∧
      (r.Shutdown h).2.1.pSimulator = r.pSimulator ∧
      (r.Shutdown h).2.1.pDemandSimulator = r.pDemandSimulator) := by
  unfold LegalizeGamblingOrdinanceUpgrade.Shutdown
  cases happ : h.app with
  | none => simp
  | some app =>
    simp [LegalizeGamblingOrdinanceUpgrade.ShutdownOrdinanceComponents,
      SC4BuiltInOrdinanceBase.ShutdownOrdinanceComponents]

/-- An instance of the amended C11: after `Init` and `Shutdown` in the sample city no
service is bound. -/
theorem shutdown_effect_witness :
    sampleHost.app ≠ none ∧
    ((LegalizeGamblingOrdinanceUpgrade.ctor.Init sampleHost).2.1.Shutdown
        sampleHost).2.1.pResidentialSimulator = none ∧
    ((LegalizeGamblingOrdinanceUpgrade.ctor.Init sampleHost).2.1.Shutdown
        sampleHost).2.1.pSimulator = none ∧
    ((LegalizeGamblingOrdinanceUpgrade.ctor.Init sampleHost).2.1.Shutdown
        sampleHost).2.1.pDemandSimulator = none :=
  ⟨by decide,
    (shutdown_effect (LegalizeGamblingOrdinanceUpgrade.ctor.Init sampleHost).2.1
      sampleHost).2.2.2.1 (by decide)⟩

/-- C12 (`CheckConditions`).  The result is true exactly when `enabled` is true, a
simulator is bound, it yields a date, and the date's year is at least
`yearFirstAvailable`; it is false when `enabled` is false and when no simulator is
bound; the record is unchanged. -/
theorem checkConditions_iff (r : LegalizeGamblingOrdinanceUpgrade) :
    (r.CheckConditions.1 = true ↔
      (r.enabled = true ∧ ∃ sim date, r.pSimulator = some sim ∧ sim.simDate = some date ∧
        date.year ≥ r.yearFirstAvailable)) ∧
    (r.enabled = false → r.CheckConditions.1 = false) ∧
    (r.pSimulator = none → r.CheckConditions.1 = false) ∧
    r.CheckConditions.2.1 = r := by
  unfold LegalizeGamblingOrdinanceUpgrade.CheckConditions
    SC4BuiltInOrdinanceBase.CheckConditions
  cases he : r.enabled with
  | false => simp
  | true =>
    cases hs : r.pSimulator with
    | none => simp
    | some sim =>
      cases hd : sim.simDate with
      | none => simp [hd]
      | some date => simp [hd]

/-- An instance of C12: the ordinance initialised in the sample city (year 2020, first
available in year 0) meets its conditions. -/
theorem checkConditions_iff_witness :
    (LegalizeGamblingOrdinanceUpgrade.ctor.Init sampleHost).2.1.CheckConditions.1 = true :=
  (checkConditions_iff (LegalizeGamblingOrdinanceUpgrade.ctor.Init sampleHost).2.1).1.mpr
    ⟨by decide, { simDate := some { year := 2020 } }, { year := 2020 }, by decide, rfl,
      by decide⟩

/-- C13 (`SetAvailable`).  `SetAvailable(v)` returns true and the record is the old one
with `available = v` and `monthlyAdjustedIncome = 0` (so `on`, `enabled`, `initialized`
and the count are unchanged), whatever `Simulate` cached before; after
`SetAvailable(false)` and again after the following `SetAvailable(true)` the cached
income is 0. -/
theorem setAvailable_effect (r : LegalizeGamblingOrdinanceUpgrade) (v : Bool) :
    (r.SetAvailable v).1 = true ∧
    (r.SetAvailable v).2 = { r with available := v, monthlyAdjustedIncome := 0 } ∧
    (r.Simulate.2.1.SetAvailable v).2.monthlyAdjustedIncome = 0 ∧
    (r.SetAvailable false).2.monthlyAdjustedIncome = 0 ∧
    ((r.SetAvailable false).2.SetAvailable true).2.monthlyAdjustedIncome = 0 ∧
    ((r.SetAvailable false).2.SetAvailable true).2.available = true := by
  simp [LegalizeGamblingOrdinanceUpgrade.SetAvailable, SC4BuiltInOrdinanceBase.SetAvailable]

/-- C14 (`Simulate`).  `Simulate()` returns true and the record is the old one with
`monthlyAdjustedIncome` set to what the override `GetCurrentMonthlyIncome()` returns in
that state; its calls are those of `GetCurrentMonthlyIncome`. -/
theorem simulate_effect (r : LegalizeGamblingOrdinanceUpgrade) :
    r.Simulate.1 = true ∧
    r.Simulate.2.1 = { r with monthlyAdjustedIncome := r.GetCurrentMonthlyIncome.1 } ∧
    r.Simulate.2.2 = r.GetCurrentMonthlyIncome.2.2 := by
  simp [LegalizeGamblingOrdinanceUpgrade.Simulate,
    LegalizeGamblingOrdinanceUpgrade.GetCurrentMonthlyIncome]

/-! ## Override members and legacy members: the claims -/

theorem Read_miscProperties (r : SC4BuiltInOrdinanceBase) (s : IStream) :
    (r.Read s).2.1.miscProperties = r.miscProperties := by
  unfold SC4BuiltInOrdinanceBase.Read
  repeat' split
  all_goals rfl

/-- C19 (read frame).  On every stream, whether `Read` succeeds or fails, it leaves
`baseMonthlyIncome`, the three tier factors, `ignoreSetOnCallCount` and the effects
(`miscProperties`) as they were. -/
theorem read_keeps_override_members (r : LegalizeGamblingOrdinanceUpgrade) (s : IStream) :
    (r.Read s).2.1.baseMonthlyIncome = r.baseMonthlyIncome ∧
    (r.Read s).2.1.residentialLowWealthIncomeFactor = r.residentialLowWealthIncomeFactor ∧
    (r.Read s).2.1.residentialMedWealthIncomeFactor = r.residentialMedWealthIncomeFactor ∧
    (r.Read s).2.1.residentialHighWealthIncomeFactor = r.residentialHighWealthIncomeFactor ∧
    (r.Read s).2.1.ignoreSetOnCallCount = r.ignoreSetOnCallCount ∧
    (r.Read s).2.1.miscProperties = r.miscProperties :=
  ⟨rfl, rfl, rfl, rfl, rfl, Read_miscProperties r.toSC4BuiltInOrdinanceBase s⟩

/-- C20 (legacy members).  Two records that agree on `baseMonthlyIncome`, the three tier
factors and the demand simulator get the same income and make the same calls, whatever
their `monthlyConstantIncome` and `monthlyIncomeFactor`; and `GetCurrentMonthlyIncome`
leaves the record, these two members included, as it was. -/
theorem income_ignores_legacy_members (r1 r2 : LegalizeGamblingOrdinanceUpgrade)
    (hb : r1.baseMonthlyIncome = r2.baseMonthlyIncome)
    (hl : r1.residentialLowWealthIncomeFactor = r2.residentialLowWealthIncomeFactor)
    (hm : r1.residentialMedWealthIncomeFactor = r2.residentialMedWealthIncomeFactor)
    (hh : r1.residentialHighWealthIncomeFactor = r2.residentialHighWealthIncomeFactor)
    (hd : r1.pDemandSimulator = r2.pDemandSimulator) :
    r1.GetCurrentMonthlyIncome.1 = r2.GetCurrentMonthlyIncome.1 ∧
    r1.GetCurrentMonthlyIncome.2.2 = r2.GetCurrentMonthlyIncome.2.2 ∧
    r1.GetCurrentMonthlyIncome.2.1 = r1 ∧
    r1.GetCurrentMonthlyIncome.2.1.monthlyConstantIncome = r1.monthlyConstantIncome ∧
    r1.GetCurrentMonthlyIncome.2.1.monthlyIncomeFactor = r1.monthlyIncomeFactor := by
  have hsum : r1.monthlyIncome = r2.monthlyIncome := by
    simp only [LegalizeGamblingOrdinanceUpgrade.monthlyIncome,
      LegalizeGamblingOrdinanceUpgrade.GetCityPopulation, hb, hl, hm, hh, hd]
  simp only [LegalizeGamblingOrdinanceUpgrade.GetCurrentMonthlyIncome, hsum, and_self]

/-- Witness for C20: the constructed ordinance and a copy with other legacy income
members. -/
theorem income_ignores_legacy_members_witness :
    LegalizeGamblingOrdinanceUpgrade.ctor.GetCurrentMonthlyIncome.1
      = (LegalizeGamblingOrdinanceUpgrade.GetCurrentMonthlyIncome
          { LegalizeGamblingOrdinanceUpgrade.ctor with
            monthlyConstantIncome := 5, monthlyIncomeFactor := 0 }).1 :=
  (income_ignores_legacy_members LegalizeGamblingOrdinanceUpgrade.ctor
    { LegalizeGamblingOrdinanceUpgrade.ctor with
      monthlyConstantIncome := 5, monthlyIncomeFactor := 0 } rfl rfl rfl rfl rfl).1

/-! ## The income computation: the claims -/

set_option maxRecDepth 20000 in
/-- C17 (scenario).  With `baseMonthlyIncome = 100`, the tier factors `0.05f`, `0.03f`,
`0.01f` of the constructor and the tier populations 1000, 500 and 200, the override
`GetCurrentMonthlyIncome` returns 167. -/
theorem income_scenario_167 :
    LegalizeGamblingOrdinanceUpgrade.ctor.baseMonthlyIncome = 100 ∧
    LegalizeGamblingOrdinanceUpgrade.ctor.residentialLowWealthIncomeFactor = 0x3d4ccccd ∧
    LegalizeGamblingOrdinanceUpgrade.ctor.residentialMedWealthIncomeFactor = 0x3cf5c28f ∧
    LegalizeGamblingOrdinanceUpgrade.ctor.residentialHighWealthIncomeFactor = 0x3c23d70a ∧
    (LegalizeGamblingOrdinanceUpgrade.GetCurrentMonthlyIncome
      { LegalizeGamblingOrdinanceUpgrade.ctor with
        pDemandSimulator := some scenarioDemand }).1 = 167 := by
  decide

theorem ofInt_two_pow_63 : Dbl.ofInt (2 ^ 63) = Dbl.fin (2 ^ 52) 11 := by decide

theorem ofInt_neg_two_pow_63 : Dbl.ofInt (-(2 ^ 63)) = Dbl.fin (-(2 ^ 52)) 11 := by decide

theorem ofInt_int64Max : Dbl.ofInt int64Max = Dbl.fin (2 ^ 52) 11 := by decide

theorem ofInt_int64Min : Dbl.ofInt int64Min = Dbl.fin (-(2 ^ 52)) 11 := by decide

theorem trunc_in_range (m e : Int)
    (h1 : Dbl.lt (Dbl.fin m e) (Dbl.fin (-(2 ^ 52)) 11) = false)
    (h2 : Dbl.lt (Dbl.fin m e) (Dbl.fin (2 ^ 52) 11) = true) :
    -(2 ^ 63) ≤ (Dbl.fin m e).trunc ∧ (Dbl.fin m e).trunc < 2 ^ 63 := by
  simp only [Dbl.lt, decide_eq_true_eq, decide_eq_false_iff_not, not_lt] at h1 h2
  simp only [Dbl.trunc]
  rcases le_or_lt 11 e with he | he
  · -- the exponent is at least 11: the mantissa is below 2 ^ 52 in size
    obtain ⟨k, hk⟩ : ∃ k : Nat, e = (k : Int) + 11 := ⟨(e - 11).toNat, by omega⟩
    subst hk
    have hmin : min ((k : Int) + 11) 11 = 11 := by omega
    have e1 : ((k : Int) + 11 - 11).toNat = k := by omega
    have e2 : ((11 : Int) - 11).toNat = 0 := by omega
    have e3 : ((k : Int) + 11).toNat = k + 11 := by omega
    rw [hmin, e1, e2] at h1 h2
    have hpos : (0 : Int) ≤ (k : Int) + 11 := by omega
    rw [if_pos hpos, e3, pow_add, ← mul_assoc]
    norm_num at h1 h2 ⊢
    constructor <;> nlinarith
  · rcases le_or_lt 0 e with h0 | h0
    · -- the exponent is between 0 and 10
      obtain ⟨n, hn⟩ : ∃ n : Nat, e = (n : Int) := ⟨e.toNat, by omega⟩
      subst hn
      have hn10 : n ≤ 10 := by omega
      have hmin : min (n : Int) 11 = n := by omega
      have e1 : ((n : Int) - n).toNat = 0 := by omega
      have e2 : ((11 : Int) - n).toNat = 11 - n := by omega
      have e3 : ((n : Int)).toNat = n := by omega
      rw [hmin, e1, e2] at h1 h2
      rw [if_pos h0, e3]
      interval_cases n <;> norm_num at h1 h2 ⊢ <;> omega
    · -- a negative exponent: the integer part is a quotient
      obtain ⟨p, hp⟩ : ∃ p : Nat, e = -(p : Int) := ⟨(-e).toNat, by omega⟩
      subst hp
      have hmin : min (-(p : Int)) 11 = -(p : Int) := by omega
      have e1 : (-(p : Int) - -(p : Int)).toNat = 0 := by omega
      have e2 : ((11 : Int) - -(p : Int)).toNat = p + 11 := by omega
      have e3 : (- -(p : Int)).toNat = p := by omega
      rw [hmin, e1, e2] at h1 h2
      have hneg : ¬ (0 : Int) ≤ -(p : Int) := by omega
      rw [if_neg hneg, e3]
      rw [pow_add] at h1 h2
      norm_num at h1 h2
      have hpp : (0 : Int) < 2 ^ p := by positivity
      by_cases hm : 0 ≤ m
      · rw [if_pos hm]
        obtain ⟨a, ha⟩ : ∃ a : Nat, m = (a : Int) := ⟨m.toNat, by omega⟩
        subst ha
        have hlt : a < 2 ^ 63 * 2 ^ p := by
          have : (a : Int) < 2 ^ 63 * 2 ^ p := by nlinarith
          exact_mod_cast this
        have hq : a / 2 ^ p < 2 ^ 63 := by
          rw [Nat.div_lt_iff_lt_mul (by positivity)]
          exact hlt
        simp only [Int.natAbs_ofNat]
        constructor
        · have : (0 : Int) ≤ ((a / 2 ^ p : Nat) : Int) := Int.ofNat_nonneg _
          omega
        · exact_mod_cast hq
      · rw [if_neg hm]
        obtain ⟨a, ha⟩ : ∃ a : Nat, m = -(a : Int) := ⟨(-m).toNat, by omega⟩
        subst ha
        have hle : a ≤ 2 ^ 63 * 2 ^ p := by
          have : (a : Int) ≤ 2 ^ 63 * 2 ^ p := by nlinarith
          exact_mod_cast this
        have hq : a / 2 ^ p ≤ 2 ^ 63 := by
          apply Nat.div_le_of_le_mul
          rw [Nat.mul_comm]
          exact hle
        simp only [Int.natAbs_neg, Int.natAbs_ofNat]
        constructor
        · have : ((a / 2 ^ p : Nat) : Int) ≤ 2 ^ 63 := by exact_mod_cast hq
          omega
        · have : (0 : Int) ≤ ((a / 2 ^ p : Nat) : Int) := Int.ofNat_nonneg _
          omega

theorem monthlyIncomeInteger_cases (d : Dbl) :
    (Dbl.lt d (Dbl.ofInt (-(2 ^ 63))) = true → monthlyIncomeInteger d = -(2 ^ 63)) ∧
    (Dbl.lt (Dbl.ofInt (2 ^ 63)) d = true → monthlyIncomeInteger d = 2 ^ 63 - 1) ∧
    (Dbl.lt d (Dbl.ofInt (-(2 ^ 63))) = false → Dbl.lt d (Dbl.ofInt (2 ^ 63)) = true →
      monthlyIncomeInteger d = d.trunc ∧ -(2 ^ 63) ≤ d.trunc ∧ d.trunc < 2 ^ 63) := by
  rw [ofInt_two_pow_63, ofInt_neg_two_pow_63]
  unfold monthlyIncomeInteger
  rw [ofInt_int64Max, ofInt_int64Min]
  refine ⟨?_, ?_, ?_⟩
  · intro h
    rw [if_pos h]
    rfl
  · intro h
    have hnot : Dbl.lt d (Dbl.fin (-(2 ^ 52)) 11) = false := by
      cases d with
      | fin m e =>
        simp only [Dbl.lt, decide_eq_true_eq, decide_eq_false_iff_not, not_lt] at h ⊢
        have hmin : min 11 e = min e 11 := min_comm _ _
        rw [hmin] at h
        have hp : (0 : Int) < 2 ^ (11 - min e 11).toNat := by positivity
        nlinarith
      | pinf => rfl
      | ninf => simp [Dbl.lt] at h
      | nan => rfl
    rw [hnot, if_pos h]
    simp [int64Max]
  · intro h1 h2
    have hnot : Dbl.lt (Dbl.fin (2 ^ 52) 11) d = false := by
      cases d with
      | fin m e =>
        simp only [Dbl.lt, decide_eq_true_eq, decide_eq_false_iff_not, not_lt] at h2 ⊢
        have hmin : min 11 e = min e 11 := min_comm _ _
        rw [hmin]
        exact le_of_lt h2
      | pinf => simp [Dbl.lt] at h2
      | ninf => rfl
      | nan => rfl
    cases d with
    | fin m e =>
      have hr := trunc_in_range m e h1 h2
      have hin : (Dbl.fin m e).inInt64Range = true := by
        simp only [Dbl.inInt64Range, decide_eq_true_eq]
        exact hr
      simp only [h1, hnot, Dbl.toInt64, hin, if_true]
      exact ⟨by simp, hr⟩
    | pinf => simp [Dbl.lt] at h2
    | ninf => simp [Dbl.lt] at h1
    | nan => simp [Dbl.lt] at h2

theorem monthlyIncome_eq_tierSum (r : LegalizeGamblingOrdinanceUpgrade) :
    r.monthlyIncome.1 =
      tierSum r.baseMonthlyIncome r.residentialLowWealthIncomeFactor
        r.residentialMedWealthIncomeFactor r.residentialHighWealthIncomeFactor
        (r.GetCityPopulation 0x1011).1 (r.GetCityPopulation 0x1021).1
        (r.GetCityPopulation 0x1031).1 := by
  simp only [LegalizeGamblingOrdinanceUpgrade.monthlyIncome, tierSum, addTier]
  cases Dbl.lt Dbl.zero (Dbl.ofFloat32 r.residentialLowWealthIncomeFactor) <;>
  cases Dbl.lt Dbl.zero (Dbl.ofFloat32 r.residentialMedWealthIncomeFactor) <;>
  cases Dbl.lt Dbl.zero (Dbl.ofFloat32 r.residentialHighWealthIncomeFactor) <;>
  cases Dbl.lt Dbl.zero (Dbl.ofFloat32 (r.GetCityPopulation 0x1011).1) <;>
  cases Dbl.lt Dbl.zero (Dbl.ofFloat32 (r.GetCityPopulation 0x1021).1) <;>
  cases Dbl.lt Dbl.zero (Dbl.ofFloat32 (r.GetCityPopulation 0x1031).1) <;>
  simp

set_option maxRecDepth 20000 in
/-- Counterexample to C15 as stated: the low wealth factor is `0.05f` (above zero) and
the population query returns `-1000.0f` for that tier.  The claim's formula gives
100 - 50.0000007..., converted to 49; the code skips a tier whose population is not above
zero and returns 100. -/
theorem income_skips_negative_population :
    (ordinanceWithDemand negativeDemand).residentialLowWealthIncomeFactor = 0x3d4ccccd ∧
    ((ordinanceWithDemand negativeDemand).GetCityPopulation 0x1011).1 = 0xc47a0000 ∧
    (ordinanceWithDemand negativeDemand).claimedIncome = 49 ∧
    (ordinanceWithDemand negativeDemand).GetCurrentMonthlyIncome.1 = 100 := by
  decide

/-- C15, amended.  The override `GetCurrentMonthlyIncome` converts the `double` sum that
starts from `baseMonthlyIncome` and receives, for the low, medium and high tier in turn,
the product population times factor when the factor and the population are both above
zero, and nothing otherwise.  The value returned is `-2 ^ 63` when the sum is below
`-2 ^ 63`, `2 ^ 63 - 1` when the sum is above `2 ^ 63`, and the sum rounded toward zero,
an `int64_t`, when the sum is at least `-2 ^ 63` and below `2 ^ 63`. -/
theorem income_formula (r : LegalizeGamblingOrdinanceUpgrade) :
    r.monthlyIncome.1 = r.formulaSum ∧
    (Dbl.lt r.formulaSum (Dbl.ofInt (-(2 ^ 63))) = true →
      r.GetCurrentMonthlyIncome.1 = -(2 ^ 63)) ∧
    (Dbl.lt (Dbl.ofInt (2 ^ 63)) r.formulaSum = true →
      r.GetCurrentMonthlyIncome.1 = 2 ^ 63 - 1) ∧
    (Dbl.lt r.formulaSum (Dbl.ofInt (-(2 ^ 63))) = false →
      Dbl.lt r.formulaSum (Dbl.ofInt (2 ^ 63)) = true →
      r.GetCurrentMonthlyIncome.1 = r.formulaSum.trunc ∧
      -(2 ^ 63) ≤ r.formulaSum.trunc ∧ r.formulaSum.trunc < 2 ^ 63) := by
  have hs : r.monthlyIncome.1 = r.formulaSum := monthlyIncome_eq_tierSum r
  have hv : r.GetCurrentMonthlyIncome.1 = monthlyIncomeInteger r.formulaSum := by
    simp only [LegalizeGamblingOrdinanceUpgrade.GetCurrentMonthlyIncome, hs]
  rw [hv]
  exact ⟨hs, monthlyIncomeInteger_cases r.formulaSum⟩

set_option maxRecDepth 20000 in
/-- Witness for the amended C15: with the populations 1000, 500 and 200 the sum lies
between the limits and the income is its integer part, 167. -/
theorem income_formula_witness :
    Dbl.lt (ordinanceWithDemand scenarioDemand).formulaSum (Dbl.ofInt (-(2 ^ 63))) = false ∧
    Dbl.lt (ordinanceWithDemand scenarioDemand).formulaSum (Dbl.ofInt (2 ^ 63)) = true ∧
    (ordinanceWithDemand scenarioDemand).formulaSum.trunc = 167 ∧
    (ordinanceWithDemand scenarioDemand).GetCurrentMonthlyIncome.1
      = (ordinanceWithDemand scenarioDemand).formulaSum.trunc :=
  ⟨by decide, by decide, by decide,
    ((income_formula (ordinanceWithDemand scenarioDemand)).2.2.2 (by decide) (by decide)).1⟩

set_option maxRecDepth 20000 in
/-- C18, evaluated at the failing input: `baseMonthlyIncome` is the largest `int64_t` and
no tier contributes.  The `double` sum is `2 ^ 63`, which exceeds `2 ^ 63 - 1`; the test
against the maximum, itself converted to the `double` `2 ^ 63`, does not fire; the
conversion is applied to a value outside the `int64_t` range, and the income delivered
is `-2 ^ 63`, not the maximum. -/
theorem income_at_int64_max :
    (ordinanceWithBase int64Max).monthlyIncome.1 = Dbl.fin (2 ^ 52) 11 ∧
    Dbl.lt (Dbl.fin int64Max 0) (ordinanceWithBase int64Max).monthlyIncome.1 = true ∧
    Dbl.lt (Dbl.ofInt int64Max) (ordinanceWithBase int64Max).monthlyIncome.1 = false ∧
    (ordinanceWithBase int64Max).monthlyIncome.1.inInt64Range = false ∧
    (ordinanceWithBase int64Max).GetCurrentMonthlyIncome.1 = -(2 ^ 63) ∧
    (ordinanceWithBase int64Max).GetCurrentMonthlyIncome.1 ≠ 2 ^ 63 - 1 := by
  decide

theorem GetCityPopulation_calls (r : LegalizeGamblingOrdinanceUpgrade) (g : Nat) :
    (r.GetCityPopulation g).2 =
      Call.GetCityPopulation g ::
        (if r.pDemandSimulator.isSome then [Call.GetDemand g 0] else []) := by
  unfold LegalizeGamblingOrdinanceUpgrade.GetCityPopulation
  cases r.pDemandSimulator with
  | none => rfl
  | some d =>
    simp only
    cases d.GetDemand g 0 <;> rfl

theorem monthlyIncome_calls (r : LegalizeGamblingOrdinanceUpgrade) :
    r.monthlyIncome.2 =
      (if Dbl.lt Dbl.zero (Dbl.ofFloat32 r.residentialLowWealthIncomeFactor) = true then
        (r.GetCityPopulation 0x1011).2 else []) ++
      ((if Dbl.lt Dbl.zero (Dbl.ofFloat32 r.residentialMedWealthIncomeFactor) = true then
        (r.GetCityPopulation 0x1021).2 else []) ++
      (if Dbl.lt Dbl.zero (Dbl.ofFloat32 r.residentialHighWealthIncomeFactor) = true then
        (r.GetCityPopulation 0x1031).2 else [])) := by
  simp only [LegalizeGamblingOrdinanceUpgrade.monthlyIncome]
  cases Dbl.lt Dbl.zero (Dbl.ofFloat32 r.residentialLowWealthIncomeFactor) <;>
  cases Dbl.lt Dbl.zero (Dbl.ofFloat32 r.residentialMedWealthIncomeFactor) <;>
  cases Dbl.lt Dbl.zero (Dbl.ofFloat32 r.residentialHighWealthIncomeFactor) <;>
  cases Dbl.lt Dbl.zero (Dbl.ofFloat32 (r.GetCityPopulation 0x1011).1) <;>
  cases Dbl.lt Dbl.zero (Dbl.ofFloat32 (r.GetCityPopulation 0x1021).1) <;>
  cases Dbl.lt Dbl.zero (Dbl.ofFloat32 (r.GetCityPopulation 0x1031).1) <;>
  simp

/-- C16 (population queries).  In one call of the override `GetCurrentMonthlyIncome` the
population query `GetCityPopulation` is issued for the low (0x1011), medium (0x1021) and
high (0x1031) wealth group exactly when that group's factor is above zero, and at most
once; with a demand simulator bound the same holds of the `GetDemand` call behind it.
With the high wealth factor equal to 0 the high wealth query is not issued and the
income is the converted sum of the base and the low and medium tiers. -/
theorem income_queries (r : LegalizeGamblingOrdinanceUpgrade) :
    ((Call.GetCityPopulation 0x1011 ∈ r.GetCurrentMonthlyIncome.2.2 ↔
        Dbl.lt Dbl.zero (Dbl.ofFloat32 r.residentialLowWealthIncomeFactor) = true) ∧
     (Call.GetCityPopulation 0x1021 ∈ r.GetCurrentMonthlyIncome.2.2 ↔
        Dbl.lt Dbl.zero (Dbl.ofFloat32 r.residentialMedWealthIncomeFactor) = true) ∧
     (Call.GetCityPopulation 0x1031 ∈ r.GetCurrentMonthlyIncome.2.2 ↔
        Dbl.lt Dbl.zero (Dbl.ofFloat32 r.residentialHighWealthIncomeFactor) = true)) ∧
    (r.GetCurrentMonthlyIncome.2.2.count (Call.GetCityPopulation 0x1011) ≤ 1 ∧
     r.GetCurrentMonthlyIncome.2.2.count (Call.GetCityPopulation 0x1021) ≤ 1 ∧
     r.GetCurrentMonthlyIncome.2.2.count (Call.GetCityPopulation 0x1031) ≤ 1) ∧
    (r.pDemandSimulator.isSome = true →
      (Call.GetDemand 0x1011 0 ∈ r.GetCurrentMonthlyIncome.2.2 ↔
        Dbl.lt Dbl.zero (Dbl.ofFloat32 r.residentialLowWealthIncomeFactor) = true) ∧
      (Call.GetDemand 0x1021 0 ∈ r.GetCurrentMonthlyIncome.2.2 ↔
        Dbl.lt Dbl.zero (Dbl.ofFloat32 r.residentialMedWealthIncomeFactor) = true) ∧
      (Call.GetDemand 0x1031 0 ∈ r.GetCurrentMonthlyIncome.2.2 ↔
        Dbl.lt Dbl.zero (Dbl.ofFloat32 r.residentialHighWealthIncomeFactor) = true)) ∧
    (r.GetCurrentMonthlyIncome.2.2.count (Call.GetDemand 0x1011 0) ≤ 1 ∧
     r.GetCurrentMonthlyIncome.2.2.count (Call.GetDemand 0x1021 0) ≤ 1 ∧
     r.GetCurrentMonthlyIncome.2.2.count (Call.GetDemand 0x1031 0) ≤ 1) ∧
    (r.residentialHighWealthIncomeFactor = 0 →
      Call.GetCityPopulation 0x1031 ∉ r.GetCurrentMonthlyIncome.2.2 ∧
      Call.GetDemand 0x1031 0 ∉ r.GetCurrentMonthlyIncome.2.2 ∧
      r.GetCurrentMonthlyIncome.1 =
        monthlyIncomeInteger
          (addTier
            (addTier (Dbl.ofInt r.baseMonthlyIncome) r.residentialLowWealthIncomeFactor
              (r.GetCityPopulation 0x1011).1)
            r.residentialMedWealthIncomeFactor (r.GetCityPopulation 0x1021).1)) := by
  have hcalls : r.GetCurrentMonthlyIncome.2.2 = r.monthlyIncome.2 := rfl
  have hvalue : r.GetCurrentMonthlyIncome.1 = monthlyIncomeInteger r.monthlyIncome.1 := rfl
  have hzero : Dbl.lt Dbl.zero (Dbl.ofFloat32 0) = false := by decide
  rw [hcalls, hvalue, monthlyIncome_calls, monthlyIncome_eq_tierSum]
  simp only [GetCityPopulation_calls]
  refine ⟨?_, ?_, ?_, ?_, ?_⟩
  · cases Dbl.lt Dbl.zero (Dbl.ofFloat32 r.residentialLowWealthIncomeFactor) <;>
    cases Dbl.lt Dbl.zero (Dbl.ofFloat32 r.residentialMedWealthIncomeFactor) <;>
    cases Dbl.lt Dbl.zero (Dbl.ofFloat32 r.residentialHighWealthIncomeFactor) <;>
    cases r.pDemandSimulator.isSome <;> simp
  · cases Dbl.lt Dbl.zero (Dbl.ofFloat32 r.residentialLowWealthIncomeFactor) <;>
    cases Dbl.lt Dbl.zero (Dbl.ofFloat32 r.residentialMedWealthIncomeFactor) <;>
    cases Dbl.lt Dbl.zero (Dbl.ofFloat32 r.residentialHighWealthIncomeFactor) <;>
    cases r.pDemandSimulator.isSome <;> decide
  · intro hd
    rw [hd]
    cases Dbl.lt Dbl.zero (Dbl.ofFloat32 r.residentialLowWealthIncomeFactor) <;>
    cases Dbl.lt Dbl.zero (Dbl.ofFloat32 r.residentialMedWealthIncomeFactor) <;>
    cases Dbl.lt Dbl.zero (Dbl.ofFloat32 r.residentialHighWealthIncomeFactor) <;> simp
  · cases Dbl.lt Dbl.zero (Dbl.ofFloat32 r.residentialLowWealthIncomeFactor) <;>
    cases Dbl.lt Dbl.zero (Dbl.ofFloat32 r.residentialMedWealthIncomeFactor) <;>
    cases Dbl.lt Dbl.zero (Dbl.ofFloat32 r.residentialHighWealthIncomeFactor) <;>
    cases r.pDemandSimulator.isSome <;> decide
  · intro hh
    rw [hh, hzero]
    refine ⟨?_, ?_, ?_⟩
    · cases Dbl.lt Dbl.zero (Dbl.ofFloat32 r.residentialLowWealthIncomeFactor) <;>
      cases Dbl.lt Dbl.zero (Dbl.ofFloat32 r.residentialMedWealthIncomeFactor) <;>
      cases r.pDemandSimulator.isSome <;> simp
    · cases Dbl.lt Dbl.zero (Dbl.ofFloat32 r.residentialLowWealthIncomeFactor) <;>
      cases Dbl.lt Dbl.zero (Dbl.ofFloat32 r.residentialMedWealthIncomeFactor) <;>
      cases r.pDemandSimulator.isSome <;> simp
    · simp [tierSum, addTier, hzero]

set_option maxRecDepth 20000 in
/-- An instance of C16: with the high wealth factor set to 0 in the scenario of
populations 1000, 500 and 200, only the low and medium groups are queried and the income
is 100 + 50 + 15 = 165. -/
theorem income_queries_witness :
    (LegalizeGamblingOrdinanceUpgrade.GetCurrentMonthlyIncome
      { ordinanceWithDemand scenarioDemand with residentialHighWealthIncomeFactor := 0 }).2.2
      = [Call.GetCityPopulation 0x1011, Call.GetDemand 0x1011 0,
         Call.GetCityPopulation 0x1021, Call.GetDemand 0x1021 0] ∧
    (LegalizeGamblingOrdinanceUpgrade.GetCurrentMonthlyIncome
      { ordinanceWithDemand scenarioDemand with residentialHighWealthIncomeFactor := 0 }).1
      = 165 ∧
    Call.GetCityPopulation 0x1031 ∉
      (LegalizeGamblingOrdinanceUpgrade.GetCurrentMonthlyIncome
        { ordinanceWithDemand scenarioDemand with
          residentialHighWealthIncomeFactor := 0 }).2.2 :=
  ⟨by decide, by decide,
    ((income_queries
      { ordinanceWithDemand scenarioDemand with
        residentialHighWealthIncomeFactor := 0 }).2.2.2.2 rfl).1⟩

/-! ## Identity: the claims -/

theorem LoadLocalizedStringResources_identity (r : SC4BuiltInOrdinanceBase) (h : Host) :
    (r.LoadLocalizedStringResources h).1.clsid = r.clsid ∧
    (r.LoadLocalizedStringResources h).1.exemplarInfo = r.exemplarInfo := by
  unfold SC4BuiltInOrdinanceBase.LoadLocalizedStringResources
  split
  · simp
  · split
    · simp
    · simp only
      split_ifs <;> simp

theorem InitializeOrdinanceComponents_identity (r : LegalizeGamblingOrdinanceUpgrade)
    (h : Host) (pCity : Option City) :
    (r.InitializeOrdinanceComponents h pCity).1.clsid = r.clsid ∧
    (r.InitializeOrdinanceComponents h pCity).1.exemplarInfo = r.exemplarInfo := by
  have k1 := fun x => (LoadLocalizedStringResources_identity x h).1
  have k2 := fun x => (LoadLocalizedStringResources_identity x h).2
  unfold LegalizeGamblingOrdinanceUpgrade.InitializeOrdinanceComponents
    SC4BuiltInOrdinanceBase.InitializeOrdinanceComponents
  cases pCity with
  | none => simp only [k1, k2, and_self]
  | some city =>
    simp only [k1, k2]
    split_ifs <;> simp

theorem foreignRecord_InRange : foreignRecord.InRange := by
  have h := ctor_InRange
  unfold SC4BuiltInOrdinanceBase.InRange at h ⊢
  obtain ⟨_, h2, h3, h4, h5, h6, h7, h8, h9, h10, h11, _, _⟩ := h
  exact ⟨by decide, h2, h3, h4, h5, h6, h7, h8, h9, h10, h11, by decide, by decide⟩

/-- Counterexample to C21 as stated: `Read` of the constructed ordinance over the bytes
of a record saved with class id 5 and exemplar (6, 7) succeeds and leaves the ordinance
with that class id and exemplar pair instead of its own. -/
theorem read_replaces_identity :
    identity LegalizeGamblingOrdinanceUpgrade.ctor = (0xA0D07129, 0xA9C2C209, 0xA0D07129) ∧
    (LegalizeGamblingOrdinanceUpgrade.ctor.Read
      { bytes := wireBytes (wireForm foreignRecord), error := 0 }).1 = true ∧
    identity (LegalizeGamblingOrdinanceUpgrade.ctor.Read
      { bytes := wireBytes (wireForm foreignRecord), error := 0 }).2.1 = (5, 6, 7) := by
  have h := Read_wireForm LegalizeGamblingOrdinanceUpgrade.ctor.toSC4BuiltInOrdinanceBase
    foreignRecord [] foreignRecord_InRange
  rw [List.append_nil] at h
  refine ⟨by decide, ?_, ?_⟩
  · simp only [LegalizeGamblingOrdinanceUpgrade.Read, h]
  · simp only [LegalizeGamblingOrdinanceUpgrade.Read, h, identity,
      SC4BuiltInOrdinanceBase.GetID]
    rfl

/-- C21, amended.  Every operation other than `Read` (`Init`, `Shutdown`, `Write`,
`SetAvailable`, `SetOn`, `SetEnabled`, `Simulate`, `PushIgnoreSetOnCalls`,
`PopIgnoreSetOnCalls`, `UpdateOrdinanceData`) leaves the class id, as `GetID` returns it,
and the exemplar group and instance as they were; a successful `Read` over the saved form
of a record `q` gives the record the class id and the exemplar pair of `q`. -/
theorem identity_preserved (r : LegalizeGamblingOrdinanceUpgrade) (h : Host) (v : Bool)
    (s : OStream) (settings : Settings) (q : SC4BuiltInOrdinanceBase) (rest : List Byte) :
    identity (r.Init h).2.1 = identity r ∧
    identity (r.Shutdown h).2.1 = identity r ∧
    identity (r.Write s).2.1 = identity r ∧
    identity (r.SetAvailable v).2 = identity r ∧
    identity (r.SetOn h v).2.1 = identity r ∧
    identity (r.SetEnabled v).2 = identity r ∧
    identity r.Simulate.2.1 = identity r ∧
    identity r.PushIgnoreSetOnCalls = identity r ∧
    identity r.PopIgnoreSetOnCalls = identity r ∧
    identity (r.UpdateOrdinanceData settings) = identity r ∧
    (q.InRange →
      identity (r.Read { bytes := wireBytes (wireForm q) ++ rest, error := 0 }).2.1
        = (q.clsid, q.exemplarInfo.group, q.exemplarInfo.instanceID)) := by
  refine ⟨?_, ?_, ?_, ?_, ?_, ?_, ?_, ?_, ?_, ?_, ?_⟩
  · unfold LegalizeGamblingOrdinanceUpgrade.Init identity SC4BuiltInOrdinanceBase.GetID
    have k := fun x => InitializeOrdinanceComponents_identity x h
    cases h.app with
    | none => cases r.initialized <;> simp
    | some app =>
      simp only [(k _ _).1, (k _ _).2]
      cases r.initialized <;> simp
  · unfold LegalizeGamblingOrdinanceUpgrade.Shutdown identity SC4BuiltInOrdinanceBase.GetID
    cases h.app <;>
      simp [LegalizeGamblingOrdinanceUpgrade.ShutdownOrdinanceComponents,
        SC4BuiltInOrdinanceBase.ShutdownOrdinanceComponents]
  · unfold LegalizeGamblingOrdinanceUpgrade.Write
    rw [Write_eq_putAll]
    split <;> rfl
  · rfl
  · unfold LegalizeGamblingOrdinanceUpgrade.SetOn identity SC4BuiltInOrdinanceBase.GetID
    split
    · split
      · split
        · split <;> rfl
        · rfl
      · rfl
    · rfl
  · rfl
  · rfl
  · rfl
  · unfold LegalizeGamblingOrdinanceUpgrade.PopIgnoreSetOnCalls
    split <;> rfl
  · rfl
  · intro hq
    simp only [LegalizeGamblingOrdinanceUpgrade.Read, Read_wireForm _ _ _ hq, identity,
      SC4BuiltInOrdinanceBase.GetID]

/-- An instance of the amended C21: after `Init` in the sample city the constructed
ordinance still has its class id and exemplar pair. -/
theorem identity_preserved_witness :
    identity (LegalizeGamblingOrdinanceUpgrade.ctor.Init sampleHost).2.1
      = identity LegalizeGamblingOrdinanceUpgrade.ctor :=
  (identity_preserved LegalizeGamblingOrdinanceUpgrade.ctor sampleHost true openSink
    Settings.ctor foreignRecord []).1

/-! ## The deactivation sequence: the claims -/

theorem CasinoIterator_eq (o : Occupant) (data : CasinoIteratorData) :
    CasinoIterator o data
      = (!isCasino o, if isCasino o then { casinoOccupant := some o } else data) := by
  unfold CasinoIterator isCasino Occupant.GetType Occupant.IsOccupantGroup
    kOccupantType_Building kOccupantGroup_Reward kSCPROP_CityExclusionGroup
    kCasinoCityExclusionGroup
  by_cases ht : o.type = 0x278128A0
  · cases hg : o.groups.contains 0x150B
    · simp [ht, hg]
    · cases hp : o.propertyHolder with
      | none => simp [ht, hg]
      | some properties =>
        cases hl : List.lookup 0xEA2E078B properties with
        | none => simp [ht, hg, hl]
        | some value =>
          by_cases hv : value = 0xCA78B74B
          · simp [ht, hg, hl, hv]
          · simp [ht, hg, hl, hv]
  · simp [ht]

theorem enumerate_CasinoIterator (l : List Occupant) (data : CasinoIteratorData) :
    enumerate CasinoIterator (l.filter fun o => o.type = kOccupantType_Building) data
      = match l.find? isCasino with
        | some o => { casinoOccupant := some o }
        | none => data := by
  induction l generalizing data with
  | nil => rfl
  | cons o l ih =>
    by_cases ht : o.type = kOccupantType_Building
    · simp only [List.filter_cons, ht, decide_True, if_true, enumerate, CasinoIterator_eq]
      cases hc : isCasino o
      · simp [List.find?_cons, hc, ih]
      · simp [List.find?_cons, hc]
    · have hc : isCasino o = false := by
        have ht2 : ¬ o.type = 0x278128A0 := ht
        simp [isCasino, ht2]
      simp only [List.filter_cons, ht, decide_False, List.find?_cons, hc]
      exact ih data

/-- C23 (casino search).  The callback `CasinoIterator` answers false (stop), recording
the occupant, exactly when the occupant is a building (0x278128A0) in the reward group
(0x150B) with a property holder whose city exclusion group property (0xEA2E078B) is
present and equals 0xCA78B74B, and answers true (continue), leaving the data alone,
otherwise.  `GetCasinoOccupant` returns the first such occupant in the manager's order,
null when there is none, and null when the city has no occupant manager. -/
theorem getCasinoOccupant_first (pCity : City) (o : Occupant) (data : CasinoIteratorData) :
    ((CasinoIterator o data).1 = false ↔ isCasino o = true) ∧
    (isCasino o = true → (CasinoIterator o data).2 = { casinoOccupant := some o }) ∧
    (isCasino o = false → (CasinoIterator o data).2 = data) ∧
    (∀ m, pCity.occupantManager = some m →
      (GetCasinoOccupant pCity).1 = m.occupants.find? isCasino) ∧
    (pCity.occupantManager = none → (GetCasinoOccupant pCity).1 = none) := by
  rw [CasinoIterator_eq]
  refine ⟨by simp, ?_, ?_, ?_, ?_⟩
  · intro h; simp [h]
  · intro h; simp [h]
  · intro m hm
    simp only [GetCasinoOccupant, hm, OccupantManager.IterateOccupants,
      enumerate_CasinoIterator]
    cases m.occupants.find? isCasino <;> rfl
  · intro hm
    simp only [GetCasinoOccupant, hm]

/-- An instance of C23: in the sample city the house is passed over and the casino is
found. -/
theorem getCasinoOccupant_first_witness :
    (GetCasinoOccupant sampleCity).1 = some sampleCasino :=
  ((getCasinoOccupant_first sampleCity sampleCasino { casinoOccupant := none }).2.2.2.1
    { occupants :=
      [{ id := 1, type := kOccupantType_Building, groups := [], propertyHolder := none },
       sampleCasino] } rfl).trans (by decide)

theorem GetCasinoOccupant_calls (pCity : City) :
    ∀ c ∈ (GetCasinoOccupant pCity).2, isDemolition c = false := by
  unfold GetCasinoOccupant
  cases pCity.occupantManager <;> simp [isDemolition]

theorem DisableCasinoMenuItem_calls (pSC4App : App) (pCity : City) :
    (∃ t, DisableCasinoMenuItem pSC4App pCity = Call.GetCivicBuildingSimulator :: t) ∧
    ∀ c ∈ DisableCasinoMenuItem pSC4App pCity, isDemolition c = false := by
  unfold DisableCasinoMenuItem
  cases pCity.civicBuildingSimulator with
  | none =>
    simp only
    refine ⟨⟨_, rfl⟩, ?_⟩
    split
    · split
      · split
        · split
          · split <;> simp [isDemolition]
          · simp [isDemolition]
        · simp [isDemolition]
      · simp [isDemolition]
    · simp [isDemolition]
  | some sim =>
    simp only
    cases sim.GetConditionalBuildingStatus casinoBuildingID with
    | none =>
      simp only
      refine ⟨⟨_, rfl⟩, ?_⟩
      split
      · split
        · split
          · split
            · split <;> simp [isDemolition]
            · simp [isDemolition]
          · simp [isDemolition]
        · simp [isDemolition]
      · simp [isDemolition]
    | some st =>
      simp only
      refine ⟨⟨_, rfl⟩, ?_⟩
      split
      · split
        · split
          · split
            · split <;> simp [isDemolition]
            · simp [isDemolition]
          · simp [isDemolition]
        · simp [isDemolition]
      · simp [isDemolition]

/-- C24 (demolition).  When the casino occupant, the lot manager, the occupant's lot and
the lot developer are all present, `DemolishCasino` ends with `StartDemolishLot` and then
`EndDemolishLot` on that lot, and issues no other demolition call; when one of them is
absent it issues no demolition call at all.  In `SetOn(false)` with application and city
present, the calls of `DisableCasinoMenuItem`, which always begin with the request for
the civic building simulator and contain no demolition call, follow those of
`DemolishCasino`, whether or not a casino was found. -/
theorem demolition_sequence (pCity : City) (pSC4App : App)
    (r : LegalizeGamblingOrdinanceUpgrade) (h : Host) :
    (∀ occ lm lot u, (GetCasinoOccupant pCity).1 = some occ → pCity.lotManager = some lm →
      lm.GetOccupantLot occ = some lot → pCity.lotDeveloper = some u →
      ∃ before, DemolishCasino pCity
          = before ++ [Call.StartDemolishLot lot, Call.EndDemolishLot lot] ∧
        ∀ c ∈ before, isDemolition c = false) ∧
    ((¬ ∃ occ lm lot u, (GetCasinoOccupant pCity).1 = some occ ∧ pCity.lotManager = some lm ∧
        lm.GetOccupantLot occ = some lot ∧ pCity.lotDeveloper = some u) →
      ∀ c ∈ DemolishCasino pCity, isDemolition c = false) ∧
    (r.ignoreSetOnCallCount = 0 → h.app = some pSC4App → pSC4App.city = some pCity →
      (r.SetOn h false).2.2
        = [Call.GetApp, Call.GetCity] ++ DemolishCasino pCity
            ++ DisableCasinoMenuItem pSC4App pCity) ∧
    (∃ t, DisableCasinoMenuItem pSC4App pCity = Call.GetCivicBuildingSimulator :: t) ∧
    (∀ c ∈ DisableCasinoMenuItem pSC4App pCity, isDemolition c = false) := by
  have hfound := GetCasinoOccupant_calls pCity
  refine ⟨?_, ?_, ?_, (DisableCasinoMenuItem_calls pSC4App pCity).1,
    (DisableCasinoMenuItem_calls pSC4App pCity).2⟩
  · intro occ lm lot u ho hl hlot hd
    refine ⟨(GetCasinoOccupant pCity).2
      ++ [Call.GetLotManager, Call.GetOccupantLot occ, Call.GetLotDeveloper], ?_, ?_⟩
    · simp [DemolishCasino, ho, hl, hlot, hd]
    · intro c hc
      rcases List.mem_append.mp hc with hc | hc
      · exact hfound c hc
      · simp only [List.mem_cons, List.mem_singleton, List.mem_nil_iff, or_false] at hc
        rcases hc with hc | hc | hc <;> (subst hc; rfl)
  · intro hnone c hc
    unfold DemolishCasino at hc
    cases ho : (GetCasinoOccupant pCity).1 with
    | none =>
      simp only [ho] at hc
      exact hfound c hc
    | some occ =>
      cases hl : pCity.lotManager with
      | none =>
        simp only [ho, hl] at hc
        rcases List.mem_append.mp hc with hc | hc
        · exact hfound c hc
        · simp only [List.mem_singleton] at hc
          subst hc; rfl
      | some lm =>
        cases hlot : lm.GetOccupantLot occ with
        | none =>
          simp only [ho, hl, hlot] at hc
          rcases List.mem_append.mp hc with hc | hc
          · exact hfound c hc
          · simp only [List.mem_cons, List.mem_singleton, List.mem_nil_iff, or_false] at hc
            rcases hc with hc | hc <;> (subst hc; rfl)
        | some lot =>
          cases hd : pCity.lotDeveloper with
          | none =>
            simp only [ho, hl, hlot, hd] at hc
            rcases List.mem_append.mp hc with hc | hc
            · exact hfound c hc
            · simp only [List.mem_cons, List.mem_singleton, List.mem_nil_iff, or_false] at hc
              rcases hc with hc | hc | hc <;> (subst hc; rfl)
          | some u => exact absurd ⟨occ, lm, lot, u, ho, hl, hlot, hd⟩ hnone
  · intro hs happ hcity
    simp [LegalizeGamblingOrdinanceUpgrade.SetOn, hs, happ, hcity]

/-- An instance of C24: in the sample city `DemolishCasino` ends with the demolition pair
on lot 7. -/
theorem demolition_sequence_witness :
    ∃ before, DemolishCasino sampleCity
        = before ++ [Call.StartDemolishLot { id := 7 }, Call.EndDemolishLot { id := 7 }] ∧
      ∀ c ∈ before, isDemolition c = false :=
  (demolition_sequence sampleCity sampleApp LegalizeGamblingOrdinanceUpgrade.ctor
    sampleHost).1 sampleCasino { lots := [(sampleCasino, { id := 7 })] } { id := 7 } ()
    (by decide) rfl (by decide) rfl

/-! ## The menu entry and the placement tool: the claims -/

theorem menu_step (pCity : City) (tool : List Call) (b : Nat)
    (st1 : ConditionalBuildingStatus)
    (htool : Call.UpdateConditionalBuildingStatus b st1 ∉ tool) :
    Call.UpdateConditionalBuildingStatus b st1 ∈
        (match pCity.civicBuildingSimulator with
          | some pCivicBuildingSim =>
            match pCivicBuildingSim.GetConditionalBuildingStatus 0x33a0000 with
            | some status =>
              [.GetCivicBuildingSimulator, .GetConditionalBuildingStatus 0x33a0000,
                .UpdateConditionalBuildingStatus 0x33a0000 { status with status := 1 }]
            | none => [.GetCivicBuildingSimulator, .GetConditionalBuildingStatus 0x33a0000]
          | none => [Call.GetCivicBuildingSimulator] : List Call) ++ tool ↔
      b = 0x33a0000 ∧ ∃ st, casinoStatus pCity = some st ∧ st1.status = 1 ∧
        st1.buildingCount = st.buildingCount ∧ st1.unknown1 = st.unknown1 ∧
        st1.unknown2 = st.unknown2 ∧ st1.unknown3 = st.unknown3 ∧
        st1.unknown4 = st.unknown4 ∧ st1.unknown5 = st.unknown5 := by
  unfold casinoStatus
  cases pCity.civicBuildingSimulator with
  | none => simp [htool]
  | some sim =>
    simp only
    cases sim.GetConditionalBuildingStatus 0x33a0000 with
    | none => simp [htool]
    | some st =>
      simp only [List.mem_append, htool, or_false, List.mem_cons, List.mem_singleton,
        List.mem_nil_iff, reduceCtorEq, false_or, Call.UpdateConditionalBuildingStatus.injEq,
        Option.some.injEq, exists_eq_left']
      constructor
      · rintro ⟨hb, hs⟩
        subst hs
        exact ⟨hb, rfl, rfl, rfl, rfl, rfl, rfl, rfl⟩
      · rintro ⟨hb, h1, h2, h3, h4, h5, h6, h7⟩
        refine ⟨hb, ?_⟩
        cases st1; cases st
        simp_all

theorem tool_step (pSC4App : App) (menu : List Call) (flag : Bool)
    (hmenu : Call.RemoveCurrentViewInputControl flag ∉ menu) :
    Call.RemoveCurrentViewInputControl flag ∈ menu ++
        (match pSC4App.mainWindow with
          | some pMainWin =>
            match pMainWin.GetChildWindowFromID kGZWin_WinSC4App with
            | some pParentWin =>
              match pParentWin.GetChildAs kSC4CLSID_cSC4View3DWin kGZIID_cISC4View3DWin with
              | some pView3DWin =>
                match pView3DWin.currentViewInputControl with
                | some controlID =>
                  if controlID = 0x88F154FB then
                    [.GetMainWindow, .GetChildWindowFromID kGZWin_WinSC4App,
                      .GetChildAs kSC4CLSID_cSC4View3DWin kGZIID_cISC4View3DWin,
                      .GetCurrentViewInputControl, .RemoveCurrentViewInputControl false]
                  else
                    [.GetMainWindow, .GetChildWindowFromID kGZWin_WinSC4App,
                      .GetChildAs kSC4CLSID_cSC4View3DWin kGZIID_cISC4View3DWin,
                      .GetCurrentViewInputControl]
                | none =>
                  [.GetMainWindow, .GetChildWindowFromID kGZWin_WinSC4App,
                    .GetChildAs kSC4CLSID_cSC4View3DWin kGZIID_cISC4View3DWin,
                    .GetCurrentViewInputControl]
              | none =>
                [.GetMainWindow, .GetChildWindowFromID kGZWin_WinSC4App,
                  .GetChildAs kSC4CLSID_cSC4View3DWin kGZIID_cISC4View3DWin]
            | none => [.GetMainWindow, .GetChildWindowFromID kGZWin_WinSC4App]
          | none => [Call.GetMainWindow] : List Call) ↔
      flag = false ∧ currentControl pSC4App = some 0x88F154FB := by
  unfold currentControl
  cases pSC4App.mainWindow with
  | none => simp [hmenu]
  | some mainWin =>
    simp only
    cases mainWin.GetChildWindowFromID kGZWin_WinSC4App with
    | none => simp [hmenu]
    | some parentWin =>
      simp only
      cases parentWin.GetChildAs kSC4CLSID_cSC4View3DWin kGZIID_cISC4View3DWin with
      | none => simp [hmenu]
      | some view =>
        simp only
        cases view.currentViewInputControl with
        | none => simp [hmenu]
        | some controlID =>
          by_cases hc : controlID = 0x88F154FB
          · simp [hc, hmenu]
          · simp [hc, hmenu]

/-- C25 (menu entry and placement tool).  `DisableCasinoMenuItem` stores a status for a
building exactly when the civic building simulator exists and holds a status for
building 0x33a0000; what it stores is, for that building, the held status with the
status field set to 1 and every other field as it was.  It removes the current view
input control, with argument false, exactly when the main window, the application
window, the 3D view and a current control exist and the id of the control is
0x88F154FB.  Each of the two holds whatever the state of the other side is. -/
theorem disableCasinoMenuItem_steps (pSC4App : App) (pCity : City) :
    (∀ b st1, Call.UpdateConditionalBuildingStatus b st1 ∈ DisableCasinoMenuItem pSC4App pCity ↔
      b = 0x33a0000 ∧ ∃ st, casinoStatus pCity = some st ∧ st1.status = 1 ∧
        st1.buildingCount = st.buildingCount ∧ st1.unknown1 = st.unknown1 ∧
        st1.unknown2 = st.unknown2 ∧ st1.unknown3 = st.unknown3 ∧
        st1.unknown4 = st.unknown4 ∧ st1.unknown5 = st.unknown5) ∧
    (∀ flag, Call.RemoveCurrentViewInputControl flag ∈ DisableCasinoMenuItem pSC4App pCity ↔
      flag = false ∧ currentControl pSC4App = some 0x88F154FB) := by
  unfold DisableCasinoMenuItem casinoBuildingID Status_BuildingDisabled
    placeLotViewInputControl
  constructor
  · intro b st1
    refine menu_step pCity _ b st1 ?_
    split
    · split
      · split
        · split
          · split <;> simp
          · simp
        · simp
      · simp
    · simp
  · intro flag
    refine tool_step pSC4App _ flag ?_
    split
    · split <;> simp
    · simp

/-- An instance of C25: in the sample host the casino's status is stored with the status
field 1 and the building count 1 it had, and the placement tool is cancelled. -/
theorem disableCasinoMenuItem_steps_witness :
    Call.UpdateConditionalBuildingStatus 0x33a0000
        { status := 1, buildingCount := 1, unknown1 := 0, unknown2 := 0, unknown3 := 0,
          unknown4 := 0, unknown5 := 0 } ∈ DisableCasinoMenuItem sampleApp sampleCity ∧
      Call.RemoveCurrentViewInputControl false ∈ DisableCasinoMenuItem sampleApp sampleCity :=
  ⟨((disableCasinoMenuItem_steps sampleApp sampleCity).1 _ _).2
      ⟨rfl, ConditionalBuildingStatus.mk 0 1 0 0 0 0 0, by decide, rfl, rfl, rfl, rfl, rfl,
        rfl, rfl⟩,
   ((disableCasinoMenuItem_steps sampleApp sampleCity).2 false).2 ⟨rfl, by decide⟩⟩

/-! ## What is not persisted: the claims -/

theorem wireForm_of_persisted (r1 r2 : SC4BuiltInOrdinanceBase)
    (h : persisted r1 = persisted r2) : wireForm r1 = wireForm r2 := by
  simp only [persisted, Prod.mk.injEq] at h
  obtain ⟨h1, h2, h3, h4, h5, h6, h7, h8, h9, h10, h11, h12, h13, h14, h15, h16, h17, h18⟩ := h
  simp only [wireForm, h1, h2, h3, h4, h5, h6, h7, h8, h9, h10, h11, h12, h13, h14, h15, h16,
    h17, h18]

theorem Write_of_persisted (r1 r2 : SC4BuiltInOrdinanceBase) (s : OStream)
    (h : persisted r1 = persisted r2) :
    (r1.Write s).1 = (r2.Write s).1 ∧ (r1.Write s).2.2 = (r2.Write s).2.2 := by
  rw [Write_eq_putAll, Write_eq_putAll, wireForm_of_persisted r1 r2 h]
  split <;> simp

/-- C26 (settings are applied, nothing persisted moves).  `UpdateOrdinanceData(settings)`
sets `baseMonthlyIncome`, the three tier factors and the effects property bag to the
values of `settings`, and leaves every persisted member and the suppress count as they
were; `Write` on the same stream then gives the same result and the same stream,
written primitives included, before and after the call. -/
theorem updateOrdinanceData_effect (r : LegalizeGamblingOrdinanceUpgrade)
    (settings : Settings) (s : OStream) :
    (r.UpdateOrdinanceData settings).baseMonthlyIncome = settings.baseMonthlyIncome ∧
    (r.UpdateOrdinanceData settings).residentialLowWealthIncomeFactor
      = settings.residentialLowWealthFactor ∧
    (r.UpdateOrdinanceData settings).residentialMedWealthIncomeFactor
      = settings.residentialMedWealthFactor ∧
    (r.UpdateOrdinanceData settings).residentialHighWealthIncomeFactor
      = settings.residentialHighWealthFactor ∧
    (r.UpdateOrdinanceData settings).miscProperties = settings.cityLotteryOrdinanceEffects ∧
    persisted (r.UpdateOrdinanceData settings).toSC4BuiltInOrdinanceBase
      = persisted r.toSC4BuiltInOrdinanceBase ∧
    (r.UpdateOrdinanceData settings).ignoreSetOnCallCount = r.ignoreSetOnCallCount ∧
    ((r.UpdateOrdinanceData settings).Write s).1 = (r.Write s).1 ∧
    ((r.UpdateOrdinanceData settings).Write s).2.2 = (r.Write s).2.2 ∧
    wireBytes ((r.UpdateOrdinanceData settings).Write s).2.2.written
      = wireBytes (r.Write s).2.2.written := by
  have hp : persisted (r.UpdateOrdinanceData settings).toSC4BuiltInOrdinanceBase
      = persisted r.toSC4BuiltInOrdinanceBase := rfl
  have hw := Write_of_persisted _ _ s hp
  refine ⟨rfl, rfl, rfl, rfl, rfl, hp, rfl, hw.1, hw.2, ?_⟩
  simp only [LegalizeGamblingOrdinanceUpgrade.Write]
  rw [hw.2]

/-- C27 (the override state does not reach the save).  For two records that agree on
every persisted member, whatever their `baseMonthlyIncome`, tier factors, suppress count
and effects bag, `Write` on the same stream returns the same result and leaves the same
stream, with the same primitives written. -/
theorem write_ignores_override_state (r1 r2 : LegalizeGamblingOrdinanceUpgrade)
    (s : OStream)
    (h : persisted r1.toSC4BuiltInOrdinanceBase = persisted r2.toSC4BuiltInOrdinanceBase) :
    (r1.Write s).1 = (r2.Write s).1 ∧ (r1.Write s).2.2 = (r2.Write s).2.2 ∧
      (r1.Write s).2.2.written = (r2.Write s).2.2.written := by
  have hw := Write_of_persisted _ _ s h
  refine ⟨hw.1, hw.2, ?_⟩
  simp only [LegalizeGamblingOrdinanceUpgrade.Write]
  rw [hw.2]

/-- An instance of C27: the constructed record and one with base income 7, low tier
factor 2.0, suppress count 3 and one effect write the same to an open sink. -/
theorem write_ignores_override_state_witness :
    persisted LegalizeGamblingOrdinanceUpgrade.ctor.toSC4BuiltInOrdinanceBase
        = persisted ({ LegalizeGamblingOrdinanceUpgrade.ctor with
            baseMonthlyIncome := 7, residentialLowWealthIncomeFactor := 0x40000000,
            ignoreSetOnCallCount := 3,
            miscProperties := [(0x28ed0380, 0x40000000)] } :
              LegalizeGamblingOrdinanceUpgrade).toSC4BuiltInOrdinanceBase ∧
      (LegalizeGamblingOrdinanceUpgrade.ctor.Write openSink).2.2.written
        = (({ LegalizeGamblingOrdinanceUpgrade.ctor with
            baseMonthlyIncome := 7, residentialLowWealthIncomeFactor := 0x40000000,
            ignoreSetOnCallCount := 3,
            miscProperties := [(0x28ed0380, 0x40000000)] } :
              LegalizeGamblingOrdinanceUpgrade).Write openSink).2.2.written :=
  ⟨rfl, (write_ignores_override_state _ _ openSink rfl).2.2⟩

/-! ## The range check of the settings: the claims -/

theorem Dbl.lt_of_le (a b : Dbl) (h : Dbl.le a b = true) : Dbl.lt b a = false := by
  cases a <;> cases b <;> simp_all [Dbl.le, Dbl.lt, Dbl.eq]
  rename_i m1 e1 m2 e2
  rw [min_comm e2 e1]
  rcases h with h | h
  · exact le_of_lt h
  · exact le_of_eq h

theorem CheckValueRange_inside (value min max : Nat) (name : String)
    (h1 : Dbl.le (Dbl.ofFloat32 min) (Dbl.ofFloat32 value) = true)
    (h2 : Dbl.le (Dbl.ofFloat32 value) (Dbl.ofFloat32 max) = true) :
    CheckValueRange value min max name = .ok value := by
  simp [CheckValueRange, Dbl.lt_of_le _ _ h1, Dbl.lt_of_le _ _ h2]

theorem CheckValueRange_outside (value min max : Nat) (name : String)
    (h : Dbl.lt (Dbl.ofFloat32 value) (Dbl.ofFloat32 min) = true
      ∨ Dbl.lt (Dbl.ofFloat32 max) (Dbl.ofFloat32 value) = true) :
    CheckValueRange value min max name = .error (.isLessThan name min) := by
  unfold CheckValueRange
  rcases h with h | h
  · simp [h]
  · simp [h]

theorem CheckValueRange_ok (value min max v : Nat) (name : String)
    (h : CheckValueRange value min max name = .ok v) : v = value := by
  unfold CheckValueRange at h
  split_ifs at h
  simpa using h.symm

/-- C22 (range check).  `CheckValueRange(value, min, max, name)` returns `value` itself
when `min <= value` and `value <= max`, and throws when `value < min` or `max < value`.
So `Settings::Load` throws for every `CrimeEffectMultiplier` below `0.01f` or above
`2.0f`, leaving the effects bag as it was; and when `Load` does not throw, the effects
bag is empty or holds the multiplier of the file itself under 0x28ed0380, never another
value. -/
theorem checkValueRange_strict (value min max : Nat) (name : String) (s : Settings)
    (tree : SettingsTree) :
    (Dbl.le (Dbl.ofFloat32 min) (Dbl.ofFloat32 value) = true →
      Dbl.le (Dbl.ofFloat32 value) (Dbl.ofFloat32 max) = true →
      CheckValueRange value min max name = .ok value) ∧
    (Dbl.lt (Dbl.ofFloat32 value) (Dbl.ofFloat32 min) = true
        ∨ Dbl.lt (Dbl.ofFloat32 max) (Dbl.ofFloat32 value) = true →
      ∃ thrown, CheckValueRange value min max name = .error thrown) ∧
    (tree.CrimeEffectMultiplier = some value →
      Dbl.lt (Dbl.ofFloat32 value) (Dbl.ofFloat32 0x3c23d70a) = true
        ∨ Dbl.lt (Dbl.ofFloat32 0x40000000) (Dbl.ofFloat32 value) = true →
      (s.Load (.parsed tree)).2 ≠ none ∧
      (s.Load (.parsed tree)).1.cityLotteryOrdinanceEffects
        = s.cityLotteryOrdinanceEffects) ∧
    (tree.CrimeEffectMultiplier = some value → (s.Load (.parsed tree)).2 = none →
      (s.Load (.parsed tree)).1.cityLotteryOrdinanceEffects = []
        ∨ (s.Load (.parsed tree)).1.cityLotteryOrdinanceEffects
            = [(0x28ed0380, value)]) := by
  refine ⟨CheckValueRange_inside value min max name, ?_, ?_, ?_⟩
  · intro h
    exact ⟨_, CheckValueRange_outside value min max name h⟩
  · intro hv h
    have hc := CheckValueRange_outside value 0x3c23d70a 0x40000000 "CrimeEffectMultiplier" h
    obtain ⟨t1, t2, t3, t4, t5⟩ := tree
    simp only at hv
    subst hv
    unfold Settings.Load
    cases t1 <;> cases t2 <;> cases t3 <;> cases t4 <;> simp [hc]
  · intro hv
    obtain ⟨t1, t2, t3, t4, t5⟩ := tree
    simp only at hv
    subst hv
    unfold Settings.Load
    cases t1 <;> cases t2 <;> cases t3 <;> cases t4 <;>
      simp only [reduceCtorEq, false_implies]
    cases hc : CheckValueRange value 0x3c23d70a 0x40000000 "CrimeEffectMultiplier" with
    | error t => simp
    | ok v =>
      have hv2 := CheckValueRange_ok _ _ _ _ _ hc
      subst hv2
      simp only [RemoveAllProperties, AddProperty]
      split_ifs <;> simp

set_option maxRecDepth 20000 in
/-- An instance of C22: the multiplier 2.5 (pattern 0x40200000) makes `Load` throw and
leaves the effects bag of the constructed settings empty. -/
theorem checkValueRange_strict_witness :
    (Settings.ctor.Load (.parsed
        { BaseMonthlyIncome := some 100, lowIncomeFactor := some 0x3d4ccccd,
          medIncomeFactor := some 0x3cf5c28f, highIncomeFactor := some 0x3c23d70a,
          CrimeEffectMultiplier := some 0x40200000 })).2 ≠ none ∧
      (Settings.ctor.Load (.parsed
        { BaseMonthlyIncome := some 100, lowIncomeFactor := some 0x3d4ccccd,
          medIncomeFactor := some 0x3cf5c28f, highIncomeFactor := some 0x3c23d70a,
          CrimeEffectMultiplier := some 0x40200000 })).1.cityLotteryOrdinanceEffects
        = Settings.ctor.cityLotteryOrdinanceEffects :=
  (checkValueRange_strict 0x40200000 0 0 "" Settings.ctor
    { BaseMonthlyIncome := some 100, lowIncomeFactor := some 0x3d4ccccd,
      medIncomeFactor := some 0x3cf5c28f, highIncomeFactor := some 0x3c23d70a,
      CrimeEffectMultiplier := some 0x40200000 }).2.2.1 rfl (Or.inr (by decide))

/-! ## Income without a contribution: the claims -/

set_option maxRecDepth 20000 in
/-- C29 (base-class income).  The base `GetCurrentMonthlyIncome` returns
`monthlyConstantIncome` itself when no residential simulator is bound, never changes the
record, and otherwise passes the `double` sum of the constant income and factor times
population through the clamp.  At the failing input, constant income `2 ^ 63 - 1` and
population 0, the sum is `2 ^ 63`: it exceeds the maximum, the saturating conversion of
the claim gives `2 ^ 63 - 1`, and the code delivers `-2 ^ 63`. -/
theorem base_income_at_int64_max :
    (∀ r : SC4BuiltInOrdinanceBase, r.pResidentialSimulator = none →
      r.GetCurrentMonthlyIncome.1 = r.monthlyConstantIncome) ∧
    (∀ r : SC4BuiltInOrdinanceBase, r.GetCurrentMonthlyIncome.2.1 = r) ∧
    (∀ (r : SC4BuiltInOrdinanceBase) sim, r.pResidentialSimulator = some sim →
      r.GetCurrentMonthlyIncome.1 = monthlyIncomeInteger (r.formulaSum sim.population)) ∧
    baseAtInt64Max.formulaSum 0 = Dbl.fin (2 ^ 52) 11 ∧
    Dbl.lt (Dbl.fin int64Max 0) (baseAtInt64Max.formulaSum 0) = true ∧
    saturatingInt64 (baseAtInt64Max.formulaSum 0) = 2 ^ 63 - 1 ∧
    baseAtInt64Max.GetCurrentMonthlyIncome.1 = -(2 ^ 63) := by
  refine ⟨?_, ?_, ?_, by decide, by decide, by decide, by decide⟩
  · intro r h
    simp only [SC4BuiltInOrdinanceBase.GetCurrentMonthlyIncome, h]
  · intro r
    unfold SC4BuiltInOrdinanceBase.GetCurrentMonthlyIncome
    cases r.pResidentialSimulator <;> rfl
  · intro r sim h
    simp only [SC4BuiltInOrdinanceBase.GetCurrentMonthlyIncome, h,
      SC4BuiltInOrdinanceBase.formulaSum]

theorem bitLengthAux_spec : ∀ (fuel a : Nat), a ≤ fuel →
    a < 2 ^ bitLengthAux fuel a ∧ ∀ k, a < 2 ^ k → bitLengthAux fuel a ≤ k := by
  intro fuel
  induction fuel with
  | zero =>
    intro a ha
    have : a = 0 := by omega
    subst this
    simp [bitLengthAux]
  | succ fuel ih =>
    intro a ha
    unfold bitLengthAux
    by_cases h0 : a = 0
    · simp [h0]
    · simp only [h0, if_false]
      have hle : a / 2 ≤ fuel := by omega
      obtain ⟨h1, h2⟩ := ih (a / 2) hle
      constructor
      · rw [pow_succ]
        omega
      · intro k hk
        cases k with
        | zero => simp at hk; omega
        | succ k =>
          have : a / 2 < 2 ^ k := by
            rw [pow_succ] at hk
            omega
          have := h2 k this
          omega

theorem bitLength_spec (a : Nat) :
    a < 2 ^ bitLength a ∧ ∀ k, a < 2 ^ k → bitLength a ≤ k :=
  bitLengthAux_spec a a le_rfl

theorem round_small (neg : Bool) (a : Nat) (h0 : 0 < a) (h : a < 2 ^ 53) :
    ∃ s : Nat, s ≤ 52 ∧ a * 2 ^ s < 2 ^ 53 ∧
      Dbl.round neg a 0
        = .fin (if neg then -((a * 2 ^ s : Nat) : Int) else ((a * 2 ^ s : Nat) : Int))
            (-(s : Int)) := by
  obtain ⟨h1, h2⟩ := bitLength_spec a
  have hb : bitLength a ≤ 53 := h2 53 h
  have hpos : 1 ≤ bitLength a := by
    by_contra hc
    have : bitLength a = 0 := by omega
    rw [this] at h1
    simp at h1
    omega
  refine ⟨53 - bitLength a, by omega, ?_, ?_⟩
  · calc a * 2 ^ (53 - bitLength a) < 2 ^ bitLength a * 2 ^ (53 - bitLength a) :=
          Nat.mul_lt_mul_of_pos_right h1 (by positivity)
      _ = 2 ^ 53 := by rw [← pow_add]; congr 1; omega
  · have hq : a * 2 ^ (53 - bitLength a) < 2 ^ 53 := by
      calc a * 2 ^ (53 - bitLength a) < 2 ^ bitLength a * 2 ^ (53 - bitLength a) :=
            Nat.mul_lt_mul_of_pos_right h1 (by positivity)
        _ = 2 ^ 53 := by rw [← pow_add]; congr 1; omega
    have hq0 : a * 2 ^ (53 - bitLength a) ≠ 0 := by positivity
    have ht : max (-1074 : Int) (0 + (bitLength a : Int) - 53) = (bitLength a : Int) - 53 := by
      rw [max_eq_right] <;> omega
    have hs : ((0 : Int) - ((bitLength a : Int) - 53)).toNat = 53 - bitLength a := by omega
    have hle : (bitLength a : Int) - 53 ≤ 0 := by omega
    have hne : a * 2 ^ (53 - bitLength a) ≠ 2 ^ 53 := by omega
    have h971 : ¬ (971 : Int) < (bitLength a : Int) - 53 := by omega
    have hneg : -((53 - bitLength a : Nat) : Int) = (bitLength a : Int) - 53 := by omega
    simp only [Dbl.round, ht, hle, if_true, hs, hne, if_false, hq0, h971, hneg]


theorem small_fin (neg : Bool) (a s : Nat) (hs : s ≤ 52) (hm : a * 2 ^ s < 2 ^ 53) :
    Dbl.lt (.fin (if neg then -((a * 2 ^ s : Nat) : Int) else ((a * 2 ^ s : Nat) : Int))
        (-(s : Int))) (Dbl.fin (-(2 ^ 52)) 11) = false ∧
    Dbl.lt (.fin (if neg then -((a * 2 ^ s : Nat) : Int) else ((a * 2 ^ s : Nat) : Int))
        (-(s : Int))) (Dbl.fin (2 ^ 52) 11) = true ∧
    Dbl.trunc (.fin (if neg then -((a * 2 ^ s : Nat) : Int) else ((a * 2 ^ s : Nat) : Int))
        (-(s : Int))) = if neg then -(a : Int) else (a : Int) := by
  have hmin : min (-(s : Int)) 11 = -(s : Int) := by
    rw [min_eq_left]; omega
  have h1 : ((-(s : Int)) - (-(s : Int))).toNat = 0 := by omega
  have h2 : ((11 : Int) - (-(s : Int))).toNat = 11 + s := by omega
  have hp : (2 : Int) ^ 11 ≤ 2 ^ (11 + s) := by
    apply pow_le_pow_right₀ <;> omega
  have hmI : ((a * 2 ^ s : Nat) : Int) < 2 ^ 53 := by exact_mod_cast hm
  have hm0 : (0 : Int) ≤ ((a * 2 ^ s : Nat) : Int) := Int.ofNat_nonneg _
  have hdiv : a * 2 ^ s / 2 ^ s = a := Nat.mul_div_cancel _ (by positivity)
  refine ⟨?_, ?_, ?_⟩
  · simp only [Dbl.lt, hmin, h1, h2, pow_zero, mul_one, decide_eq_false_iff_not, not_lt]
    cases neg <;> simp only [if_true, if_false, Bool.false_eq_true] <;> nlinarith
  · simp only [Dbl.lt, hmin, h1, h2, pow_zero, mul_one, decide_eq_true_eq]
    cases neg <;> simp only [if_true, if_false, Bool.false_eq_true] <;> nlinarith
  · simp only [Dbl.trunc]
    by_cases hs0 : s = 0
    · subst hs0
      cases neg <;> simp
    · have hneg : ¬ (0 : Int) ≤ -(s : Int) := by omega
      have hsn : (-(-(s : Int))).toNat = s := by omega
      cases neg
      · simp only [hneg, if_false, Bool.false_eq_true, hm0, if_true, Int.natAbs_ofNat, hsn,
          hdiv]
      · by_cases ha : a = 0
        · subst ha; simp
        · have hlt : ¬ (0 : Int) ≤ -((a * 2 ^ s : Nat) : Int) := by
            have : 0 < a * 2 ^ s := by positivity
            omega
          simp only [hneg, if_false, if_true, hlt, Int.natAbs_neg, Int.natAbs_ofNat, hsn, hdiv]

set_option maxRecDepth 20000 in
theorem monthlyIncomeInteger_ofInt (n : Int) (h : n.natAbs ≤ 2 ^ 53) :
    monthlyIncomeInteger (Dbl.ofInt n) = n := by
  have hc := monthlyIncomeInteger_cases (Dbl.ofInt n)
  rw [ofInt_two_pow_63, ofInt_neg_two_pow_63] at hc
  rcases Nat.eq_zero_or_pos n.natAbs with h0 | h0
  · have : n = 0 := Int.natAbs_eq_zero.mp h0
    subst this
    decide
  · rcases Nat.lt_or_ge n.natAbs (2 ^ 53) with hlt | hge
    · obtain ⟨s, hs, hm, hr⟩ := round_small (decide (n < 0)) n.natAbs h0 hlt
      obtain ⟨k1, k2, k3⟩ := small_fin (decide (n < 0)) n.natAbs s hs hm
      unfold Dbl.ofInt
      unfold Dbl.ofInt at hc
      rw [hr] at hc ⊢
      rw [(hc.2.2 k1 k2).1, k3]
      by_cases hn : n < 0
      · simp only [hn, decide_True, if_true]; omega
      · simp only [hn, decide_False, Bool.false_eq_true, if_false]; omega
    · have hcase : n = 2 ^ 53 ∨ n = -(2 ^ 53) := by omega
      rcases hcase with hcase | hcase <;> (subst hcase; decide)


theorem addTier_skip (sum : Dbl) (factor population : Nat)
    (h : Dbl.lt Dbl.zero (Dbl.ofFloat32 factor) = false
      ∨ Dbl.lt Dbl.zero (Dbl.ofFloat32 population) = false) :
    addTier sum factor population = sum := by
  unfold addTier
  rcases h with h | h <;> simp [h]

theorem GetCityPopulation_unbound (r : LegalizeGamblingOrdinanceUpgrade) (g : Nat)
    (h : r.pDemandSimulator = none) : (r.GetCityPopulation g).1 = 0 := by
  simp only [LegalizeGamblingOrdinanceUpgrade.GetCityPopulation, h]

set_option maxRecDepth 20000 in
theorem lt_zero_ofFloat32_zero : Dbl.lt Dbl.zero (Dbl.ofFloat32 0) = false := by decide

set_option maxRecDepth 20000 in
/-- C30, the counterexample: the constructed record, to which no demand simulator is
bound, with the base income `2 ^ 53 + 1`.  The conversion of the base income to `double`
rounds it to `2 ^ 53`, and that is the income returned. -/
theorem income_rounds_large_base :
    (ordinanceWithBase (2 ^ 53 + 1)).pDemandSimulator = none ∧
    (ordinanceWithBase (2 ^ 53 + 1)).baseMonthlyIncome = 2 ^ 53 + 1 ∧
    (ordinanceWithBase (2 ^ 53 + 1)).GetCurrentMonthlyIncome.1 = 2 ^ 53 ∧
    (ordinanceWithBase (2 ^ 53 + 1)).GetCurrentMonthlyIncome.1
      ≠ (ordinanceWithBase (2 ^ 53 + 1)).baseMonthlyIncome := by
  decide

/-- C30, amended.  When each of the three tier factors is at most zero, or no demand
simulator is bound, the override `GetCurrentMonthlyIncome` returns the base income
converted to `double` and passed through the clamp; for a base income of absolute value
at most `2 ^ 53` that is the base income itself. -/
theorem income_without_tiers (r : LegalizeGamblingOrdinanceUpgrade)
    (h : (Dbl.le (Dbl.ofFloat32 r.residentialLowWealthIncomeFactor) Dbl.zero = true ∧
          Dbl.le (Dbl.ofFloat32 r.residentialMedWealthIncomeFactor) Dbl.zero = true ∧
          Dbl.le (Dbl.ofFloat32 r.residentialHighWealthIncomeFactor) Dbl.zero = true)
        ∨ r.pDemandSimulator = none) :
    r.GetCurrentMonthlyIncome.1 = monthlyIncomeInteger (Dbl.ofInt r.baseMonthlyIncome) ∧
    (r.baseMonthlyIncome.natAbs ≤ 2 ^ 53 →
      r.GetCurrentMonthlyIncome.1 = r.baseMonthlyIncome) := by
  have hs : r.monthlyIncome.1 = Dbl.ofInt r.baseMonthlyIncome := by
    rw [monthlyIncome_eq_tierSum]
    unfold tierSum
    rcases h with ⟨h1, h2, h3⟩ | h
    · rw [addTier_skip _ _ _ (Or.inl (Dbl.lt_of_le _ _ h3)),
        addTier_skip _ _ _ (Or.inl (Dbl.lt_of_le _ _ h2)),
        addTier_skip _ _ _ (Or.inl (Dbl.lt_of_le _ _ h1))]
    · rw [GetCityPopulation_unbound r _ h, GetCityPopulation_unbound r _ h,
        GetCityPopulation_unbound r _ h,
        addTier_skip _ _ _ (Or.inr lt_zero_ofFloat32_zero),
        addTier_skip _ _ _ (Or.inr lt_zero_ofFloat32_zero),
        addTier_skip _ _ _ (Or.inr lt_zero_ofFloat32_zero)]
  have hv : r.GetCurrentMonthlyIncome.1 = monthlyIncomeInteger (Dbl.ofInt r.baseMonthlyIncome) := by
    simp only [LegalizeGamblingOrdinanceUpgrade.GetCurrentMonthlyIncome, hs]
  refine ⟨hv, fun hb => ?_⟩
  rw [hv, monthlyIncomeInteger_ofInt _ hb]

/-- An instance of the amended C30: the constructed record, unbound, with the base income
`-(2 ^ 53)`, returns `-(2 ^ 53)`. -/
theorem income_without_tiers_witness :
    (ordinanceWithBase (-(2 ^ 53))).GetCurrentMonthlyIncome.1 = -(2 ^ 53) :=
  (income_without_tiers (ordinanceWithBase (-(2 ^ 53))) (Or.inr rfl)).2 (by decide)

/-! ## A read that fails part of the way: the claims -/

theorem map_fst_ne (α : Type) [DecidableEq α] (o : Option (α × IStream)) (c : α)
    (h : decide (o.map Prod.fst ≠ some c) = true) :
    o = none ∨ ∃ v s1, o = some (v, s1) ∧ v ≠ c := by
  rcases o with _ | ⟨v, s1⟩
  · exact Or.inl rfl
  · right
    refine ⟨v, s1, rfl, ?_⟩
    simpa using h

set_option maxHeartbeats 4000000 in
theorem Read_upto (r q : SC4BuiltInOrdinanceBase) (b0 b1 b2 b3 b4 : Byte) (k : Nat)
    (tail : List Byte) (hq : q.InRange) (hk : k < 23)
    (hf : fieldFails k { bytes := tail, error := 0 } = true) :
    (r.Read { bytes := wireBytes ((fullForm q b0 b1 b2 b3 b4).take k) ++ tail, error := 0 }).1
        = false ∧
      (r.Read
        { bytes := wireBytes ((fullForm q b0 b1 b2 b3 b4).take k) ++ tail, error := 0 }).2.1
        = decodedPrefix r q b0 b1 b2 b3 b4 k := by
  obtain ⟨h1, h2, h3, h4, h5, ⟨h6, h6'⟩, ⟨h7, h7'⟩, ⟨h8, h8'⟩, h9, h10, ⟨h11, h11'⟩, h12, h13⟩ := hq
  have hv : (4 : Nat) < 2 ^ 16 := by norm_num
  have hv2 : (2 : Nat) < 2 ^ 16 := by norm_num
  have hv0 : (0 : Nat) < 2 ^ 32 := by norm_num
  have hvt : kExemplarTypeID < 2 ^ 32 := by decide
  interval_cases k
  · simp only [fieldFails] at hf
    rcases map_fst_ne _ _ _ hf with hx | ⟨v, s1, hx, hne⟩
    · simp [fullForm, headerForm, blockForm, wireBytes, SC4BuiltInOrdinanceBase.Read,
        IStream.GetError, hx, decodedPrefix]
    · simp [fullForm, headerForm, blockForm, wireBytes, SC4BuiltInOrdinanceBase.Read,
        IStream.GetError, hx, hne, decodedPrefix]
  all_goals first
    | (simp only [fieldFails] at hf
       rcases map_fst_ne _ _ _ hf with hx | ⟨v, s1, hx, hne⟩
       · (simp only [fullForm, headerForm, blockForm, List.cons_append, List.nil_append,
            List.take_succ_cons, List.take_zero, wireBytes, Prim.bytes, List.append_assoc]
          unfold SC4BuiltInOrdinanceBase.Read ReadSC4BuiltInOrdnanceProperties
          simp only [IStream.GetError, ne_eq, not_true_eq_false, if_false,
            GetUint16_wire 4 _ _ hv, ReadBool_wire, GetUint32_wire _ _ _ h1,
            GetGZStr_wire _ _ _ h2, GetGZStr_wire _ _ _ h3, GetUint32_wire _ _ _ h4,
            GetFloat32_wire _ _ _ h5, GetSint64_wire _ _ _ h6 h6', GetSint64_wire _ _ _ h7 h7',
            GetSint64_wire _ _ _ h8 h8', GetFloat32_wire _ _ _ h9, GetUint32_wire _ _ _ h10,
            GetSint64_wire _ _ _ h11 h11', GetUint16_wire 2 _ _ hv2, GetUint32_wire 0 _ _ hv0,
            GetUint32_wire _ _ _ h12, GetUint32_wire kExemplarTypeID _ _ hvt, hx]
          simp [decodedPrefix])
       · (simp only [fullForm, headerForm, blockForm, List.cons_append, List.nil_append,
            List.take_succ_cons, List.take_zero, wireBytes, Prim.bytes, List.append_assoc]
          unfold SC4BuiltInOrdinanceBase.Read ReadSC4BuiltInOrdnanceProperties
          simp only [IStream.GetError, ne_eq, not_true_eq_false, if_false,
            GetUint16_wire 4 _ _ hv, ReadBool_wire, GetUint32_wire _ _ _ h1,
            GetGZStr_wire _ _ _ h2, GetGZStr_wire _ _ _ h3, GetUint32_wire _ _ _ h4,
            GetFloat32_wire _ _ _ h5, GetSint64_wire _ _ _ h6 h6', GetSint64_wire _ _ _ h7 h7',
            GetSint64_wire _ _ _ h8 h8', GetFloat32_wire _ _ _ h9, GetUint32_wire _ _ _ h10,
            GetSint64_wire _ _ _ h11 h11', GetUint16_wire 2 _ _ hv2, GetUint32_wire 0 _ _ hv0,
            GetUint32_wire _ _ _ h12, GetUint32_wire kExemplarTypeID _ _ hvt, hx]
          simp [decodedPrefix, hne]))
    | (simp only [fieldFails, Option.isNone_iff_eq_none] at hf
       simp only [fullForm, headerForm, blockForm, List.cons_append, List.nil_append,
         List.take_succ_cons, List.take_zero, wireBytes, Prim.bytes, List.append_assoc]
       unfold SC4BuiltInOrdinanceBase.Read ReadSC4BuiltInOrdnanceProperties
       simp only [IStream.GetError, ne_eq, not_true_eq_false, if_false,
         GetUint16_wire 4 _ _ hv, ReadBool_wire, GetUint32_wire _ _ _ h1,
         GetGZStr_wire _ _ _ h2, GetGZStr_wire _ _ _ h3, GetUint32_wire _ _ _ h4,
         GetFloat32_wire _ _ _ h5, GetSint64_wire _ _ _ h6 h6', GetSint64_wire _ _ _ h7 h7',
         GetSint64_wire _ _ _ h8 h8', GetFloat32_wire _ _ _ h9, GetUint32_wire _ _ _ h10,
         GetSint64_wire _ _ _ h11 h11', GetUint16_wire 2 _ _ hv2, GetUint32_wire 0 _ _ hv0,
         GetUint32_wire _ _ _ h12, GetUint32_wire kExemplarTypeID _ _ hvt, hf]
       simp [decodedPrefix])

/-- C28 (a failed read mutates a prefix).  Let the stream hold the first `k` fields of a
well-formed record, in wire order, followed by bytes on which field `k` fails: its
primitive read fails, or the version, one of the three constants of the exemplar block
or the exemplar type is read with another value.  Then `Read` returns false, every
member whose field comes before `k` holds the value decoded from the stream, and every
other member, so every member whose field comes after `k`, holds the value it had.  For
a failure at the exemplar type (field 21) the exemplar group is the decoded one and the
exemplar instance is the prior one. -/
theorem read_fails_at_field (r q : SC4BuiltInOrdinanceBase) (b0 b1 b2 b3 b4 : Byte)
    (k : Nat) (tail : List Byte) (hq : q.InRange) (hk : k < 23)
    (hf : fieldFails k { bytes := tail, error := 0 } = true) :
    (r.Read { bytes := wireBytes ((fullForm q b0 b1 b2 b3 b4).take k) ++ tail, error := 0 }).1
        = false ∧
      (r.Read
        { bytes := wireBytes ((fullForm q b0 b1 b2 b3 b4).take k) ++ tail, error := 0 }).2.1
        = decodedPrefix r q b0 b1 b2 b3 b4 k ∧
      (k = 21 →
        (r.Read
          { bytes := wireBytes ((fullForm q b0 b1 b2 b3 b4).take k) ++ tail,
            error := 0 }).2.1.exemplarInfo
          = { group := q.exemplarInfo.group, instanceID := r.exemplarInfo.instanceID }) := by
  obtain ⟨p1, p2⟩ := Read_upto r q b0 b1 b2 b3 b4 k tail hq hk hf
  refine ⟨p1, p2, fun h21 => ?_⟩
  rw [p2, h21]
  simp [decodedPrefix]

set_option maxRecDepth 20000 in
/-- An instance of C28: a stream that holds the constructed record up to the exemplar
group and then the type id 5 is read into `priorRecord`.  The read fails at field 21. -/
theorem read_fails_at_field_witness :
    (priorRecord.Read
      { bytes := wireBytes ((fullForm LegalizeGamblingOrdinanceUpgrade.ctor.toSC4BuiltInOrdinanceBase
          1 0 0 1 1).take 21) ++ leBytes 4 5, error := 0 }).1 = false ∧
    (priorRecord.Read
      { bytes := wireBytes ((fullForm LegalizeGamblingOrdinanceUpgrade.ctor.toSC4BuiltInOrdinanceBase
          1 0 0 1 1).take 21) ++ leBytes 4 5, error := 0 }).2.1
      = decodedPrefix priorRecord LegalizeGamblingOrdinanceUpgrade.ctor.toSC4BuiltInOrdinanceBase
          1 0 0 1 1 21 :=
  ⟨(read_fails_at_field priorRecord LegalizeGamblingOrdinanceUpgrade.ctor.toSC4BuiltInOrdinanceBase
      1 0 0 1 1 21 (leBytes 4 5) ctor_InRange (by decide) (by decide)).1,
   (read_fails_at_field priorRecord LegalizeGamblingOrdinanceUpgrade.ctor.toSC4BuiltInOrdinanceBase
      1 0 0 1 1 21 (leBytes 4 5) ctor_InRange (by decide) (by decide)).2.1⟩

/-! ## The bracket: the claims -/

set_option maxRecDepth 20000 in
/-- C32 (construction).  The constructed `LegalizeGamblingOrdinanceUpgrade` has
`initialized`, `available`, `on` and `enabled` false, `monthlyAdjustedIncome` 0, the
suppress count 0, none of its three service pointers bound, the class id 0xA0D07129,
which is the exemplar instance, the exemplar group 0xA9C2C209, `isIncomeOrdinance` true,
`baseMonthlyIncome` 100 and the tier factors `0.05f`, `0.03f` and `0.01f`; and the base
constructor sets `advisorID` to 0 whatever argument it receives. -/
theorem ctor_state :
    LegalizeGamblingOrdinanceUpgrade.ctor.initialized = false ∧
    LegalizeGamblingOrdinanceUpgrade.ctor.available = false ∧
    LegalizeGamblingOrdinanceUpgrade.ctor.on_ = false ∧
    LegalizeGamblingOrdinanceUpgrade.ctor.enabled = false ∧
    LegalizeGamblingOrdinanceUpgrade.ctor.monthlyAdjustedIncome = 0 ∧
    LegalizeGamblingOrdinanceUpgrade.ctor.ignoreSetOnCallCount = 0 ∧
    LegalizeGamblingOrdinanceUpgrade.ctor.pResidentialSimulator = none ∧
    LegalizeGamblingOrdinanceUpgrade.ctor.pSimulator = none ∧
    LegalizeGamblingOrdinanceUpgrade.ctor.pDemandSimulator = none ∧
    LegalizeGamblingOrdinanceUpgrade.ctor.clsid = 0xA0D07129 ∧
    LegalizeGamblingOrdinanceUpgrade.ctor.GetID
      = LegalizeGamblingOrdinanceUpgrade.ctor.exemplarInfo.instanceID ∧
    LegalizeGamblingOrdinanceUpgrade.ctor.exemplarInfo
      = { group := 0xA9C2C209, instanceID := 0xA0D07129 } ∧
    LegalizeGamblingOrdinanceUpgrade.ctor.isIncomeOrdinance = true ∧
    LegalizeGamblingOrdinanceUpgrade.ctor.baseMonthlyIncome = 100 ∧
    float32Near LegalizeGamblingOrdinanceUpgrade.ctor.residentialLowWealthIncomeFactor 5 100
      = true ∧
    float32Near LegalizeGamblingOrdinanceUpgrade.ctor.residentialMedWealthIncomeFactor 3 100
      = true ∧
    float32Near LegalizeGamblingOrdinanceUpgrade.ctor.residentialHighWealthIncomeFactor 1 100
      = true ∧
    LegalizeGamblingOrdinanceUpgrade.ctor.advisorID = 0 ∧
    ∀ info name nameKey description descriptionKey yearFirstAvailable monthlyChance
      enactmentIncome retracmentIncome monthlyConstantIncome monthlyIncomeFactor advisorID
      isIncomeOrdinance properties,
      (SC4BuiltInOrdinanceBase.ctor info name nameKey description descriptionKey
        yearFirstAvailable monthlyChance enactmentIncome retracmentIncome
        monthlyConstantIncome monthlyIncomeFactor advisorID isIncomeOrdinance
        properties).advisorID = 0 := by
  refine ⟨rfl, rfl, rfl, rfl, rfl, rfl, rfl, rfl, rfl, rfl, rfl, rfl, rfl, rfl, by decide,
    by decide, by decide, rfl, ?_⟩
  intros
  rfl

/-! ## Localized strings: the claims -/

/-- C33 (localized strings).  When the lookup for the name key or the lookup for the
description key fails, `LoadLocalizedStringResources` leaves the record, so the name and
the description, as it was.  When both succeed, the name afterwards is the localized
name if that is not empty and differs from the name, case ignored, and is the old name
otherwise, and likewise for the description: a text is replaced only by a localized
string that is not empty, and an empty localized string leaves the text as it was. -/
theorem localized_strings_effect (r : SC4BuiltInOrdinanceBase) (h : Host) :
    (h.GetLocalizedString r.nameKey = none ∨ h.GetLocalizedString r.descriptionKey = none →
      (r.LoadLocalizedStringResources h).1 = r) ∧
    (∀ n d, h.GetLocalizedString r.nameKey = some n →
      h.GetLocalizedString r.descriptionKey = some d →
      (r.LoadLocalizedStringResources h).1.name
        = (if n ≠ [] ∧ IsEqual n r.name false = false then n else r.name) ∧
      (r.LoadLocalizedStringResources h).1.description
        = (if d ≠ [] ∧ IsEqual d r.description false = false then d else r.description) ∧
      ((r.LoadLocalizedStringResources h).1.name ≠ r.name →
        (r.LoadLocalizedStringResources h).1.name = n ∧ n ≠ []) ∧
      ((r.LoadLocalizedStringResources h).1.description ≠ r.description →
        (r.LoadLocalizedStringResources h).1.description = d ∧ d ≠ []) ∧
      (n = [] → (r.LoadLocalizedStringResources h).1.name = r.name) ∧
      (d = [] → (r.LoadLocalizedStringResources h).1.description = r.description)) := by
  constructor
  · intro hf
    unfold SC4BuiltInOrdinanceBase.LoadLocalizedStringResources
    rcases hf with hf | hf
    · simp only [hf]
    · cases hn : h.GetLocalizedString r.nameKey with
      | none => rfl
      | some n => simp only [hf]
  · intro n d hn hd
    have hname : (r.LoadLocalizedStringResources h).1.name
        = (if n ≠ [] ∧ IsEqual n r.name false = false then n else r.name) := by
      simp only [SC4BuiltInOrdinanceBase.LoadLocalizedStringResources, hn, hd]
      cases n with
      | nil => split_ifs <;> simp_all
      | cons a n => cases hq : IsEqual (a :: n) r.name false <;> split_ifs <;> simp_all
    have hdesc : (r.LoadLocalizedStringResources h).1.description
        = (if d ≠ [] ∧ IsEqual d r.description false = false then d else r.description) := by
      simp only [SC4BuiltInOrdinanceBase.LoadLocalizedStringResources, hn, hd]
      cases d with
      | nil => split_ifs <;> simp_all
      | cons a d =>
        cases hq : IsEqual (a :: d) r.description false <;> split_ifs <;> simp_all
    refine ⟨hname, hdesc, ?_, ?_, ?_, ?_⟩
    · rw [hname]
      split_ifs with hc
      · exact fun _ => ⟨rfl, hc.1⟩
      · exact fun hne => absurd rfl hne
    · rw [hdesc]
      split_ifs with hc
      · exact fun _ => ⟨rfl, hc.1⟩
      · exact fun hne => absurd rfl hne
    · intro h0
      rw [hname, if_neg (fun hc => hc.1 h0)]
    · intro h0
      rw [hdesc, if_neg (fun hc => hc.1 h0)]

set_option maxRecDepth 20000 in
/-- An instance of C33: the string table holds "Hi" for the name key and the empty text
for the description key; the name becomes "Hi" and the description stays. -/
theorem localized_strings_effect_witness :
    (LegalizeGamblingOrdinanceUpgrade.ctor.toSC4BuiltInOrdinanceBase.LoadLocalizedStringResources
        localizedHost).1.name = [72, 105] ∧
    (LegalizeGamblingOrdinanceUpgrade.ctor.toSC4BuiltInOrdinanceBase.LoadLocalizedStringResources
        localizedHost).1.description
      = LegalizeGamblingOrdinanceUpgrade.ctor.description :=
  ⟨((localized_strings_effect LegalizeGamblingOrdinanceUpgrade.ctor.toSC4BuiltInOrdinanceBase
      localizedHost).2 [72, 105] [] (by decide) (by decide)).1.trans (by decide),
   ((localized_strings_effect LegalizeGamblingOrdinanceUpgrade.ctor.toSC4BuiltInOrdinanceBase
      localizedHost).2 [72, 105] [] (by decide) (by decide)).2.2.2.2.2 rfl⟩

/-! ## The cached income and copying: the claims -/

/-- C34 (forcing the cached income).  `ForceMonthlyAdjustedIncome(v)` returns true and
leaves the record as it was, so `GetMonthlyAdjustedIncome` returns afterwards what it
returned before and `Write` emits the old value.  At the failing input, the constructed
record and `v = 5`, the cached income afterwards is 0, not 5. -/
theorem force_leaves_cached_income :
    (∀ (r : SC4BuiltInOrdinanceBase) (v : Int), r.ForceMonthlyAdjustedIncome v = (true, r)) ∧
    (∀ (r : SC4BuiltInOrdinanceBase) (v : Int),
      (r.ForceMonthlyAdjustedIncome v).2.GetMonthlyAdjustedIncome
        = r.GetMonthlyAdjustedIncome) ∧
    (LegalizeGamblingOrdinanceUpgrade.ctor.toSC4BuiltInOrdinanceBase.ForceMonthlyAdjustedIncome
      5).2.GetMonthlyAdjustedIncome = 0 ∧
    Prim.sint64 0 ∈
      wireForm (LegalizeGamblingOrdinanceUpgrade.ctor.toSC4BuiltInOrdinanceBase.ForceMonthlyAdjustedIncome
        5).2 ∧
    Prim.sint64 5 ∉
      wireForm (LegalizeGamblingOrdinanceUpgrade.ctor.toSC4BuiltInOrdinanceBase.ForceMonthlyAdjustedIncome
        5).2 := by
  refine ⟨fun _ _ => rfl, fun _ _ => rfl, rfl, by decide, by decide⟩

/-- C35 (copy assignment).  After `a = b` for another object `b`, every persisted member
of `a` other than the name equals that of `b`, and the name of `a` is the one `a` had;
assignment of an object to itself leaves it as it was.  At the failing input, `a` is
`priorRecord` with the name "A" and `b` the constructed record: the name of `a` stays
"A", and `Write` of `a` and `Write` of `b` to an open sink differ. -/
theorem assign_keeps_name :
    (∀ a b : SC4BuiltInOrdinanceBase,
      (a.assign (some b)).name = a.name ∧
      persisted (a.assign (some b)) = persisted { b with name := a.name }) ∧
    (∀ a : SC4BuiltInOrdinanceBase, a.assign none = a) ∧
    (∀ b : SC4BuiltInOrdinanceBase, persisted b.copyCtor = persisted b) ∧
    priorRecord.name = [65] ∧
    (priorRecord.assign
      (some LegalizeGamblingOrdinanceUpgrade.ctor.toSC4BuiltInOrdinanceBase)).name = [65] ∧
    (priorRecord.assign
      (some LegalizeGamblingOrdinanceUpgrade.ctor.toSC4BuiltInOrdinanceBase)).name
        ≠ LegalizeGamblingOrdinanceUpgrade.ctor.name ∧
    ((priorRecord.assign
      (some LegalizeGamblingOrdinanceUpgrade.ctor.toSC4BuiltInOrdinanceBase)).Write
        openSink).2.2.written
      ≠ (LegalizeGamblingOrdinanceUpgrade.ctor.toSC4BuiltInOrdinanceBase.Write
          openSink).2.2.written := by
  refine ⟨fun _ _ => ⟨rfl, rfl⟩, fun _ => rfl, fun _ => rfl, rfl, rfl, by decide, ?_⟩
  rw [Write_written _ _ (by decide), Write_written _ _ (by decide)]
  decide

/-! ## Decode then encode: the claims -/

theorem leValue_lt (bs : List Byte) : leValue bs < 256 ^ bs.length := by
  induction bs with
  | nil => simp [leValue]
  | cons b bs ih =>
    have hb := b.isLt
    simp only [leValue, List.length_cons, pow_succ]
    omega

theorem leBytes_leValue (bs : List Byte) : leBytes bs.length (leValue bs) = bs := by
  induction bs with
  | nil => rfl
  | cons b bs ih =>
    have hb := b.isLt
    have h1 : (b.val + 256 * leValue bs) % 256 = b.val := by omega
    have h2 : (b.val + 256 * leValue bs) / 256 = leValue bs := by omega
    simp only [List.length_cons, leValue, leBytes, h1, h2, ih]

theorem ofSint64_toSint64 (n : Nat) (h : n < 2 ^ 64) :
    ofSint64 (toSint64 n) = n ∧ -(2 ^ 63) ≤ toSint64 n ∧ toSint64 n < 2 ^ 63 := by
  unfold toSint64 ofSint64
  by_cases hn : n < 2 ^ 63
  · rw [if_pos hn]
    have : ((n : Int)) % 2 ^ 64 = n := Int.emod_eq_of_lt (by omega) (by omega)
    rw [this]
    omega
  · rw [if_neg hn]
    have : ((n : Int) - 2 ^ 64) % 2 ^ 64 = n := by
      rw [Int.sub_emod, Int.emod_self, sub_zero, Int.emod_emod_of_dvd _ (dvd_refl _)]
      exact Int.emod_eq_of_lt (by omega) (by omega)
    rw [this]
    omega

theorem GetVoid_inv (s s1 : IStream) (n : Nat) (bs : List Byte)
    (h : s.GetVoid n = some (bs, s1)) :
    s.bytes = bs ++ s1.bytes ∧ bs.length = n ∧ s1.error = s.error := by
  unfold IStream.GetVoid at h
  split_ifs at h with hn
  simp only [Option.some.injEq, Prod.mk.injEq] at h
  obtain ⟨h1, h2⟩ := h
  subst h1 h2
  simp [hn]

theorem GetUint16_inv (s s1 : IStream) (v : Nat) (h : s.GetUint16 = some (v, s1)) :
    s.bytes = leBytes 2 v ++ s1.bytes ∧ v < 2 ^ 16 ∧ s1.error = s.error := by
  unfold IStream.GetUint16 at h
  rcases hx : s.GetVoid 2 with _ | ⟨bs, s2⟩
  · simp [hx] at h
  · simp only [hx, Option.map_some', Option.some.injEq, Prod.mk.injEq] at h
    obtain ⟨h1, h2⟩ := h
    subst h1 h2
    obtain ⟨k1, k2, k3⟩ := GetVoid_inv _ _ _ _ hx
    have hl := leValue_lt bs
    have hb := leBytes_leValue bs
    rw [k2] at hl hb
    exact ⟨by rw [hb]; exact k1, by simpa using hl, k3⟩

theorem GetUint32_inv (s s1 : IStream) (v : Nat) (h : s.GetUint32 = some (v, s1)) :
    s.bytes = leBytes 4 v ++ s1.bytes ∧ v < 2 ^ 32 ∧ s1.error = s.error := by
  unfold IStream.GetUint32 at h
  rcases hx : s.GetVoid 4 with _ | ⟨bs, s2⟩
  · simp [hx] at h
  · simp only [hx, Option.map_some', Option.some.injEq, Prod.mk.injEq] at h
    obtain ⟨h1, h2⟩ := h
    subst h1 h2
    obtain ⟨k1, k2, k3⟩ := GetVoid_inv _ _ _ _ hx
    have hl := leValue_lt bs
    have hb := leBytes_leValue bs
    rw [k2] at hl hb
    exact ⟨by rw [hb]; exact k1, by simpa using hl, k3⟩

theorem GetFloat32_inv (s s1 : IStream) (v : Nat) (h : s.GetFloat32 = some (v, s1)) :
    s.bytes = leBytes 4 v ++ s1.bytes ∧ v < 2 ^ 32 ∧ s1.error = s.error :=
  GetUint32_inv s s1 v h

theorem GetSint64_inv (s s1 : IStream) (v : Int) (h : s.GetSint64 = some (v, s1)) :
    s.bytes = leBytes 8 (ofSint64 v) ++ s1.bytes ∧ (-(2 ^ 63) ≤ v ∧ v < 2 ^ 63) ∧
      s1.error = s.error := by
  unfold IStream.GetSint64 at h
  rcases hx : s.GetVoid 8 with _ | ⟨bs, s2⟩
  · simp [hx] at h
  · simp only [hx, Option.map_some', Option.some.injEq, Prod.mk.injEq] at h
    obtain ⟨h1, h2⟩ := h
    subst h1 h2
    obtain ⟨k1, k2, k3⟩ := GetVoid_inv _ _ _ _ hx
    have hl := leValue_lt bs
    have hb := leBytes_leValue bs
    rw [k2] at hl hb
    obtain ⟨q1, q2, q3⟩ := ofSint64_toSint64 (leValue bs) (by simpa using hl)
    exact ⟨by rw [q1, hb]; exact k1, ⟨q2, q3⟩, k3⟩

theorem GetGZStr_inv (s s1 : IStream) (str : List Byte) (h : s.GetGZStr = some (str, s1)) :
    s.bytes = leBytes 4 str.length ++ (str ++ s1.bytes) ∧ str.length < 2 ^ 32 ∧
      s1.error = s.error := by
  unfold IStream.GetGZStr at h
  rcases hx : s.GetUint32 with _ | ⟨n, s2⟩
  · simp [hx] at h
  · simp only [hx] at h
    obtain ⟨k1, k2, k3⟩ := GetUint32_inv _ _ _ hx
    obtain ⟨j1, j2, j3⟩ := GetVoid_inv _ _ _ _ h
    rw [j2]
    exact ⟨by rw [k1, j1], k2, by rw [j3, k3]⟩

theorem ReadBool_inv (s s1 : IStream) (v : Bool) (h : ReadBool s = some (v, s1)) :
    ∃ b : Byte, s.bytes = leBytes 1 b.val ++ s1.bytes ∧ v = decide (b.val ≠ 0) ∧
      s1.error = s.error := by
  unfold ReadBool at h
  rcases hx : s.GetVoid 1 with _ | ⟨bs, s2⟩
  · simp [hx] at h
  · simp only [hx, Option.some.injEq, Prod.mk.injEq] at h
    obtain ⟨h1, h2⟩ := h
    subst h2
    obtain ⟨k1, k2, k3⟩ := GetVoid_inv _ _ _ _ hx
    have hl := leValue_lt bs
    have hb := leBytes_leValue bs
    rw [k2] at hl hb
    refine ⟨⟨leValue bs, by simpa using hl⟩, ?_, h1.symm, k3⟩
    simp only
    rw [hb]
    exact k1

theorem block_inv (s : IStream) (info : BuiltInOrdinanaceExemplarInfo)
    (h : (ReadSC4BuiltInOrdnanceProperties s info).1 = true) :
    ∃ g i, g < 2 ^ 32 ∧ i < 2 ^ 32 ∧
      s.bytes = wireBytes (blockForm 2 2 0 g kExemplarTypeID i)
        ++ (ReadSC4BuiltInOrdnanceProperties s info).2.2.bytes ∧
      (ReadSC4BuiltInOrdnanceProperties s info).2.1 = { group := g, instanceID := i } := by
  generalize hres : ReadSC4BuiltInOrdnanceProperties s info = res at h ⊢
  unfold ReadSC4BuiltInOrdnanceProperties at hres
  rcases hx1 : s.GetUint16 with _ | ⟨a, s1⟩
  · simp only [hx1] at hres; subst hres; simp at h
  simp only [hx1] at hres
  by_cases ha : a ≠ 2
  · rw [if_pos ha] at hres; subst hres; simp at h
  rw [if_neg ha] at hres
  rcases hx2 : s1.GetUint16 with _ | ⟨b, s2⟩
  · simp only [hx2] at hres; subst hres; simp at h
  simp only [hx2] at hres
  by_cases hb : b ≠ 2
  · rw [if_pos hb] at hres; subst hres; simp at h
  rw [if_neg hb] at hres
  rcases hx3 : s2.GetUint32 with _ | ⟨c, s3⟩
  · simp only [hx3] at hres; subst hres; simp at h
  simp only [hx3] at hres
  by_cases hc : c ≠ 0
  · rw [if_pos hc] at hres; subst hres; simp at h
  rw [if_neg hc] at hres
  rcases hx4 : s3.GetUint32 with _ | ⟨g, s4⟩
  · simp only [hx4] at hres; subst hres; simp at h
  simp only [hx4] at hres
  rcases hx5 : s4.GetUint32 with _ | ⟨t, s5⟩
  · simp only [hx5] at hres; subst hres; simp at h
  simp only [hx5] at hres
  by_cases ht : t ≠ kExemplarTypeID
  · rw [if_pos ht] at hres; subst hres; simp at h
  rw [if_neg ht] at hres
  rcases hx6 : s5.GetUint32 with _ | ⟨i, s6⟩
  · simp only [hx6] at hres; subst hres; simp at h
  simp only [hx6] at hres
  subst hres
  obtain ⟨e1, _, _⟩ := GetUint16_inv _ _ _ hx1
  obtain ⟨e2, _, _⟩ := GetUint16_inv _ _ _ hx2
  obtain ⟨e3, _, _⟩ := GetUint32_inv _ _ _ hx3
  obtain ⟨e4, r4, _⟩ := GetUint32_inv _ _ _ hx4
  obtain ⟨e5, _, _⟩ := GetUint32_inv _ _ _ hx5
  obtain ⟨e6, r6, _⟩ := GetUint32_inv _ _ _ hx6
  have ha2 : a = 2 := not_not.mp ha
  have hb2 : b = 2 := not_not.mp hb
  have hc2 : c = 0 := not_not.mp hc
  have ht2 : t = kExemplarTypeID := not_not.mp ht
  subst ha2 hb2 hc2 ht2
  refine ⟨g, i, r4, r6, ?_, rfl⟩
  simp only [blockForm, wireBytes, Prim.bytes, List.append_assoc, List.nil_append]
  rw [e1, e2, e3, e4, e5, e6]

theorem Read_inv (r : SC4BuiltInOrdinanceBase) (stream : IStream)
    (h : (r.Read stream).1 = true) :
    ∃ q b0 b1 b2 b3 b4, q.InRange ∧ stream.error = 0 ∧
      stream.bytes = wireBytes (fullForm q b0 b1 b2 b3 b4) ++ (r.Read stream).2.2.bytes := by
  generalize hres : r.Read stream = res at h ⊢
  unfold SC4BuiltInOrdinanceBase.Read at hres
  by_cases herr : stream.GetError ≠ 0
  · rw [if_pos herr] at hres; subst hres; simp at h
  rw [if_neg herr] at hres
  rcases hx0 : stream.GetUint16 with _ | ⟨v0, s0⟩
  · simp only [hx0] at hres; subst hres; simp at h
  simp only [hx0] at hres
  by_cases hver : v0 ≠ 4
  · rw [if_pos hver] at hres; subst hres; simp at h
  rw [if_neg hver] at hres
  rcases hx1 : ReadBool s0 with _ | ⟨v1, s1⟩
  · simp only [hx1] at hres; subst hres; simp at h
  simp only [hx1] at hres
  rcases hx2 : s1.GetUint32 with _ | ⟨v2, s2⟩
  · simp only [hx2] at hres; subst hres; simp at h
  simp only [hx2] at hres
  rcases hx3 : s2.GetGZStr with _ | ⟨v3, s3⟩
  · simp only [hx3] at hres; subst hres; simp at h
  simp only [hx3] at hres
  rcases hx4 : s3.GetGZStr with _ | ⟨v4, s4⟩
  · simp only [hx4] at hres; subst hres; simp at h
  simp only [hx4] at hres
  rcases hx5 : s4.GetUint32 with _ | ⟨v5, s5⟩
  · simp only [hx5] at hres; subst hres; simp at h
  simp only [hx5] at hres
  rcases hx6 : s5.GetFloat32 with _ | ⟨v6, s6⟩
  · simp only [hx6] at hres; subst hres; simp at h
  simp only [hx6] at hres
  rcases hx7 : s6.GetSint64 with _ | ⟨v7, s7⟩
  · simp only [hx7] at hres; subst hres; simp at h
  simp only [hx7] at hres
  rcases hx8 : s7.GetSint64 with _ | ⟨v8, s8⟩
  · simp only [hx8] at hres; subst hres; simp at h
  simp only [hx8] at hres
  rcases hx9 : s8.GetSint64 with _ | ⟨v9, s9⟩
  · simp only [hx9] at hres; subst hres; simp at h
  simp only [hx9] at hres
  rcases hx10 : s9.GetFloat32 with _ | ⟨v10, s10⟩
  · simp only [hx10] at hres; subst hres; simp at h
  simp only [hx10] at hres
  rcases hx11 : s10.GetUint32 with _ | ⟨v11, s11⟩
  · simp only [hx11] at hres; subst hres; simp at h
  simp only [hx11] at hres
  rcases hx12 : ReadBool s11 with _ | ⟨v12, s12⟩
  · simp only [hx12] at hres; subst hres; simp at h
  simp only [hx12] at hres
  rcases hx13 : ReadBool s12 with _ | ⟨v13, s13⟩
  · simp only [hx13] at hres; subst hres; simp at h
  simp only [hx13] at hres
  rcases hx14 : ReadBool s13 with _ | ⟨v14, s14⟩
  · simp only [hx14] at hres; subst hres; simp at h
  simp only [hx14] at hres
  rcases hx15 : s14.GetSint64 with _ | ⟨v15, s15⟩
  · simp only [hx15] at hres; subst hres; simp at h
  simp only [hx15] at hres
  rcases hx16 : ReadBool s15 with _ | ⟨v16, s16⟩
  · simp only [hx16] at hres; subst hres; simp at h
  simp only [hx16] at hres
  subst hres
  simp only at h ⊢
  obtain ⟨g, i, rg, ri, eb, _⟩ := block_inv _ _ h
  have hv4 : v0 = 4 := not_not.mp hver
  subst hv4
  obtain ⟨e0, r0, _⟩ := GetUint16_inv _ _ _ hx0
  obtain ⟨c1, e1, _, _⟩ := ReadBool_inv _ _ _ hx1
  obtain ⟨e2, r2, _⟩ := GetUint32_inv _ _ _ hx2
  obtain ⟨e3, r3, _⟩ := GetGZStr_inv _ _ _ hx3
  obtain ⟨e4, r4, _⟩ := GetGZStr_inv _ _ _ hx4
  obtain ⟨e5, r5, _⟩ := GetUint32_inv _ _ _ hx5
  obtain ⟨e6, r6, _⟩ := GetFloat32_inv _ _ _ hx6
  obtain ⟨e7, r7, _⟩ := GetSint64_inv _ _ _ hx7
  obtain ⟨e8, r8, _⟩ := GetSint64_inv _ _ _ hx8
  obtain ⟨e9, r9, _⟩ := GetSint64_inv _ _ _ hx9
  obtain ⟨e10, r10, _⟩ := GetFloat32_inv _ _ _ hx10
  obtain ⟨e11, r11, _⟩ := GetUint32_inv _ _ _ hx11
  obtain ⟨c12, e12, _, _⟩ := ReadBool_inv _ _ _ hx12
  obtain ⟨c13, e13, _, _⟩ := ReadBool_inv _ _ _ hx13
  obtain ⟨c14, e14, _, _⟩ := ReadBool_inv _ _ _ hx14
  obtain ⟨e15, r15, _⟩ := GetSint64_inv _ _ _ hx15
  obtain ⟨c16, e16, _, _⟩ := ReadBool_inv _ _ _ hx16
  refine ⟨{ r with
      clsid := v2, name := v3, description := v4, yearFirstAvailable := v5
      monthlyChance := v6, enactmentIncome := v7, retracmentIncome := v8
      monthlyConstantIncome := v9, monthlyIncomeFactor := v10, advisorID := v11
      monthlyAdjustedIncome := v15, exemplarInfo := { group := g, instanceID := i } },
    c1, c12, c13, c14, c16, ⟨r2, r3, r4, r5, r6, r7, r8, r9, r10, r11, r15, rg, ri⟩, ?_, ?_⟩
  · simpa [IStream.GetError] using herr
  · simp only [fullForm, headerForm, blockForm, wireBytes, Prim.bytes, List.append_assoc,
      List.nil_append]
    simp only [blockForm, wireBytes, Prim.bytes, List.append_assoc, List.nil_append] at eb
    rw [e0, e1, e2, e3, e4, e5, e6, e7, e8, e9, e10, e11, e12, e13, e14, e15, e16, eb]

theorem Read_fullForm (r q : SC4BuiltInOrdinanceBase) (b0 b1 b2 b3 b4 : Byte)
    (rest : List Byte) (hq : q.InRange) :
    (r.Read { bytes := wireBytes (fullForm q b0 b1 b2 b3 b4) ++ rest, error := 0 }).2.1
      = { decodedHeader r q b0 b1 b2 b3 b4 with exemplarInfo := q.exemplarInfo } := by
  have hg := hq.2.2.2.2.2.2.2.2.2.2.2.1
  have hi := hq.2.2.2.2.2.2.2.2.2.2.2.2
  rw [fullForm, wireBytes_append, List.append_assoc, Read_header r q b0 b1 b2 b3 b4 _ hq]
  have hb := (block_read r.exemplarInfo 2 2 0 q.exemplarInfo.group kExemplarTypeID
    q.exemplarInfo.instanceID rest 0 (by norm_num) (by norm_num) (by norm_num) hg
    (by decide) hi).2.1
  simp only [hb, and_self, if_true]

theorem wireForm_decoded (r q : SC4BuiltInOrdinanceBase) (b0 b1 b2 b3 b4 : Byte)
    (h0 : b0.val ≤ 1) (h1 : b1.val ≤ 1) (h2 : b2.val ≤ 1) (h3 : b3.val ≤ 1)
    (h4 : b4.val ≤ 1) :
    wireForm { decodedHeader r q b0 b1 b2 b3 b4 with exemplarInfo := q.exemplarInfo }
      = fullForm q b0 b1 b2 b3 b4 := by
  have hb : ∀ b : Byte, b.val ≤ 1 → (if decide (b.val ≠ 0) = true then 1 else 0) = b.val := by
    intro b hb
    by_cases hz : b.val = 0
    · simp [hz]
    · simp only [ne_eq, hz, not_false_eq_true, decide_True, if_true]; omega
  simp only [wireForm, fullForm, headerForm, blockForm, decodedHeader, kExemplarTypeID,
    hb b0 h0, hb b1 h1, hb b2 h2, hb b3 h3, hb b4 h4, List.cons_append, List.nil_append]

theorem block_fullForm (info : BuiltInOrdinanaceExemplarInfo) (g i : Nat) (rest : List Byte)
    (hg : g < 2 ^ 32) (hi : i < 2 ^ 32) :
    ReadSC4BuiltInOrdnanceProperties
        { bytes := wireBytes (blockForm 2 2 0 g kExemplarTypeID i) ++ rest, error := 0 } info
      = (true, { group := g, instanceID := i }, { bytes := rest, error := 0 }) := by
  have hT : kExemplarTypeID < 2 ^ 32 := by decide
  have hb := block_read info 2 2 0 g kExemplarTypeID i rest 0 (by norm_num) (by norm_num)
    (by norm_num) hg hT hi
  have h1 := hb.1
  have h2 := hb.2.1
  have h3 := hb.2.2 rfl rfl rfl rfl
  simp only [and_self, decide_True] at h1
  simp only [and_self, if_true] at h2
  exact Prod.ext h1 (Prod.ext h2 h3)

theorem Read_fullForm_ok (r q : SC4BuiltInOrdinanceBase) (b0 b1 b2 b3 b4 : Byte)
    (rest : List Byte) (hq : q.InRange) :
    r.Read { bytes := wireBytes (fullForm q b0 b1 b2 b3 b4) ++ rest, error := 0 }
      = (true, { decodedHeader r q b0 b1 b2 b3 b4 with exemplarInfo := q.exemplarInfo },
          { bytes := rest, error := 0 }) := by
  have hg := hq.2.2.2.2.2.2.2.2.2.2.2.1
  have hi := hq.2.2.2.2.2.2.2.2.2.2.2.2
  rw [fullForm, wireBytes_append, List.append_assoc, Read_header r q b0 b1 b2 b3 b4 _ hq,
    block_fullForm r.exemplarInfo _ _ rest hg hi]

theorem Write_accepted (r : SC4BuiltInOrdinanceBase) (s : OStream) (he : s.error = 0)
    (ha : ∀ k p, (wireForm r)[k]? = some p →
      s.accepts (s.written ++ (wireForm r).take k) p = true) :
    (r.Write s).1 = true ∧ (r.Write s).2.2.written = s.written ++ wireForm r := by
  have hw : (r.Write s).1 = true := by
    rw [Write_eq_putAll]
    simp only [he, ne_eq, not_true_eq_false, if_false]
    exact (putAll_true_iff (wireForm r) s).2 ha
  exact ⟨hw, Write_written r s hw⟩

/-- C36 (decode, then encode).  When `Read` succeeds on a stream, the bytes it consumed
are those of 23 primitives in wire order: the version 4, the sixteen members, and an
exemplar block with the three constants.  Whenever the consumed bytes are read as such a
sequence with each of the five boolean bytes 0 or 1, the wire form of the record read is
that sequence; `Write` of the record to a sink without error that accepts these
primitives returns true and appends exactly that sequence, in that order; and any `Write`
of the record that returns true has appended exactly that sequence.  On its own,
`ReadBool` maps every byte other than 0 to true and 0 to false, `WriteBool` writes the
byte 1 for true and 0 for false, and `ReadBool` over the byte `WriteBool` writes gives
the value back. -/
theorem read_then_write (r : SC4BuiltInOrdinanceBase) (stream : IStream) (sink : OStream)
    (hr : (r.Read stream).1 = true) :
    (∃ q b0 b1 b2 b3 b4, q.InRange ∧ stream.error = 0 ∧
      stream.bytes = wireBytes (fullForm q b0 b1 b2 b3 b4) ++ (r.Read stream).2.2.bytes) ∧
    (∀ q b0 b1 b2 b3 b4, q.InRange →
      stream.bytes = wireBytes (fullForm q b0 b1 b2 b3 b4) ++ (r.Read stream).2.2.bytes →
      b0.val ≤ 1 → b1.val ≤ 1 → b2.val ≤ 1 → b3.val ≤ 1 → b4.val ≤ 1 →
      wireForm (r.Read stream).2.1 = fullForm q b0 b1 b2 b3 b4 ∧
      (sink.error = 0 →
        (∀ k p, (fullForm q b0 b1 b2 b3 b4)[k]? = some p →
          sink.accepts (sink.written ++ (fullForm q b0 b1 b2 b3 b4).take k) p = true) →
        ((r.Read stream).2.1.Write sink).1 = true ∧
        ((r.Read stream).2.1.Write sink).2.2.written
          = sink.written ++ fullForm q b0 b1 b2 b3 b4) ∧
      (((r.Read stream).2.1.Write sink).1 = true →
        ((r.Read stream).2.1.Write sink).2.2.written
          = sink.written ++ fullForm q b0 b1 b2 b3 b4)) ∧
    (∀ (b : Byte) (rest : List Byte) (e : Nat),
      ReadBool { bytes := b :: rest, error := e }
        = some (decide (b.val ≠ 0), { bytes := rest, error := e })) ∧
    (∀ (s : OStream) (v : Bool),
      WriteBool s v = s.put (.void1 (if v then 1 else 0))) ∧
    (∀ (v : Bool) (rest : List Byte) (e : Nat),
      ReadBool { bytes := (Prim.void1 (if v then 1 else 0)).bytes ++ rest, error := e }
        = some (v, { bytes := rest, error := e })) := by
  obtain ⟨q0, c0, c1, c2, c3, c4, hq0, herr, hbytes0⟩ := Read_inv r stream hr
  refine ⟨⟨q0, c0, c1, c2, c3, c4, hq0, herr, hbytes0⟩, ?_, ?_, fun _ _ => rfl, ?_⟩
  · intro q b0 b1 b2 b3 b4 hq hbytes h0 h1 h2 h3 h4
    have hval : (r.Read stream).2.1
        = { decodedHeader r q b0 b1 b2 b3 b4 with exemplarInfo := q.exemplarInfo } := by
      generalize (r.Read stream).2.2.bytes = rest at hbytes
      have hs : stream
          = { bytes := wireBytes (fullForm q b0 b1 b2 b3 b4) ++ rest, error := 0 } := by
        cases stream
        simp only at herr hbytes
        subst herr hbytes
        rfl
      rw [hs]
      exact Read_fullForm r q b0 b1 b2 b3 b4 rest hq
    have hw := wireForm_decoded r q b0 b1 b2 b3 b4 h0 h1 h2 h3 h4
    rw [hval]
    refine ⟨hw, fun he ha => ?_, fun hwr => ?_⟩
    · rw [← hw] at ha ⊢
      exact Write_accepted _ sink he ha
    · rw [Write_written _ _ hwr, hw]
  · intro b rest e
    simp [ReadBool, IStream.GetVoid, leValue]
  · intro v rest e
    cases v
    · exact ReadBool_wire 0 rest e
    · exact ReadBool_wire 1 rest e

set_option maxRecDepth 20000 in
/-- An instance of C36: `priorRecord` reads the 23 primitives of the constructed record,
whose boolean bytes are 0, 0, 0, 0 and 1; `Write` of the record read to an open sink
returns true and emits those 23 primitives. -/
theorem read_then_write_witness :
    ((priorRecord.Read
        { bytes := wireBytes
            (fullForm LegalizeGamblingOrdinanceUpgrade.ctor.toSC4BuiltInOrdinanceBase 0 0 0 0 1),
          error := 0 }).2.1.Write openSink).1 = true ∧
    ((priorRecord.Read
        { bytes := wireBytes
            (fullForm LegalizeGamblingOrdinanceUpgrade.ctor.toSC4BuiltInOrdinanceBase 0 0 0 0 1),
          error := 0 }).2.1.Write openSink).2.2.written
      = fullForm LegalizeGamblingOrdinanceUpgrade.ctor.toSC4BuiltInOrdinanceBase 0 0 0 0 1 :=
  have hs : IStream.mk (wireBytes
      (fullForm LegalizeGamblingOrdinanceUpgrade.ctor.toSC4BuiltInOrdinanceBase 0 0 0 0 1)) 0
      = IStream.mk (wireBytes
          (fullForm LegalizeGamblingOrdinanceUpgrade.ctor.toSC4BuiltInOrdinanceBase 0 0 0 0 1)
            ++ []) 0 := by rw [List.append_nil]
  have hok := Read_fullForm_ok priorRecord
    LegalizeGamblingOrdinanceUpgrade.ctor.toSC4BuiltInOrdinanceBase 0 0 0 0 1 [] ctor_InRange
  (read_then_write priorRecord
    (IStream.mk (wireBytes
      (fullForm LegalizeGamblingOrdinanceUpgrade.ctor.toSC4BuiltInOrdinanceBase 0 0 0 0 1)) 0)
    openSink (by rw [hs, hok])).2.1
    LegalizeGamblingOrdinanceUpgrade.ctor.toSC4BuiltInOrdinanceBase 0 0 0 0 1 ctor_InRange
    (by rw [hs, hok]) (by decide) (by decide) (by decide) (by decide) (by decide)
    |>.2.1 rfl (fun _ _ _ => rfl)

end SC4
